import Mathlib

/-!
Verification of the Sudoku generator/solver (`puzzle_grid.py`, `solver.py`).

Modelling conventions:
* Cell values are modelled as `Int` (Python ints), so the `val < 0` checks of the
  source are kept.  Coordinates are modelled as `Nat`; the `x < 0` half of each
  Python bounds check is unrepresentable and only the upper bound remains.
* Python `set` objects become `Finset Int`; `set.add` is `insert`, `set.discard`
  is `Finset.erase`.
* A Python method that mutates `self` and may raise becomes a function
  `PuzzleGrid → ... → Except GridError α × PuzzleGrid`: the returned grid is the
  state of the object when the call returns *or raises* (Python leaves the
  mutated object behind when an exception propagates, and several claims are
  about exactly that state).
* `random.choice` / `random.shuffle` are modelled by explicit parameters: a
  stream `r : Nat → Nat` with a position counter for `choice` (the chosen
  element is taken from the ascending enumeration of the candidate set), and a
  reordering function for `shuffle`.
* The solver callback `solver_callback: Callable[[], bool]` is a closure over
  the shared grid; it is modelled as a function of the current grid.
-/

namespace Sudoku

def NUM_ROWS : Nat := 9
def NUM_COLUMNS : Nat := 9
def BOX_SIZE : Nat := 3
def NUM_BOXES_Y : Nat := NUM_ROWS / BOX_SIZE
def NUM_BOXES_X : Nat := NUM_COLUMNS / BOX_SIZE
def MAX_FAILED_SPACE_CONFIGURATIONS : Nat := 500

/-- `possible_values = [i + 1 for i in range(9)]`. -/
def possible_values : List Int := (List.range 9).map (fun i => (i : Int) + 1)

/-- Enumeration of a `Finset` of digits as a list, modelling Python's
`list(s)` for the sets this program builds (always subsets of `{1, ..., 9}`,
so filtering the ascending digit list enumerates exactly the elements, in
ascending order; Python's set iteration order is unspecified, and the
ascending order is this embedding's choice). -/
def listOfSet (s : Finset Int) : List Int :=
  possible_values.filter (fun v => v ∈ s)

/-- The distinct raise sites of `GridException`, with the data interpolated
into the exception message as payload. -/
inductive GridError where
  | badCoordinates (x y : Nat)
  | badCoordinate (y : Nat)
  | badValue (val : Int)
  | valueInBoxTwice (val : Int)
  | valueInRowTwice (val : Int)
  | valueInColumnTwice (val : Int)
  | wrongNumberOfRows (n : Nat)
  | wrongNumberOfEntries (n y : Nat)
  | badCellValue (val : Int)
  | couldNotGeneratePuzzle
  | tooManyFailedSpaceConfigurations (count : Nat)
  deriving DecidableEq, Repr

/-- The per-grid state of `PuzzleGrid` that `reset` initialises: the cell
matrix and the three definite-value index structures.  (The fields used only
by `add_spaces` — `required_spaces`, `min/max_spaces_per_box`,
`space_failure_count`, `grid_with_spaces` — are modelled separately in
`SpaceState`, and `solver_callback` is passed as a function argument.) -/
@[ext]
structure PuzzleGrid where
  cells : List (List Int)
  definite_values_per_row : List (Finset Int)
  definite_values_per_column : List (Finset Int)
  definite_values_per_box : List (List (Finset Int))
  deriving DecidableEq

namespace PuzzleGrid

/-- `reset`: clears the puzzle grid to a blank state. -/
def reset (_g : PuzzleGrid) : PuzzleGrid :=
  { cells := List.replicate NUM_ROWS (List.replicate NUM_COLUMNS 0)
    definite_values_per_row := List.replicate NUM_ROWS ∅
    definite_values_per_column := List.replicate NUM_COLUMNS ∅
    definite_values_per_box :=
      List.replicate NUM_BOXES_Y (List.replicate NUM_BOXES_X ∅) }

/-- The state `__init__` leaves behind (it calls `reset`). -/
def init : PuzzleGrid :=
  reset ⟨[], [], [], []⟩

/-! Reading and writing the concrete representation (`self.cells[y][x]`,
`self.definite_values_per_row[y]`, ...).  All call sites in the source are
guarded by bounds checks, so the `getD` defaults are never relevant on the
states the theorems speak about. -/

def cellAt (g : PuzzleGrid) (x y : Nat) : Int :=
  (g.cells.getD y []).getD x 0

def setCell (g : PuzzleGrid) (x y : Nat) (val : Int) : PuzzleGrid :=
  { g with cells := g.cells.set y ((g.cells.getD y []).set x val) }

def rowSetAt (g : PuzzleGrid) (y : Nat) : Finset Int :=
  g.definite_values_per_row.getD y ∅

def colSetAt (g : PuzzleGrid) (x : Nat) : Finset Int :=
  g.definite_values_per_column.getD x ∅

def boxSetAt (g : PuzzleGrid) (bx bY : Nat) : Finset Int :=
  (g.definite_values_per_box.getD bY []).getD bx ∅

def updateRowSet (g : PuzzleGrid) (y : Nat) (s : Finset Int) : PuzzleGrid :=
  { g with definite_values_per_row := g.definite_values_per_row.set y s }

def updateColSet (g : PuzzleGrid) (x : Nat) (s : Finset Int) : PuzzleGrid :=
  { g with definite_values_per_column := g.definite_values_per_column.set x s }

def updateBoxSet (g : PuzzleGrid) (bx bY : Nat) (s : Finset Int) : PuzzleGrid :=
  { g with definite_values_per_box :=
      (g.definite_values_per_box.set bY
        ((g.definite_values_per_box.getD bY []).set bx s)) }

/-- `get_value`: gets the value at a particular cell, 0 for a blank cell. -/
def get_value (g : PuzzleGrid) (x y : Nat) : Except GridError Int :=
  if NUM_COLUMNS ≤ x ∨ NUM_ROWS ≤ y then .error (.badCoordinates x y)
  else .ok (g.cellAt x y)

/-- The integer-division core of `get_box_coordinates`. -/
def boxCoordinates (cell_x cell_y : Nat) : Nat × Nat :=
  (cell_x / BOX_SIZE, cell_y / BOX_SIZE)

/-- `get_box_coordinates`, with its own bounds check.  Inside `set_value`,
`get_possible_values`, `clear_row` and `_add_spaces_impl` the source calls it
only after an equivalent bounds check has already passed, so those embeddings
use the core `boxCoordinates` directly. -/
def get_box_coordinates (cell_x cell_y : Nat) : Except GridError (Nat × Nat) :=
  if NUM_COLUMNS ≤ cell_x ∨ NUM_ROWS ≤ cell_y then
    .error (.badCoordinates cell_x cell_y)
  else .ok (boxCoordinates cell_x cell_y)

/-- `set_value`: assigns a value to a cell (0 clears it).  Mirrors the source
statement-for-statement; in particular `self.cells[y][x] = val` happens
*before* the three duplicate checks, and each duplicate check happens before
the corresponding `add`, so a raising call still returns a mutated grid. -/
def set_value (g : PuzzleGrid) (x y : Nat) (val : Int) :
    Except GridError Unit × PuzzleGrid :=
  if NUM_COLUMNS ≤ x ∨ NUM_ROWS ≤ y then (.error (.badCoordinates x y), g)
  else if val < 0 ∨ 9 < val then (.error (.badValue val), g)
  else
    let (box_x, box_y) := boxCoordinates x y
    let g1 :=
      if val = 0 then
        let existing_val := g.cellAt x y
        if 0 < existing_val then
          let g1 := g.updateBoxSet box_x box_y ((g.boxSetAt box_x box_y).erase existing_val)
          let g1 := g1.updateRowSet y ((g1.rowSetAt y).erase existing_val)
          g1.updateColSet x ((g1.colSetAt x).erase existing_val)
        else g
      else g
    let g2 := g1.setCell x y val
    if 0 < val then
      if val ∈ g2.boxSetAt box_x box_y then (.error (.valueInBoxTwice val), g2)
      else
        let g3 := g2.updateBoxSet box_x box_y (insert val (g2.boxSetAt box_x box_y))
        if val ∈ g3.rowSetAt y then (.error (.valueInRowTwice val), g3)
        else
          let g4 := g3.updateRowSet y (insert val (g3.rowSetAt y))
          if val ∈ g4.colSetAt x then (.error (.valueInColumnTwice val), g4)
          else (.ok (), g4.updateColSet x (insert val (g4.colSetAt x)))
    else (.ok (), g2)

/-- The in-bounds core of `get_possible_values`. -/
def possibleAt (g : PuzzleGrid) (x y : Nat) : Bool × Finset Int :=
  let (box_x, box_y) := boxCoordinates x y
  if 0 < g.cellAt x y then (false, ∅)
  else
    (true,
      (((possible_values.toFinset \ g.boxSetAt box_x box_y) \ g.rowSetAt y) \ g.colSetAt x))

/-- `get_possible_values`: candidate set for a blank cell, `(False, ∅)` for a
filled one. -/
def get_possible_values (g : PuzzleGrid) (x y : Nat) :
    Except GridError (Bool × Finset Int) :=
  if NUM_COLUMNS ≤ x ∨ NUM_ROWS ≤ y then .error (.badCoordinates x y)
  else .ok (g.possibleAt x y)

/-- One iteration of the `clear_row` loop body at column `x`. -/
def clearRowStep (y : Nat) (g : PuzzleGrid) (x : Nat) : PuzzleGrid :=
  let current_val := g.cellAt x y
  let g1 := g.updateRowSet y ((g.rowSetAt y).erase current_val)
  let g1 := g1.updateColSet x ((g1.colSetAt x).erase current_val)
  let (box_x, box_y) := boxCoordinates x y
  let g1 := g1.updateBoxSet box_x box_y ((g1.boxSetAt box_x box_y).erase current_val)
  g1.setCell x y 0

/-- `clear_row`: clears a row of all values and updates accounting data. -/
def clear_row (g : PuzzleGrid) (y : Nat) :
    Except GridError Unit × PuzzleGrid :=
  if NUM_ROWS ≤ y then (.error (.badCoordinate y), g)
  else (.ok (), (List.range NUM_COLUMNS).foldl (clearRowStep y) g)

/-- `clear_all_rows`. -/
def clear_all_rows (g : PuzzleGrid) : Except GridError Unit × PuzzleGrid :=
  (List.range NUM_ROWS).foldl
    (fun (acc : Except GridError Unit × PuzzleGrid) y =>
      match acc with
      | (.error e, g') => (.error e, g')
      | (.ok _, g') => clear_row g' y)
    (.ok (), g)

/-- One cell of the `copy` replay: read `other` at `(x, y)`, `set_value`
into the accumulated grid, errors propagating. -/
def copyCellStep (other : PuzzleGrid) (y : Nat)
    (acc : Except GridError Unit × PuzzleGrid) (x : Nat) :
    Except GridError Unit × PuzzleGrid :=
  match acc with
  | (.error e, g'') => (.error e, g'')
  | (.ok _, g'') =>
    match get_value other x y with
    | .error e => (.error e, g'')
    | .ok val => set_value g'' x y val

/-- One row of the `copy` replay. -/
def copyRowStep (other : PuzzleGrid)
    (acc : Except GridError Unit × PuzzleGrid) (y : Nat) :
    Except GridError Unit × PuzzleGrid :=
  match acc with
  | (.error e, g') => (.error e, g')
  | (.ok _, _) => (List.range NUM_COLUMNS).foldl (copyCellStep other y) acc

/-- The body of `copy` after the `isinstance` check (which cannot fail in a
typed embedding): reset, then replay `set_value` for every cell of `other` in
row-major order, the first raise propagating. -/
def copy (_g : PuzzleGrid) (other : PuzzleGrid) :
    Except GridError Unit × PuzzleGrid :=
  (List.range NUM_ROWS).foldl (copyRowStep other) (.ok (), reset _g)

/-- The inner loop of `populate_from_list` over the cells of row `y`
(entered only when the row-length check passed). -/
def populateRowFromList (g : PuzzleGrid) (y : Nat) :
    Except GridError Unit × PuzzleGrid :=
  (List.range NUM_COLUMNS).foldl
    (fun (acc : Except GridError Unit × PuzzleGrid) x =>
      match acc with
      | (.error e, g') => (.error e, g')
      | (.ok _, g') =>
        let cell_val := g'.cellAt x y
        if cell_val < 0 ∨ 9 < cell_val then (.error (.badCellValue cell_val), g')
        else if 0 < cell_val then set_value g' x y cell_val
        else (.ok (), g'))
    (.ok (), g)

/-- `populate_from_list`: populates the puzzle from hardcoded values.  Note
that `self.cells = hard_coded` replaces the matrix wholesale *before* the
per-row length checks and the `set_value` replay. -/
def populate_from_list (g : PuzzleGrid) (hard_coded : List (List Int)) :
    Except GridError Unit × PuzzleGrid :=
  if hard_coded.length ≠ NUM_ROWS then
    (.error (.wrongNumberOfRows hard_coded.length), g)
  else
    let g0 := { g.reset with cells := hard_coded }
    (List.range NUM_ROWS).foldl
      (fun (acc : Except GridError Unit × PuzzleGrid) y =>
        match acc with
        | (.error e, g') => (.error e, g')
        | (.ok _, g') =>
          let hard_coded_row := hard_coded.getD y []
          if hard_coded_row.length ≠ NUM_COLUMNS then
            (.error (.wrongNumberOfEntries hard_coded_row.length y), g')
          else populateRowFromList g' y)
      (.ok (), g0)

/-! ### Constructive populator (`_attempt_populate_cells`, `populate_cells`)

`random.choice(list(choices))` is modelled by a stream `r : Nat → Nat` and a
position counter: the chosen element is `cl[r pos % cl.length]` where `cl` is
the ascending enumeration of `choices`, and the counter advances by one per
choice. -/

/-- The body of the `for x in range(NUM_COLUMNS)` loop of
`_attempt_populate_cells`.  The accumulator carries the grid, the shrinking
`row_options` set, the randomness position, and the `failed` flag (after a
break the remaining columns are skipped but the partial writes stay). -/
def fillRowStep (r : Nat → Nat) (y : Nat)
    (acc : PuzzleGrid × Finset Int × Nat × Bool) (x : Nat) :
    PuzzleGrid × Finset Int × Nat × Bool :=
  let (g, row_options, pos, failed) := acc
  if failed then acc
  else
    let (box_x, box_y) := boxCoordinates x y
    let choices := (row_options \ g.colSetAt x) \ g.boxSetAt box_x box_y
    if choices.card = 0 then (g, row_options, pos, true)
    else
      let cl := listOfSet choices
      let choice := cl.getD (r pos % cl.length) 0
      let g := g.setCell x y choice
      let row_options := row_options.erase choice
      let g := g.updateRowSet y (insert choice (g.rowSetAt y))
      let g := g.updateColSet x (insert choice (g.colSetAt x))
      let g := g.updateBoxSet box_x box_y (insert choice (g.boxSetAt box_x box_y))
      (g, row_options, pos + 1, false)

/-- One pass over row `y`: `row_options = set(possible_values)` then the
column loop. -/
def fillRow (r : Nat → Nat) (y : Nat) (g : PuzzleGrid) (pos : Nat) :
    PuzzleGrid × Finset Int × Nat × Bool :=
  (List.range NUM_COLUMNS).foldl (fillRowStep r y) (g, possible_values.toFinset, pos, false)

/-- The in-bounds core of `clear_row` (the call inside
`_attempt_populate_cells` has `y < NUM_ROWS`, so the bounds check passes). -/
def clearRowCore (g : PuzzleGrid) (y : Nat) : PuzzleGrid :=
  (List.range NUM_COLUMNS).foldl (clearRowStep y) g

/-- The `while redo_count < max_row_redos` retry loop for row `y`, with
`fuel` = number of attempts still allowed.  Returns `false` when the budget
is exhausted (`redo_count == max_row_redos`). -/
def rowRetry (r : Nat → Nat) (y : Nat) :
    Nat → PuzzleGrid → Nat → Bool × PuzzleGrid × Nat
  | 0, g, pos => (false, g, pos)
  | fuel + 1, g, pos =>
    let g1 := clearRowCore g y
    let (g2, _, pos2, failed) := fillRow r y g1 pos
    if failed then rowRetry r y fuel g2 pos2
    else (true, g2, pos2)

def max_row_redos : Nat := 20

/-- The `for y in range(NUM_ROWS)` loop of `_attempt_populate_cells`:
a row that exhausts its retry budget aborts the whole attempt. -/
def attemptRowsLoop (r : Nat → Nat) :
    List Nat → PuzzleGrid → Nat → Bool × PuzzleGrid × Nat
  | [], g, pos => (true, g, pos)
  | y :: ys, g, pos =>
    match rowRetry r y max_row_redos g pos with
    | (true, g', pos') => attemptRowsLoop r ys g' pos'
    | (false, g', pos') => (false, g', pos')

/-- `_attempt_populate_cells`. -/
def attempt_populate_cells (r : Nat → Nat) (g : PuzzleGrid) (pos : Nat) :
    Bool × PuzzleGrid × Nat :=
  attemptRowsLoop r (List.range NUM_ROWS) g pos

/-- The `while redo_count < max_redos` loop of `populate_cells` with
`fuel` = remaining attempts; exhaustion raises `GridException`. -/
def populateLoop (r : Nat → Nat) :
    Nat → PuzzleGrid → Nat → Except GridError Unit × PuzzleGrid × Nat
  | 0, g, pos => (.error .couldNotGeneratePuzzle, g, pos)
  | fuel + 1, g, pos =>
    match attempt_populate_cells r g pos with
    | (true, g', pos') => (.ok (), g', pos')
    | (false, g', pos') => populateLoop r fuel g' pos'

def max_redos : Nat := 40

/-- `populate_cells`: populates the grid with values that conform to Sudoku
rules, retrying whole-grid attempts up to 40 times. -/
def populate_cells (r : Nat → Nat) (g : PuzzleGrid) (pos : Nat) :
    Except GridError Unit × PuzzleGrid × Nat :=
  populateLoop r max_redos g pos

end PuzzleGrid

/-- `SpaceMarker`: used in adding blank cells to a puzzle. -/
structure SpaceMarker where
  x : Nat
  y : Nat
  old_val : Int
  deriving DecidableEq

/-- The fields of `PuzzleGrid` that only the space-removal phase uses,
bundled with the grid (see the modelling notes at the top of the file). -/
structure SpaceState where
  grid : PuzzleGrid
  required_spaces : Nat
  min_spaces_per_box : Int
  max_spaces_per_box : Int
  space_failure_count : Nat
  grid_with_spaces : Option PuzzleGrid
  deriving DecidableEq

namespace PuzzleGrid

/-- Box-coordinate enumeration order of `_check_space_distribution`
(`box_y` outer, `box_x` inner). -/
def boxCoordList : List (Nat × Nat) :=
  (List.range NUM_BOXES_Y).flatMap (fun bY => (List.range NUM_BOXES_X).map (fun bx => (bx, bY)))

/-- The box loop of `_check_space_distribution`: counts boxes whose blank
count equals the average, returning `False` early on the first box outside
the `[min, max]` band. -/
def checkBoxesLoop (s : SpaceState) (avg : Nat) :
    List (Nat × Nat) → Nat → Bool
  | [], boxes_with_avg_num_spaces => decide (5 ≤ boxes_with_avg_num_spaces)
  | (box_x, box_y) :: rest, boxes_with_avg_num_spaces =>
    let spaces_in_box : Int :=
      ((BOX_SIZE * BOX_SIZE : Nat) : Int) - (s.grid.boxSetAt box_x box_y).card
    let count' :=
      if spaces_in_box = (avg : Int) then boxes_with_avg_num_spaces + 1
      else boxes_with_avg_num_spaces
    if s.max_spaces_per_box < spaces_in_box ∨ spaces_in_box < s.min_spaces_per_box then
      false
    else checkBoxesLoop s avg rest count'

/-- `_check_space_distribution`. -/
def check_space_distribution (s : SpaceState) : Bool :=
  checkBoxesLoop s (s.required_spaces / (NUM_BOXES_X * NUM_BOXES_Y)) boxCoordList 0

/-- `_add_spaces_impl`: the recursive space-adding search.  `cb` is the
solver callback applied to the current grid. -/
def add_spaces_impl (cb : PuzzleGrid → Bool) (s : SpaceState)
    (space_markers : List SpaceMarker) (index space_count : Nat) :
    Except GridError Bool × SpaceState :=
  if _h1 : s.required_spaces ≤ space_count then
    if ¬ check_space_distribution s then
      let s1 := { s with space_failure_count := s.space_failure_count + 1 }
      if MAX_FAILED_SPACE_CONFIGURATIONS ≤ s1.space_failure_count then
        (.error (.tooManyFailedSpaceConfigurations s1.space_failure_count), s1)
      else (.ok false, s1)
    else
      match copy init s.grid with
      | (.error e, gws) => (.error e, { s with grid_with_spaces := some gws })
      | (.ok _, gws) => (.ok true, { s with grid_with_spaces := some gws })
  else
    let needed_spaces := s.required_spaces - space_count
    if _h2 : space_markers.length - index < needed_spaces then (.ok false, s)
    else
      -- i = 0: put a space here
      let marker := space_markers.getD index ⟨0, 0, 0⟩
      match set_value s.grid marker.x marker.y 0 with
      | (.error e, g') => (.error e, { s with grid := g' })
      | (.ok _, g') =>
        let s := { s with grid := g' }
        let (box_x, box_y) := boxCoordinates marker.x marker.y
        let spaces_in_box : Int :=
          ((BOX_SIZE * BOX_SIZE : Nat) : Int) - (s.grid.boxSetAt box_x box_y).card
        let step : Except GridError (Option Bool) × SpaceState :=
          if spaces_in_box ≤ s.max_spaces_per_box then
            if cb s.grid then
              match add_spaces_impl cb s space_markers (index + 1) (space_count + 1) with
              | (.error e, s') => (.error e, s')
              | (.ok true, s') => (.ok (some true), s')
              | (.ok false, s') => (.ok none, s')
            else (.ok none, s)
          else (.ok none, s)
        match step with
        | (.error e, s') => (.error e, s')
        | (.ok (some b), s') => (.ok b, s')
        | (.ok none, s') =>
          -- restore the value that used to be there, then i = 1: don't put a
          -- space here, just move on with the recursion
          match set_value s'.grid marker.x marker.y marker.old_val with
          | (.error e, g'') => (.error e, { s' with grid := g'' })
          | (.ok _, g'') =>
            add_spaces_impl cb { s' with grid := g'' } space_markers (index + 1) space_count
termination_by space_markers.length - index
decreasing_by all_goals omega

/-- `add_spaces`: adds blanks to a populated grid.  `perm` models
`random.shuffle`. -/
def add_spaces (g : PuzzleGrid) (cb : PuzzleGrid → Bool)
    (perm : List SpaceMarker → List SpaceMarker) (required_spaces : Nat) :
    Except GridError Bool × SpaceState :=
  let avg_spaces_per_box : Nat := required_spaces / (NUM_BOXES_X * NUM_BOXES_Y)
  let s : SpaceState :=
    { grid := g
      required_spaces := required_spaces
      min_spaces_per_box := (avg_spaces_per_box : Int) - 1
      max_spaces_per_box := (avg_spaces_per_box : Int) + 1
      space_failure_count := 0
      grid_with_spaces := none }
  let space_markers : List SpaceMarker :=
    perm ((List.range NUM_ROWS).flatMap
      (fun y => (List.range NUM_COLUMNS).map (fun x => ⟨x, y, g.cellAt x y⟩)))
  match add_spaces_impl cb s space_markers 0 0 with
  | (.error e, s') => (.error e, s')
  | (.ok success, s') =>
    if success then
      match s'.grid_with_spaces with
      | some gws =>
        match copy s'.grid gws with
        | (.error e, g'') => (.error e, { s' with grid := g'' })
        | (.ok _, g'') => (.ok true, { s' with grid := g'' })
      | none => (.ok success, s')
    else (.ok false, s')

/-- The `for _try in range(num_tries)` loop of `generate_puzzle`, with
`fuel` = remaining tries and `t` the current try index (used to select the
shuffle for that try). -/
def generateLoop (r : Nat → Nat) (cb : PuzzleGrid → Bool)
    (perms : Nat → List SpaceMarker → List SpaceMarker) (required_spaces : Nat) :
    Nat → Nat → PuzzleGrid → Nat → Bool × PuzzleGrid × Nat
  | 0, _t, g, pos => (false, g, pos)
  | fuel + 1, t, g, pos =>
    let g0 := g.reset
    match populate_cells r g0 pos with
    | (.error _e, g', pos') => (false, g', pos')
    | (.ok _, g', pos') =>
      match add_spaces g' cb (perms t) required_spaces with
      | (.error _e, s') => generateLoop r cb perms required_spaces fuel (t + 1) s'.grid pos'
      | (.ok _b, s') => (true, s'.grid, pos')

def num_tries : Nat := 30

/-- `generate_puzzle`: `populate_cells` then `add_spaces`, retrying up to 30
times; a `populate_cells` failure breaks out of the loop immediately, an
`add_spaces` exception is caught and the next try started, and any normal
return of `add_spaces` (whatever its boolean) is a success. -/
def generate_puzzle (g : PuzzleGrid) (r : Nat → Nat) (pos : Nat)
    (cb : PuzzleGrid → Bool)
    (perms : Nat → List SpaceMarker → List SpaceMarker) (required_spaces : Nat) :
    Bool × PuzzleGrid × Nat :=
  generateLoop r cb perms required_spaces num_tries 0 g pos

end PuzzleGrid

/-! ### The brute-force solver (`solver.py`) -/

/-- `BruteForceSolver.__init__` state: the shared grid, the per-cell options
table, and the captured example solution.  `list(options)` of a Python set is
modelled as the ascending enumeration of the `Finset`. -/
structure BruteForceSolver where
  grid : PuzzleGrid
  options : List (List (List Int))
  solved_puzzle : Option PuzzleGrid
  deriving DecidableEq

namespace BruteForceSolver

/-- `BruteForceSolver.__init__`. -/
def mkSolver (grid : PuzzleGrid) : BruteForceSolver :=
  { grid := grid
    options := (List.range NUM_ROWS).map
      (fun y => (List.range NUM_COLUMNS).map
        (fun x => listOfSet (grid.possibleAt x y).2))
    solved_puzzle := none }

/-- `self.options[y][x] = v` (replacing the cleared-and-extended list). -/
def setOptions (o : List (List (List Int))) (y x : Nat) (v : List Int) :
    List (List (List Int)) :=
  o.set y ((o.getD y []).set x v)

/-- `BruteForceSolver.set_value`: clears the cell's options list, writes
through to the grid, and for a clearing write refills the options list from
`get_possible_values`.  A raise from `grid.set_value` leaves the options
list cleared, as in the source. -/
def set_value (s : BruteForceSolver) (x y : Nat) (val : Int) :
    Except GridError Unit × BruteForceSolver :=
  let s := { s with options := setOptions s.options y x [] }
  match PuzzleGrid.set_value s.grid x y val with
  | (.error e, g') => (.error e, { s with grid := g' })
  | (.ok _, g') =>
    let s := { s with grid := g' }
    if val = 0 then
      let opts := listOfSet (g'.possibleAt x y).2
      (.ok (), { s with options := setOptions s.options y x opts })
    else (.ok (), s)

/-- `_index_to_coordinate`: `(column, row)` of an unrolled index. -/
def index_to_coordinate (index : Nat) : Nat × Nat :=
  (index % NUM_COLUMNS, index / NUM_COLUMNS)

/-- The `for val in options` loop of `_solve_impl`: pencil the value in,
recurse (`recur` is `_solve_impl` on the remaining indices), accumulate,
erase it again, move to the next value.  The first raise propagates with the
state it left behind. -/
def solveTryVals (recur : BruteForceSolver → Except GridError Nat × BruteForceSolver)
    (x y : Nat) : BruteForceSolver → List Int → Except GridError Nat × BruteForceSolver
  | s, [] => (.ok 0, s)
  | s, v :: more =>
    match set_value s x y v with
    | (.error e, s1) => (.error e, s1)
    | (.ok _, s1) =>
      match recur s1 with
      | (.error e, s2) => (.error e, s2)
      | (.ok c, s2) =>
        match set_value s2 x y 0 with
        | (.error e, s3) => (.error e, s3)
        | (.ok _, s3) =>
          match solveTryVals recur x y s3 more with
          | (.error e, s4) => (.error e, s4)
          | (.ok c2, s4) => (.ok (c + c2), s4)

/-- `_solve_impl`, with the indices still to visit as an explicit list
(`_solve_impl(i)` corresponds to the list `List.range' i (81 - i)`; the
`index >= 81` base case is the empty list).  The `fuel` argument only makes
the recursion structural: every call strictly exceeds the list length, so
the 0 case is unreachable.  At the base case the source allocates
`solved_puzzle` if needed and then `copy`s the grid into it; since `copy`
resets its target first, the prior contents of `solved_puzzle` are
irrelevant and the result is a fresh copy of the grid. -/
def solveImplList : Nat → BruteForceSolver → List Nat →
    Except GridError Nat × BruteForceSolver
  | 0, s, _ => (.ok 0, s)
  | fuel + 1, s, ps =>
    match ps with
    | [] =>
      match PuzzleGrid.copy PuzzleGrid.init s.grid with
      | (.error e, gsol) => (.error e, { s with solved_puzzle := some gsol })
      | (.ok _, gsol) => (.ok 1, { s with solved_puzzle := some gsol })
    | p :: rest =>
      let (x, y) := index_to_coordinate p
      let (empty_cell, opts) := s.grid.possibleAt x y
      if empty_cell = true ∧ opts.card = 0 then (.ok 0, s)
      else if empty_cell = false then solveImplList fuel s rest
      else
        solveTryVals (fun s' => solveImplList fuel s' rest) x y s
          (listOfSet opts)

/-- `solve`: `(number of solutions, example solution)`. -/
def solve (s : BruteForceSolver) :
    Except GridError (Nat × Option PuzzleGrid) × BruteForceSolver :=
  match solveImplList (NUM_ROWS * NUM_COLUMNS + 1) s
      (List.range (NUM_ROWS * NUM_COLUMNS)) with
  | (.error e, s') => (.error e, s')
  | (.ok n, s') => (.ok (n, s'.solved_puzzle), s')

end BruteForceSolver

/-! ### Specification-side notions -/

namespace PuzzleGrid

/-- The dimensions every grid produced by the program has: 9×9 cells, 9 row
sets, 9 column sets, 3×3 box sets. -/
def WF (g : PuzzleGrid) : Prop :=
  g.cells.length = 9 ∧ (∀ row ∈ g.cells, row.length = 9) ∧
    g.definite_values_per_row.length = 9 ∧
    g.definite_values_per_column.length = 9 ∧
    g.definite_values_per_box.length = 3 ∧
    ∀ br ∈ g.definite_values_per_box, br.length = 3

/-- Every cell value lies in `{0, ..., 9}`. -/
def ValuesOk (g : PuzzleGrid) : Prop :=
  ∀ x < 9, ∀ y < 9, 0 ≤ g.cellAt x y ∧ g.cellAt x y ≤ 9

/-- The non-zero values present in row `y` of the cell matrix. -/
def rowValues (g : PuzzleGrid) (y : Nat) : Finset Int :=
  (((List.range 9).map (fun x => g.cellAt x y)).filter (fun v => v ≠ 0)).toFinset

/-- The non-zero values present in column `x` of the cell matrix. -/
def colValues (g : PuzzleGrid) (x : Nat) : Finset Int :=
  (((List.range 9).map (fun y => g.cellAt x y)).filter (fun v => v ≠ 0)).toFinset

/-- The non-zero values present in the box with box-coordinates `(bx, bY)`. -/
def boxValues (g : PuzzleGrid) (bx bY : Nat) : Finset Int :=
  (((List.range 3).flatMap
      (fun dy => (List.range 3).map (fun dx => g.cellAt (3 * bx + dx) (3 * bY + dy)))).filter
    (fun v => v ≠ 0)).toFinset

/-- No row of the cell matrix contains the same non-zero value twice. -/
def RowsNoDup (g : PuzzleGrid) : Prop :=
  ∀ y < 9, ∀ x1 < 9, ∀ x2 < 9,
    x1 ≠ x2 → g.cellAt x1 y ≠ 0 → g.cellAt x1 y ≠ g.cellAt x2 y

/-- No column of the cell matrix contains the same non-zero value twice. -/
def ColsNoDup (g : PuzzleGrid) : Prop :=
  ∀ x < 9, ∀ y1 < 9, ∀ y2 < 9,
    y1 ≠ y2 → g.cellAt x y1 ≠ 0 → g.cellAt x y1 ≠ g.cellAt x y2

/-- No 3×3 box of the cell matrix contains the same non-zero value twice. -/
def BoxesNoDup (g : PuzzleGrid) : Prop :=
  ∀ x1 < 9, ∀ y1 < 9, ∀ x2 < 9, ∀ y2 < 9,
    boxCoordinates x1 y1 = boxCoordinates x2 y2 → (x1, y1) ≠ (x2, y2) →
    g.cellAt x1 y1 ≠ 0 → g.cellAt x1 y1 ≠ g.cellAt x2 y2

/-- Grid validity: no row, column, or box repeats a non-zero digit. -/
def ValidGrid (g : PuzzleGrid) : Prop :=
  RowsNoDup g ∧ ColsNoDup g ∧ BoxesNoDup g

/-- Exact index consistency: each definite-value set holds exactly the
non-zero values present in its group. -/
def ExactIdx (g : PuzzleGrid) : Prop :=
  (∀ y < 9, g.rowSetAt y = rowValues g y) ∧
    (∀ x < 9, g.colSetAt x = colValues g x) ∧
    ∀ bx < 3, ∀ bY < 3, g.boxSetAt bx bY = boxValues g bx bY

/-- Index over-approximation: every non-zero cell value is recorded in its
three definite-value sets (the sets may also hold stale extra values; this
is the invariant that survives overwriting a non-zero cell). -/
def OverIdx (g : PuzzleGrid) : Prop :=
  ∀ x < 9, ∀ y < 9, g.cellAt x y ≠ 0 →
    g.cellAt x y ∈ g.rowSetAt y ∧ g.cellAt x y ∈ g.colSetAt x ∧
      g.cellAt x y ∈ g.boxSetAt (x / 3) (y / 3)

/-- The invariant preserved by every successfully completing operation. -/
def Inv (g : PuzzleGrid) : Prop :=
  WF g ∧ ValuesOk g ∧ OverIdx g ∧ ValidGrid g

/-- The strong invariant (exact index consistency); it holds for every state
the program itself builds, and is the data-model invariant of the spec. -/
def XInv (g : PuzzleGrid) : Prop :=
  WF g ∧ ValuesOk g ∧ ExactIdx g ∧ ValidGrid g

/-- Every cell holds a non-zero digit. -/
def CompleteGrid (g : PuzzleGrid) : Prop :=
  ∀ x < 9, ∀ y < 9, g.cellAt x y ≠ 0

instance (g : PuzzleGrid) : Decidable (WF g) := by
  unfold WF; infer_instance

instance (g : PuzzleGrid) : Decidable (ValuesOk g) := by
  unfold ValuesOk; infer_instance

instance (g : PuzzleGrid) : Decidable (RowsNoDup g) :=
  decidable_of_iff
    (∀ y < 9, ∀ x1 < 9, ∀ x2 < 9,
      x1 ≠ x2 ∧ g.cellAt x1 y ≠ 0 → g.cellAt x1 y ≠ g.cellAt x2 y)
    ⟨fun h y hy x1 hx1 x2 hx2 hne h0 => h y hy x1 hx1 x2 hx2 ⟨hne, h0⟩,
      fun h y hy x1 hx1 x2 hx2 hand => h y hy x1 hx1 x2 hx2 hand.1 hand.2⟩

instance (g : PuzzleGrid) : Decidable (ColsNoDup g) :=
  decidable_of_iff
    (∀ x < 9, ∀ y1 < 9, ∀ y2 < 9,
      y1 ≠ y2 ∧ g.cellAt x y1 ≠ 0 → g.cellAt x y1 ≠ g.cellAt x y2)
    ⟨fun h x hx y1 hy1 y2 hy2 hne h0 => h x hx y1 hy1 y2 hy2 ⟨hne, h0⟩,
      fun h x hx y1 hy1 y2 hy2 hand => h x hx y1 hy1 y2 hy2 hand.1 hand.2⟩

instance (g : PuzzleGrid) : Decidable (BoxesNoDup g) :=
  decidable_of_iff
    (∀ x1 : Fin 9, ∀ y1 : Fin 9, ∀ x2 : Fin 9, ∀ y2 : Fin 9,
      boxCoordinates x1 y1 = boxCoordinates x2 y2 ∧
          ((x1 : Nat), (y1 : Nat)) ≠ ((x2 : Nat), (y2 : Nat)) ∧
          g.cellAt x1 y1 ≠ 0 →
        g.cellAt x1 y1 ≠ g.cellAt x2 y2)
    ⟨fun h x1 hx1 y1 hy1 x2 hx2 y2 hy2 hb hne h0 =>
        h ⟨x1, hx1⟩ ⟨y1, hy1⟩ ⟨x2, hx2⟩ ⟨y2, hy2⟩ ⟨hb, hne, h0⟩,
      fun h x1 y1 x2 y2 hand =>
        h x1 x1.isLt y1 y1.isLt x2 x2.isLt y2 y2.isLt hand.1 hand.2.1 hand.2.2⟩

instance (g : PuzzleGrid) : Decidable (ValidGrid g) := by
  unfold ValidGrid; infer_instance

instance (g : PuzzleGrid) : Decidable (ExactIdx g) := by
  unfold ExactIdx; infer_instance

instance (g : PuzzleGrid) : Decidable (OverIdx g) := by
  unfold OverIdx; infer_instance

instance (g : PuzzleGrid) : Decidable (Inv g) := by
  unfold Inv; infer_instance

instance (g : PuzzleGrid) : Decidable (XInv g) := by
  unfold XInv; infer_instance

instance (g : PuzzleGrid) : Decidable (CompleteGrid g) := by
  unfold CompleteGrid; infer_instance

/-- The grid states reachable from a fresh `PuzzleGrid()` through public
operations that complete without raising (an operation that raises
propagates the exception to the caller, so its post-state is not a state
the program continues from).  Solver writes go through
`BruteForceSolver.set_value`, which writes via `PuzzleGrid.set_value` and is
therefore covered by the `set_value` step; a whole solver run is also
included as a step of its own. -/
inductive Reachable : PuzzleGrid → Prop where
  | init : Reachable init
  | reset (g : PuzzleGrid) : Reachable g → Reachable g.reset
  | set_value (g : PuzzleGrid) (x y : Nat) (v : Int) : Reachable g →
      (set_value g x y v).1 = .ok () → Reachable (set_value g x y v).2
  | clear_row (g : PuzzleGrid) (y : Nat) : Reachable g →
      (clear_row g y).1 = .ok () → Reachable (clear_row g y).2
  | copy (g other : PuzzleGrid) : Reachable g →
      (copy g other).1 = .ok () → Reachable (copy g other).2
  | populate_from_list (g : PuzzleGrid) (m : List (List Int)) : Reachable g →
      (populate_from_list g m).1 = .ok () → Reachable (populate_from_list g m).2
  | populate_cells (g : PuzzleGrid) (r : Nat → Nat) (pos : Nat) : Reachable g →
      (populate_cells r g pos).1 = .ok () → Reachable (populate_cells r g pos).2.1
  | add_spaces (g : PuzzleGrid) (cb : PuzzleGrid → Bool)
      (perm : List SpaceMarker → List SpaceMarker) (req : Nat) (b : Bool) :
      Reachable g → (add_spaces g cb perm req).1 = .ok b →
      Reachable (add_spaces g cb perm req).2.grid
  | solve (g : PuzzleGrid) (res : Nat × Option PuzzleGrid) : Reachable g →
      (BruteForceSolver.solve (BruteForceSolver.mkSolver g)).1 = .ok res →
      Reachable (BruteForceSolver.solve (BruteForceSolver.mkSolver g)).2.grid

end PuzzleGrid

/-- A complete assignment of digits to the 81 cells: `c y x` is the cell in
row `y`, column `x`, holding digit `(c y x : Nat) + 1`. -/
abbrev Completion := Fin 9 → Fin 9 → Fin 9

/-- The digit a completion puts at cell `(x, y)`, as an integer. -/
def completionCell (c : Completion) (x y : Fin 9) : Int :=
  ((c y x : Nat) : Int) + 1

/-- The Sudoku rules for a complete assignment: no repeated digit in a row,
a column, or a 3×3 box. -/
def ValidCompletion (c : Completion) : Prop :=
  (∀ y x1 x2, c y x1 = c y x2 → x1 = x2) ∧
    (∀ x y1 y2, c y1 x = c y2 x → y1 = y2) ∧
    ∀ y1 x1 y2 x2, x1.val / 3 = x2.val / 3 → y1.val / 3 = y2.val / 3 →
      c y1 x1 = c y2 x2 → x1 = x2 ∧ y1 = y2

/-- `c` agrees with every filled cell of `g`. -/
def ExtendsGrid (g : PuzzleGrid) (c : Completion) : Prop :=
  ∀ x y : Fin 9, g.cellAt x y ≠ 0 → completionCell c x y = g.cellAt x y

instance (c : Completion) : Decidable (ValidCompletion c) := by
  unfold ValidCompletion; infer_instance

instance (g : PuzzleGrid) (c : Completion) : Decidable (ExtendsGrid g c) := by
  unfold ExtendsGrid; infer_instance

/-- All complete rule-conforming assignments extending the current contents
of `g`. -/
def completionsOf (g : PuzzleGrid) : Finset Completion :=
  Finset.univ.filter (fun c => ValidCompletion c ∧ ExtendsGrid g c)

/-- The number of complete rule-conforming assignments extending `g`. -/
def numCompletions (g : PuzzleGrid) : Nat :=
  (completionsOf g).card

/-- The solutions the brute-force search reaches, in search order: a ghost
recomputation of `_solve_impl`'s traversal that only tracks the grid.  A
non-blank cell is skipped; a blank cell branches over its candidate values
in the solver's iteration order (a blank cell with no candidates yields no
solutions, exactly like the solver's early `return 0`). -/
def searchSolutions (g : PuzzleGrid) : List Nat → List PuzzleGrid
  | [] => [g]
  | p :: rest =>
    let (x, y) := BruteForceSolver.index_to_coordinate p
    if (g.possibleAt x y).1 = false then searchSolutions g rest
    else
      (listOfSet (g.possibleAt x y).2).flatMap
        (fun v => searchSolutions (PuzzleGrid.set_value g x y v).2 rest)

/-! ### Basic lemmas about the grid representation -/

namespace PuzzleGrid

theorem cellAt_updateRowSet (g : PuzzleGrid) (y : Nat) (s : Finset Int) :
    ∀ x' y', (g.updateRowSet y s).cellAt x' y' = g.cellAt x' y' := fun _ _ => rfl

theorem cellAt_updateColSet (g : PuzzleGrid) (x : Nat) (s : Finset Int) :
    ∀ x' y', (g.updateColSet x s).cellAt x' y' = g.cellAt x' y' := fun _ _ => rfl

theorem cellAt_updateBoxSet (g : PuzzleGrid) (bx bY : Nat) (s : Finset Int) :
    ∀ x' y', (g.updateBoxSet bx bY s).cellAt x' y' = g.cellAt x' y' := fun _ _ => rfl

theorem rowSetAt_setCell (g : PuzzleGrid) (x y : Nat) (v : Int) :
    ∀ y', (g.setCell x y v).rowSetAt y' = g.rowSetAt y' := fun _ => rfl

theorem rowSetAt_updateColSet (g : PuzzleGrid) (x : Nat) (s : Finset Int) :
    ∀ y', (g.updateColSet x s).rowSetAt y' = g.rowSetAt y' := fun _ => rfl

theorem rowSetAt_updateBoxSet (g : PuzzleGrid) (bx bY : Nat) (s : Finset Int) :
    ∀ y', (g.updateBoxSet bx bY s).rowSetAt y' = g.rowSetAt y' := fun _ => rfl

theorem colSetAt_setCell (g : PuzzleGrid) (x y : Nat) (v : Int) :
    ∀ x', (g.setCell x y v).colSetAt x' = g.colSetAt x' := fun _ => rfl

theorem colSetAt_updateRowSet (g : PuzzleGrid) (y : Nat) (s : Finset Int) :
    ∀ x', (g.updateRowSet y s).colSetAt x' = g.colSetAt x' := fun _ => rfl

theorem colSetAt_updateBoxSet (g : PuzzleGrid) (bx bY : Nat) (s : Finset Int) :
    ∀ x', (g.updateBoxSet bx bY s).colSetAt x' = g.colSetAt x' := fun _ => rfl

theorem boxSetAt_setCell (g : PuzzleGrid) (x y : Nat) (v : Int) :
    ∀ bx bY, (g.setCell x y v).boxSetAt bx bY = g.boxSetAt bx bY := fun _ _ => rfl

theorem boxSetAt_updateRowSet (g : PuzzleGrid) (y : Nat) (s : Finset Int) :
    ∀ bx bY, (g.updateRowSet y s).boxSetAt bx bY = g.boxSetAt bx bY := fun _ _ => rfl

theorem boxSetAt_updateColSet (g : PuzzleGrid) (x : Nat) (s : Finset Int) :
    ∀ bx bY, (g.updateColSet x s).boxSetAt bx bY = g.boxSetAt bx bY := fun _ _ => rfl

theorem getD_set_self {α : Type _} (l : List α) (i : Nat) (v d : α)
    (h : i < l.length) : (l.set i v).getD i d = v := by
  simp [List.getD_eq_getElem?_getD, List.getElem?_set_self h]

theorem getD_set_ne {α : Type _} (l : List α) (i j : Nat) (v d : α)
    (h : i ≠ j) : (l.set i v).getD j d = l.getD j d := by
  simp [List.getD_eq_getElem?_getD, List.getElem?_set_ne h]

theorem set_getD_self {α : Type _} (l : List α) (i : Nat) (d : α)
    (h : i < l.length) : l.set i (l.getD i d) = l := by
  apply List.ext_getElem?
  intro j
  by_cases hj : j = i
  · subst hj
    simp [List.getElem?_set_self h, List.getElem?_eq_getElem h,
      List.getD_eq_getElem?_getD]
  · simp [List.getElem?_set_ne (fun hc => hj hc.symm)]

theorem cellAt_setCell_self (g : PuzzleGrid) (x y : Nat) (v : Int)
    (hx : x < (g.cells.getD y []).length) (hy : y < g.cells.length) :
    (g.setCell x y v).cellAt x y = v := by
  simp only [setCell, cellAt]
  rw [getD_set_self _ _ _ _ hy, getD_set_self _ _ _ _ hx]

theorem getD_mem {α : Type _} (l : List α) (i : Nat) (d : α)
    (h : i < l.length) : l.getD i d ∈ l := by
  rw [List.getD_eq_getElem?_getD, List.getElem?_eq_getElem h]
  exact List.getElem_mem h

theorem cellAt_setCell_ne (g : PuzzleGrid) (x y x' y' : Nat) (v : Int)
    (h : x' ≠ x ∨ y' ≠ y) :
    (g.setCell x y v).cellAt x' y' = g.cellAt x' y' := by
  simp only [setCell, cellAt]
  rcases h with h | h
  · by_cases hy : y' = y
    · subst hy
      by_cases hlen : y' < g.cells.length
      · rw [getD_set_self _ _ _ _ hlen, getD_set_ne _ _ _ _ _ (fun hc => h hc.symm)]
      · rw [List.set_eq_of_length_le (by omega)]
    · rw [getD_set_ne _ _ _ _ _ (fun hc => hy hc.symm)]
  · rw [getD_set_ne _ _ _ _ _ (fun hc => h hc.symm)]

theorem rowSetAt_updateRowSet_self (g : PuzzleGrid) (y : Nat) (s : Finset Int)
    (hy : y < g.definite_values_per_row.length) :
    (g.updateRowSet y s).rowSetAt y = s := by
  simp only [updateRowSet, rowSetAt]
  exact getD_set_self _ _ _ _ hy

theorem rowSetAt_updateRowSet_ne (g : PuzzleGrid) (y y' : Nat) (s : Finset Int)
    (h : y' ≠ y) : (g.updateRowSet y s).rowSetAt y' = g.rowSetAt y' := by
  simp only [updateRowSet, rowSetAt]
  exact getD_set_ne _ _ _ _ _ (fun hc => h hc.symm)

theorem colSetAt_updateColSet_self (g : PuzzleGrid) (x : Nat) (s : Finset Int)
    (hx : x < g.definite_values_per_column.length) :
    (g.updateColSet x s).colSetAt x = s := by
  simp only [updateColSet, colSetAt]
  exact getD_set_self _ _ _ _ hx

theorem colSetAt_updateColSet_ne (g : PuzzleGrid) (x x' : Nat) (s : Finset Int)
    (h : x' ≠ x) : (g.updateColSet x s).colSetAt x' = g.colSetAt x' := by
  simp only [updateColSet, colSetAt]
  exact getD_set_ne _ _ _ _ _ (fun hc => h hc.symm)

theorem boxSetAt_updateBoxSet_self (g : PuzzleGrid) (bx bY : Nat) (s : Finset Int)
    (hbx : bx < (g.definite_values_per_box.getD bY []).length)
    (hbY : bY < g.definite_values_per_box.length) :
    (g.updateBoxSet bx bY s).boxSetAt bx bY = s := by
  simp only [updateBoxSet, boxSetAt]
  rw [getD_set_self _ _ _ _ hbY, getD_set_self _ _ _ _ hbx]

theorem boxSetAt_updateBoxSet_ne (g : PuzzleGrid) (bx bY bx' bY' : Nat)
    (s : Finset Int) (h : bx' ≠ bx ∨ bY' ≠ bY) :
    (g.updateBoxSet bx bY s).boxSetAt bx' bY' = g.boxSetAt bx' bY' := by
  simp only [updateBoxSet, boxSetAt]
  rcases h with h | h
  · by_cases hY : bY' = bY
    · subst hY
      by_cases hlen : bY' < g.definite_values_per_box.length
      · rw [getD_set_self _ _ _ _ hlen, getD_set_ne _ _ _ _ _ (fun hc => h hc.symm)]
      · rw [List.set_eq_of_length_le (by omega)]
    · rw [getD_set_ne _ _ _ _ _ (fun hc => hY hc.symm)]
  · rw [getD_set_ne _ _ _ _ _ (fun hc => h hc.symm)]

theorem WF_setCell (g : PuzzleGrid) (x y : Nat) (v : Int) (h : WF g) :
    WF (g.setCell x y v) := by
  obtain ⟨h1, h2, h3, h4, h5, h6⟩ := h
  refine ⟨by simpa [setCell] using h1, ?_, h3, h4, h5, h6⟩
  intro row hrow
  simp only [setCell] at hrow
  by_cases hy : y < g.cells.length
  · rcases List.mem_or_eq_of_mem_set hrow with hmem | heq
    · exact h2 _ hmem
    · subst heq
      rw [List.length_set]
      exact h2 _ (getD_mem _ _ _ hy)
  · rw [List.set_eq_of_length_le (by omega)] at hrow
    exact h2 _ hrow

theorem WF_updateRowSet (g : PuzzleGrid) (y : Nat) (s : Finset Int) (h : WF g) :
    WF (g.updateRowSet y s) := by
  obtain ⟨h1, h2, h3, h4, h5, h6⟩ := h
  exact ⟨h1, h2, by simpa [updateRowSet] using h3, h4, h5, h6⟩

theorem WF_updateColSet (g : PuzzleGrid) (x : Nat) (s : Finset Int) (h : WF g) :
    WF (g.updateColSet x s) := by
  obtain ⟨h1, h2, h3, h4, h5, h6⟩ := h
  exact ⟨h1, h2, h3, by simpa [updateColSet] using h4, h5, h6⟩

theorem WF_updateBoxSet (g : PuzzleGrid) (bx bY : Nat) (s : Finset Int) (h : WF g) :
    WF (g.updateBoxSet bx bY s) := by
  obtain ⟨h1, h2, h3, h4, h5, h6⟩ := h
  refine ⟨h1, h2, h3, h4, by simpa [updateBoxSet] using h5, ?_⟩
  intro br hbr
  simp only [updateBoxSet] at hbr
  by_cases hY : bY < g.definite_values_per_box.length
  · rcases List.mem_or_eq_of_mem_set hbr with hmem | heq
    · exact h6 _ hmem
    · subst heq
      rw [List.length_set]
      exact h6 _ (getD_mem _ _ _ hY)
  · rw [List.set_eq_of_length_le (by omega)] at hbr
    exact h6 _ hbr

/-- The grid `set_value x y v` (with `0 < v ≤ 9`) produces when all three
duplicate checks pass: the cell written and `v` inserted into the three
index sets.  (Spec-side description of the successful write.) -/
def writeCell (g : PuzzleGrid) (x y : Nat) (v : Int) : PuzzleGrid :=
  let box_x := x / BOX_SIZE
  let box_y := y / BOX_SIZE
  let g2 := g.setCell x y v
  let g3 := g2.updateBoxSet box_x box_y (insert v (g2.boxSetAt box_x box_y))
  let g4 := g3.updateRowSet y (insert v (g3.rowSetAt y))
  g4.updateColSet x (insert v (g4.colSetAt x))

/-- The grid `set_value x y 0` produces on a filled cell: the old value
discarded from the three index sets, then the cell zeroed. -/
def eraseCell (g : PuzzleGrid) (x y : Nat) : PuzzleGrid :=
  let existing_val := g.cellAt x y
  let box_x := x / BOX_SIZE
  let box_y := y / BOX_SIZE
  let g1 := g.updateBoxSet box_x box_y ((g.boxSetAt box_x box_y).erase existing_val)
  let g2 := g1.updateRowSet y ((g1.rowSetAt y).erase existing_val)
  let g3 := g2.updateColSet x ((g2.colSetAt x).erase existing_val)
  g3.setCell x y 0

theorem set_value_err_coords (g : PuzzleGrid) (x y : Nat) (v : Int)
    (h : 9 ≤ x ∨ 9 ≤ y) :
    set_value g x y v = (.error (.badCoordinates x y), g) := by
  simp [set_value, NUM_COLUMNS, NUM_ROWS, h]

theorem set_value_err_val (g : PuzzleGrid) (x y : Nat) (v : Int)
    (hx : x < 9) (hy : y < 9) (h : v < 0 ∨ 9 < v) :
    set_value g x y v = (.error (.badValue v), g) := by
  simp [set_value, NUM_COLUMNS, NUM_ROWS, show ¬(9 ≤ x ∨ 9 ≤ y) by omega, h]

theorem set_value_ok_pos (g : PuzzleGrid) (x y : Nat) (v : Int)
    (hx : x < 9) (hy : y < 9) (hv1 : 0 < v) (hv9 : v ≤ 9)
    (hb : v ∉ g.boxSetAt (x / 3) (y / 3)) (hr : v ∉ g.rowSetAt y)
    (hc : v ∉ g.colSetAt x) :
    set_value g x y v = (.ok (), writeCell g x y v) := by
  simp only [set_value, writeCell, boxCoordinates, NUM_COLUMNS, NUM_ROWS, BOX_SIZE]
  rw [if_neg (by omega), if_neg (by omega), if_pos hv1, if_neg (by omega : ¬ v = 0),
    if_neg (by simpa [boxSetAt_setCell] using hb),
    if_neg (by simpa [rowSetAt_setCell, rowSetAt_updateBoxSet] using hr),
    if_neg (by simpa [colSetAt_setCell, colSetAt_updateBoxSet, colSetAt_updateRowSet] using hc)]

theorem set_value_err_box (g : PuzzleGrid) (x y : Nat) (v : Int)
    (hx : x < 9) (hy : y < 9) (hv1 : 0 < v) (hv9 : v ≤ 9)
    (hb : v ∈ g.boxSetAt (x / 3) (y / 3)) :
    set_value g x y v = (.error (.valueInBoxTwice v), g.setCell x y v) := by
  simp only [set_value, boxCoordinates, NUM_COLUMNS, NUM_ROWS, BOX_SIZE]
  rw [if_neg (by omega), if_neg (by omega), if_pos hv1, if_neg (by omega : ¬ v = 0),
    if_pos (by simpa [boxSetAt_setCell] using hb)]

theorem set_value_err_row (g : PuzzleGrid) (x y : Nat) (v : Int)
    (hx : x < 9) (hy : y < 9) (hv1 : 0 < v) (hv9 : v ≤ 9)
    (hb : v ∉ g.boxSetAt (x / 3) (y / 3)) (hr : v ∈ g.rowSetAt y) :
    set_value g x y v =
      (.error (.valueInRowTwice v),
        (g.setCell x y v).updateBoxSet (x / 3) (y / 3)
          (insert v (g.boxSetAt (x / 3) (y / 3)))) := by
  simp only [set_value, boxCoordinates, NUM_COLUMNS, NUM_ROWS, BOX_SIZE]
  rw [if_neg (by omega), if_neg (by omega), if_pos hv1, if_neg (by omega : ¬ v = 0),
    if_neg (by simpa [boxSetAt_setCell] using hb),
    if_pos (by simpa [rowSetAt_setCell, rowSetAt_updateBoxSet] using hr)]
  simp [boxSetAt_setCell]

theorem set_value_err_col (g : PuzzleGrid) (x y : Nat) (v : Int)
    (hx : x < 9) (hy : y < 9) (hv1 : 0 < v) (hv9 : v ≤ 9)
    (hb : v ∉ g.boxSetAt (x / 3) (y / 3)) (hr : v ∉ g.rowSetAt y)
    (hc : v ∈ g.colSetAt x) :
    set_value g x y v =
      (.error (.valueInColumnTwice v),
        ((g.setCell x y v).updateBoxSet (x / 3) (y / 3)
            (insert v (g.boxSetAt (x / 3) (y / 3)))).updateRowSet y
          (insert v (g.rowSetAt y))) := by
  simp only [set_value, boxCoordinates, NUM_COLUMNS, NUM_ROWS, BOX_SIZE]
  rw [if_neg (by omega), if_neg (by omega), if_pos hv1, if_neg (by omega : ¬ v = 0),
    if_neg (by simpa [boxSetAt_setCell] using hb),
    if_neg (by simpa [rowSetAt_setCell, rowSetAt_updateBoxSet] using hr),
    if_pos (by simpa [colSetAt_setCell, colSetAt_updateBoxSet, colSetAt_updateRowSet] using hc)]
  simp [boxSetAt_setCell, rowSetAt_setCell, rowSetAt_updateBoxSet]

theorem set_value_ok_zero_filled (g : PuzzleGrid) (x y : Nat)
    (hx : x < 9) (hy : y < 9) (hpos : 0 < g.cellAt x y) :
    set_value g x y 0 = (.ok (), eraseCell g x y) := by
  simp only [set_value, eraseCell, boxCoordinates, NUM_COLUMNS, NUM_ROWS, BOX_SIZE]
  rw [if_neg (by omega), if_neg (by omega), if_neg (by omega : ¬ (0:Int) < 0)]
  simp [hpos]

theorem set_value_ok_zero_blank (g : PuzzleGrid) (x y : Nat)
    (hx : x < 9) (hy : y < 9) (hpos : ¬ 0 < g.cellAt x y) :
    set_value g x y 0 = (.ok (), g.setCell x y 0) := by
  simp only [set_value, boxCoordinates, NUM_COLUMNS, NUM_ROWS, BOX_SIZE]
  rw [if_neg (by omega), if_neg (by omega), if_neg (by omega : ¬ (0:Int) < 0)]
  simp [hpos]

theorem WF_writeCell (g : PuzzleGrid) (x y : Nat) (v : Int) (h : WF g) :
    WF (writeCell g x y v) :=
  WF_updateColSet _ _ _ (WF_updateRowSet _ _ _ (WF_updateBoxSet _ _ _ _
    (WF_setCell _ _ _ _ h)))

theorem WF_eraseCell (g : PuzzleGrid) (x y : Nat) (h : WF g) :
    WF (eraseCell g x y) :=
  WF_setCell _ _ _ _ (WF_updateColSet _ _ _ (WF_updateRowSet _ _ _
    (WF_updateBoxSet _ _ _ _ h)))

theorem rowLen_of_WF (g : PuzzleGrid) (y : Nat) (h : WF g) (hy : y < 9) :
    (g.cells.getD y []).length = 9 :=
  h.2.1 _ (getD_mem _ _ _ (by rw [h.1]; omega))

theorem cellAt_writeCell_self (g : PuzzleGrid) (x y : Nat) (v : Int)
    (hWF : WF g) (hx : x < 9) (hy : y < 9) :
    (writeCell g x y v).cellAt x y = v := by
  have hylen : y < g.cells.length := by rw [hWF.1]; omega
  have hxlen : x < (g.cells.getD y []).length := by
    rw [hWF.2.1 _ (getD_mem _ _ _ hylen)]; omega
  simp only [writeCell]
  rw [cellAt_updateColSet, cellAt_updateRowSet, cellAt_updateBoxSet]
  exact cellAt_setCell_self _ _ _ _ hxlen hylen

theorem cellAt_writeCell_ne (g : PuzzleGrid) (x y x' y' : Nat) (v : Int)
    (h : x' ≠ x ∨ y' ≠ y) :
    (writeCell g x y v).cellAt x' y' = g.cellAt x' y' := by
  simp only [writeCell]
  rw [cellAt_updateColSet, cellAt_updateRowSet, cellAt_updateBoxSet]
  exact cellAt_setCell_ne _ _ _ _ _ _ h

theorem rowSetAt_writeCell_self (g : PuzzleGrid) (x y : Nat) (v : Int)
    (hWF : WF g) (hy : y < 9) :
    (writeCell g x y v).rowSetAt y = insert v (g.rowSetAt y) := by
  have hlen : y < g.definite_values_per_row.length := by rw [hWF.2.2.1]; omega
  have hlen2 : y < ((g.setCell x y v).updateBoxSet (x / BOX_SIZE) (y / BOX_SIZE)
      (insert v ((g.setCell x y v).boxSetAt (x / BOX_SIZE) (y / BOX_SIZE)))).definite_values_per_row.length := hlen
  simp only [writeCell]
  rw [rowSetAt_updateColSet, rowSetAt_updateRowSet_self _ _ _ hlen2,
    rowSetAt_updateBoxSet, rowSetAt_setCell]

theorem rowSetAt_writeCell_ne (g : PuzzleGrid) (x y y' : Nat) (v : Int)
    (h : y' ≠ y) : (writeCell g x y v).rowSetAt y' = g.rowSetAt y' := by
  simp only [writeCell]
  rw [rowSetAt_updateColSet, rowSetAt_updateRowSet_ne _ _ _ _ h,
    rowSetAt_updateBoxSet, rowSetAt_setCell]

theorem colSetAt_writeCell_self (g : PuzzleGrid) (x y : Nat) (v : Int)
    (hWF : WF g) (hx : x < 9) :
    (writeCell g x y v).colSetAt x = insert v (g.colSetAt x) := by
  have hlen : x < g.definite_values_per_column.length := by rw [hWF.2.2.2.1]; omega
  have hlen2 : x < (((g.setCell x y v).updateBoxSet (x / BOX_SIZE) (y / BOX_SIZE)
      (insert v ((g.setCell x y v).boxSetAt (x / BOX_SIZE) (y / BOX_SIZE)))).updateRowSet y
      (insert v (((g.setCell x y v).updateBoxSet (x / BOX_SIZE) (y / BOX_SIZE)
        (insert v ((g.setCell x y v).boxSetAt (x / BOX_SIZE) (y / BOX_SIZE)))).rowSetAt
        y))).definite_values_per_column.length := hlen
  simp only [writeCell]
  rw [colSetAt_updateColSet_self _ _ _ hlen2,
    colSetAt_updateRowSet, colSetAt_updateBoxSet, colSetAt_setCell]

theorem colSetAt_writeCell_ne (g : PuzzleGrid) (x y x' : Nat) (v : Int)
    (h : x' ≠ x) : (writeCell g x y v).colSetAt x' = g.colSetAt x' := by
  simp only [writeCell]
  rw [colSetAt_updateColSet_ne _ _ _ _ h, colSetAt_updateRowSet,
    colSetAt_updateBoxSet, colSetAt_setCell]

theorem boxSetAt_writeCell_self (g : PuzzleGrid) (x y : Nat) (v : Int)
    (hWF : WF g) (hx : x < 9) (hy : y < 9) :
    (writeCell g x y v).boxSetAt (x / 3) (y / 3) =
      insert v (g.boxSetAt (x / 3) (y / 3)) := by
  have hbY : y / 3 < g.definite_values_per_box.length := by
    rw [hWF.2.2.2.2.1]; omega
  have hbx : x / 3 < (g.definite_values_per_box.getD (y / 3) []).length := by
    rw [hWF.2.2.2.2.2 _ (getD_mem _ _ _ hbY)]; omega
  have hbY2 : y / 3 < (g.setCell x y v).definite_values_per_box.length := hbY
  have hbx2 : x / 3 < ((g.setCell x y v).definite_values_per_box.getD (y / 3) []).length := hbx
  simp only [writeCell, BOX_SIZE]
  rw [boxSetAt_updateColSet, boxSetAt_updateRowSet,
    boxSetAt_updateBoxSet_self _ _ _ _ hbx2 hbY2, boxSetAt_setCell]

theorem boxSetAt_writeCell_ne (g : PuzzleGrid) (x y bx' bY' : Nat) (v : Int)
    (h : bx' ≠ x / 3 ∨ bY' ≠ y / 3) :
    (writeCell g x y v).boxSetAt bx' bY' = g.boxSetAt bx' bY' := by
  simp only [writeCell, BOX_SIZE]
  rw [boxSetAt_updateColSet, boxSetAt_updateRowSet,
    boxSetAt_updateBoxSet_ne _ _ _ _ _ _ h, boxSetAt_setCell]

theorem cellAt_eraseCell_self (g : PuzzleGrid) (x y : Nat)
    (hWF : WF g) (hx : x < 9) (hy : y < 9) :
    (eraseCell g x y).cellAt x y = 0 := by
  have hylen : y < g.cells.length := by rw [hWF.1]; omega
  have hxlen : x < (g.cells.getD y []).length := by
    rw [hWF.2.1 _ (getD_mem _ _ _ hylen)]; omega
  simp only [eraseCell]
  exact cellAt_setCell_self _ _ _ _ (by simpa using hxlen) (by simpa using hylen)

theorem cellAt_eraseCell_ne (g : PuzzleGrid) (x y x' y' : Nat)
    (h : x' ≠ x ∨ y' ≠ y) :
    (eraseCell g x y).cellAt x' y' = g.cellAt x' y' := by
  simp only [eraseCell]
  rw [cellAt_setCell_ne _ _ _ _ _ _ h, cellAt_updateColSet, cellAt_updateRowSet,
    cellAt_updateBoxSet]

theorem rowSetAt_eraseCell_self (g : PuzzleGrid) (x y : Nat)
    (hWF : WF g) (hy : y < 9) :
    (eraseCell g x y).rowSetAt y = (g.rowSetAt y).erase (g.cellAt x y) := by
  have hlen : y < g.definite_values_per_row.length := by rw [hWF.2.2.1]; omega
  have hlen2 : y < (g.updateBoxSet (x / BOX_SIZE) (y / BOX_SIZE)
      ((g.boxSetAt (x / BOX_SIZE) (y / BOX_SIZE)).erase
        (g.cellAt x y))).definite_values_per_row.length := hlen
  simp only [eraseCell]
  rw [rowSetAt_setCell, rowSetAt_updateColSet,
    rowSetAt_updateRowSet_self _ _ _ hlen2, rowSetAt_updateBoxSet]

theorem rowSetAt_eraseCell_ne (g : PuzzleGrid) (x y y' : Nat) (h : y' ≠ y) :
    (eraseCell g x y).rowSetAt y' = g.rowSetAt y' := by
  simp only [eraseCell]
  rw [rowSetAt_setCell, rowSetAt_updateColSet,
    rowSetAt_updateRowSet_ne _ _ _ _ h, rowSetAt_updateBoxSet]

theorem colSetAt_eraseCell_self (g : PuzzleGrid) (x y : Nat)
    (hWF : WF g) (hx : x < 9) :
    (eraseCell g x y).colSetAt x = (g.colSetAt x).erase (g.cellAt x y) := by
  have hlen : x < g.definite_values_per_column.length := by rw [hWF.2.2.2.1]; omega
  have hlen2 : x < ((g.updateBoxSet (x / BOX_SIZE) (y / BOX_SIZE)
      ((g.boxSetAt (x / BOX_SIZE) (y / BOX_SIZE)).erase (g.cellAt x y))).updateRowSet y
      (((g.updateBoxSet (x / BOX_SIZE) (y / BOX_SIZE)
        ((g.boxSetAt (x / BOX_SIZE) (y / BOX_SIZE)).erase (g.cellAt x y))).rowSetAt y).erase
        (g.cellAt x y))).definite_values_per_column.length := hlen
  simp only [eraseCell]
  rw [colSetAt_setCell, colSetAt_updateColSet_self _ _ _ hlen2,
    colSetAt_updateRowSet, colSetAt_updateBoxSet]

theorem colSetAt_eraseCell_ne (g : PuzzleGrid) (x y x' : Nat) (h : x' ≠ x) :
    (eraseCell g x y).colSetAt x' = g.colSetAt x' := by
  simp only [eraseCell]
  rw [colSetAt_setCell, colSetAt_updateColSet_ne _ _ _ _ h,
    colSetAt_updateRowSet, colSetAt_updateBoxSet]

theorem boxSetAt_eraseCell_self (g : PuzzleGrid) (x y : Nat)
    (hWF : WF g) (hx : x < 9) (hy : y < 9) :
    (eraseCell g x y).boxSetAt (x / 3) (y / 3) =
      (g.boxSetAt (x / 3) (y / 3)).erase (g.cellAt x y) := by
  have hbY : y / 3 < g.definite_values_per_box.length := by
    rw [hWF.2.2.2.2.1]; omega
  have hbx : x / 3 < (g.definite_values_per_box.getD (y / 3) []).length := by
    rw [hWF.2.2.2.2.2 _ (getD_mem _ _ _ hbY)]; omega
  simp only [eraseCell, BOX_SIZE]
  rw [boxSetAt_setCell, boxSetAt_updateColSet, boxSetAt_updateRowSet,
    boxSetAt_updateBoxSet_self _ _ _ _ hbx hbY]

theorem boxSetAt_eraseCell_ne (g : PuzzleGrid) (x y bx' bY' : Nat)
    (h : bx' ≠ x / 3 ∨ bY' ≠ y / 3) :
    (eraseCell g x y).boxSetAt bx' bY' = g.boxSetAt bx' bY' := by
  simp only [eraseCell, BOX_SIZE]
  rw [boxSetAt_setCell, boxSetAt_updateColSet, boxSetAt_updateRowSet,
    boxSetAt_updateBoxSet_ne _ _ _ _ _ _ h]

theorem list_eq_of_getD {α : Type _} (l₁ l₂ : List α) (d : α)
    (hlen : l₁.length = l₂.length)
    (h : ∀ i, i < l₂.length → l₁.getD i d = l₂.getD i d) : l₁ = l₂ := by
  apply List.ext_getElem?
  intro i
  by_cases hi : i < l₂.length
  · have h₁ : l₁[i]? = some (l₁.getD i d) := by
      rw [List.getD_eq_getElem?_getD, List.getElem?_eq_getElem (by omega)]
      rfl
    have h₂ : l₂[i]? = some (l₂.getD i d) := by
      rw [List.getD_eq_getElem?_getD, List.getElem?_eq_getElem (by omega)]
      rfl
    rw [h₁, h₂, h i hi]
  · rw [List.getElem?_eq_none (by omega), List.getElem?_eq_none (by omega)]

/-- Two well-formed grids whose observable reads agree are equal. -/
theorem grid_eq_of_reads (g₁ g₂ : PuzzleGrid) (hWF₁ : WF g₁) (hWF₂ : WF g₂)
    (hc : ∀ x < 9, ∀ y < 9, g₁.cellAt x y = g₂.cellAt x y)
    (hrow : ∀ y < 9, g₁.rowSetAt y = g₂.rowSetAt y)
    (hcol : ∀ x < 9, g₁.colSetAt x = g₂.colSetAt x)
    (hbox : ∀ bx < 3, ∀ bY < 3, g₁.boxSetAt bx bY = g₂.boxSetAt bx bY) :
    g₁ = g₂ := by
  obtain ⟨a1, a2, a3, a4, a5, a6⟩ := hWF₁
  obtain ⟨b1, b2, b3, b4, b5, b6⟩ := hWF₂
  ext1
  · apply list_eq_of_getD _ _ [] (by omega)
    intro y hy
    have hy9 : y < 9 := by omega
    have ha := a2 (g₁.cells.getD y []) (getD_mem _ _ _ (by omega))
    have hb := b2 (g₂.cells.getD y []) (getD_mem _ _ _ (by omega))
    apply list_eq_of_getD _ _ 0 (by omega)
    intro x hx
    exact hc x (by omega) y hy9
  · apply list_eq_of_getD _ _ ∅ (by omega)
    intro y hy
    exact hrow y (by omega)
  · apply list_eq_of_getD _ _ ∅ (by omega)
    intro x hx
    exact hcol x (by omega)
  · apply list_eq_of_getD _ _ [] (by omega)
    intro bY hbY
    have hbY3 : bY < 3 := by omega
    have ha := a6 (g₁.definite_values_per_box.getD bY []) (getD_mem _ _ _ (by omega))
    have hb := b6 (g₂.definite_values_per_box.getD bY []) (getD_mem _ _ _ (by omega))
    apply list_eq_of_getD _ _ ∅ (by omega)
    intro bx hbx
    exact hbox bx (by omega) bY hbY3

/-- Writing an in-range value into a cell that already holds it leaves the
grid unchanged. -/
theorem setCell_same_eq (g : PuzzleGrid) (x y : Nat) (hWF : WF g)
    (hx : x < 9) (hy : y < 9) :
    g.setCell x y (g.cellAt x y) = g := by
  have hylen : y < g.cells.length := by rw [hWF.1]; omega
  have hxlen : x < (g.cells.getD y []).length := by
    rw [rowLen_of_WF g y hWF hy]; omega
  simp only [setCell, cellAt]
  rw [set_getD_self _ _ _ hxlen, set_getD_self _ _ _ hylen]

/-- Backtracking restore: writing a fresh value into a blank cell and then
clearing that cell brings the grid back exactly. -/
theorem eraseCell_writeCell (g : PuzzleGrid) (x y : Nat) (v : Int)
    (hWF : WF g) (hx : x < 9) (hy : y < 9) (hblank : g.cellAt x y = 0)
    (hb : v ∉ g.boxSetAt (x / 3) (y / 3)) (hr : v ∉ g.rowSetAt y)
    (hc : v ∉ g.colSetAt x) :
    eraseCell (writeCell g x y v) x y = g := by
  have hWFw := WF_writeCell g x y v hWF
  have hcw := cellAt_writeCell_self g x y v hWF hx hy
  apply grid_eq_of_reads _ _ (WF_eraseCell _ _ _ hWFw) hWF
  · intro x' hx' y' hy'
    by_cases hxy : x' = x ∧ y' = y
    · obtain ⟨rfl, rfl⟩ := hxy
      rw [cellAt_eraseCell_self _ _ _ hWFw hx hy, hblank]
    · have hne : x' ≠ x ∨ y' ≠ y := by tauto
      rw [cellAt_eraseCell_ne _ _ _ _ _ hne, cellAt_writeCell_ne _ _ _ _ _ _ hne]
  · intro y' hy'
    by_cases hyy : y' = y
    · subst hyy
      rw [rowSetAt_eraseCell_self _ _ _ hWFw hy', hcw,
        rowSetAt_writeCell_self _ _ _ _ hWF hy']
      exact Finset.erase_insert hr
    · rw [rowSetAt_eraseCell_ne _ _ _ _ hyy, rowSetAt_writeCell_ne _ _ _ _ _ hyy]
  · intro x' hx'
    by_cases hxx : x' = x
    · subst hxx
      rw [colSetAt_eraseCell_self _ _ _ hWFw hx', hcw,
        colSetAt_writeCell_self _ _ _ _ hWF hx']
      exact Finset.erase_insert hc
    · rw [colSetAt_eraseCell_ne _ _ _ _ hxx, colSetAt_writeCell_ne _ _ _ _ _ hxx]
  · intro bx' hbx' bY' hbY'
    by_cases hbb : bx' = x / 3 ∧ bY' = y / 3
    · obtain ⟨rfl, rfl⟩ := hbb
      rw [boxSetAt_eraseCell_self _ _ _ hWFw hx hy, hcw,
        boxSetAt_writeCell_self _ _ _ _ hWF hx hy]
      exact Finset.erase_insert hb
    · have hne : bx' ≠ x / 3 ∨ bY' ≠ y / 3 := by tauto
      rw [boxSetAt_eraseCell_ne _ _ _ _ _ hne, boxSetAt_writeCell_ne _ _ _ _ _ _ hne]

end PuzzleGrid

theorem possible_values_eq :
    possible_values = [1, 2, 3, 4, 5, 6, 7, 8, 9] := by decide

theorem mem_possible_values (v : Int) :
    v ∈ possible_values ↔ 1 ≤ v ∧ v ≤ 9 := by
  rw [possible_values_eq]
  simp only [List.mem_cons, List.not_mem_nil, or_false]
  omega

theorem nodup_possible_values : possible_values.Nodup := by
  decide

theorem mem_possible_values_toFinset (v : Int) :
    v ∈ possible_values.toFinset ↔ 1 ≤ v ∧ v ≤ 9 := by
  rw [List.mem_toFinset]; exact mem_possible_values v

theorem mem_listOfSet (s : Finset Int) (v : Int) :
    v ∈ listOfSet s ↔ (1 ≤ v ∧ v ≤ 9) ∧ v ∈ s := by
  simp only [listOfSet, List.mem_filter, decide_eq_true_eq]
  rw [mem_possible_values]

theorem nodup_listOfSet (s : Finset Int) : (listOfSet s).Nodup :=
  List.Nodup.filter _ nodup_possible_values

namespace PuzzleGrid

theorem possibleAt_filled (g : PuzzleGrid) (x y : Nat)
    (h : 0 < g.cellAt x y) : g.possibleAt x y = (false, ∅) := by
  simp [possibleAt, h]

theorem possibleAt_fst_blank (g : PuzzleGrid) (x y : Nat)
    (h : ¬ 0 < g.cellAt x y) : (g.possibleAt x y).1 = true := by
  simp [possibleAt, boxCoordinates, h]

theorem mem_possibleAt_blank (g : PuzzleGrid) (x y : Nat) (v : Int)
    (h : ¬ 0 < g.cellAt x y) :
    v ∈ (g.possibleAt x y).2 ↔
      (1 ≤ v ∧ v ≤ 9) ∧ v ∉ g.boxSetAt (x / 3) (y / 3) ∧
        v ∉ g.rowSetAt y ∧ v ∉ g.colSetAt x := by
  simp only [possibleAt, boxCoordinates, BOX_SIZE, if_neg h, Finset.mem_sdiff,
    mem_possible_values_toFinset]
  tauto

theorem mem_rowValues (g : PuzzleGrid) (y : Nat) (v : Int) :
    v ∈ rowValues g y ↔ v ≠ 0 ∧ ∃ x < 9, g.cellAt x y = v := by
  simp only [rowValues, List.mem_toFinset, List.mem_filter, List.mem_map,
    List.mem_range, decide_eq_true_eq]
  tauto

theorem mem_colValues (g : PuzzleGrid) (x : Nat) (v : Int) :
    v ∈ colValues g x ↔ v ≠ 0 ∧ ∃ y < 9, g.cellAt x y = v := by
  simp only [colValues, List.mem_toFinset, List.mem_filter, List.mem_map,
    List.mem_range, decide_eq_true_eq]
  tauto

theorem mem_boxValues (g : PuzzleGrid) (bx bY : Nat) (v : Int) :
    v ∈ boxValues g bx bY ↔
      v ≠ 0 ∧ ∃ dx < 3, ∃ dy < 3, g.cellAt (3 * bx + dx) (3 * bY + dy) = v := by
  unfold boxValues
  rw [List.mem_toFinset, List.mem_filter]
  simp only [List.mem_flatMap, List.mem_map, List.mem_range, decide_eq_true_eq]
  constructor
  · rintro ⟨⟨dy, hdy, dx, hdx, hv⟩, hne⟩
    exact ⟨hne, dx, hdx, dy, hdy, hv⟩
  · rintro ⟨hne, dx, hdx, dy, hdy, hv⟩
    exact ⟨⟨dy, hdy, dx, hdx, hv⟩, hne⟩

/-- A non-zero cell value belongs to its box's `boxValues`. -/
theorem cell_mem_boxValues (g : PuzzleGrid) (x y : Nat)
    (hne : g.cellAt x y ≠ 0) :
    g.cellAt x y ∈ boxValues g (x / 3) (y / 3) := by
  rw [mem_boxValues]
  exact ⟨hne, x % 3, by omega, y % 3, by omega, by rw [show 3 * (x / 3) + x % 3 = x by omega,
    show 3 * (y / 3) + y % 3 = y by omega]⟩

theorem rowValues_writeCell_self (g : PuzzleGrid) (x y : Nat) (v : Int)
    (hWF : WF g) (hx : x < 9) (hy : y < 9) (hblank : g.cellAt x y = 0)
    (hv : v ≠ 0) :
    rowValues (writeCell g x y v) y = insert v (rowValues g y) := by
  ext w
  rw [mem_rowValues, Finset.mem_insert, mem_rowValues]
  constructor
  · rintro ⟨hw, x', hx', hcell⟩
    by_cases hxx : x' = x
    · subst hxx
      rw [cellAt_writeCell_self _ _ _ _ hWF hx' hy] at hcell
      exact Or.inl hcell.symm
    · rw [cellAt_writeCell_ne _ _ _ _ _ _ (Or.inl hxx)] at hcell
      exact Or.inr ⟨hw, x', hx', hcell⟩
  · rintro (rfl | ⟨hw, x', hx', hcell⟩)
    · exact ⟨hv, x, hx, cellAt_writeCell_self _ _ _ _ hWF hx hy⟩
    · have hxx : x' ≠ x := by
        rintro rfl
        rw [hblank] at hcell
        exact hw hcell.symm
      exact ⟨hw, x', hx', by rw [cellAt_writeCell_ne _ _ _ _ _ _ (Or.inl hxx)]; exact hcell⟩

theorem rowValues_writeCell_ne (g : PuzzleGrid) (x y y' : Nat) (v : Int)
    (h : y' ≠ y) :
    rowValues (writeCell g x y v) y' = rowValues g y' := by
  ext w
  rw [mem_rowValues, mem_rowValues]
  constructor
  · rintro ⟨hw, x', hx', hcell⟩
    exact ⟨hw, x', hx', by rw [cellAt_writeCell_ne _ _ _ _ _ _ (Or.inr h)] at hcell; exact hcell⟩
  · rintro ⟨hw, x', hx', hcell⟩
    exact ⟨hw, x', hx', by rw [cellAt_writeCell_ne _ _ _ _ _ _ (Or.inr h)]; exact hcell⟩

theorem colValues_writeCell_self (g : PuzzleGrid) (x y : Nat) (v : Int)
    (hWF : WF g) (hx : x < 9) (hy : y < 9) (hblank : g.cellAt x y = 0)
    (hv : v ≠ 0) :
    colValues (writeCell g x y v) x = insert v (colValues g x) := by
  ext w
  rw [mem_colValues, Finset.mem_insert, mem_colValues]
  constructor
  · rintro ⟨hw, y', hy', hcell⟩
    by_cases hyy : y' = y
    · subst hyy
      rw [cellAt_writeCell_self _ _ _ _ hWF hx hy'] at hcell
      exact Or.inl hcell.symm
    · rw [cellAt_writeCell_ne _ _ _ _ _ _ (Or.inr hyy)] at hcell
      exact Or.inr ⟨hw, y', hy', hcell⟩
  · rintro (rfl | ⟨hw, y', hy', hcell⟩)
    · exact ⟨hv, y, hy, cellAt_writeCell_self _ _ _ _ hWF hx hy⟩
    · have hyy : y' ≠ y := by
        rintro rfl
        rw [hblank] at hcell
        exact hw hcell.symm
      exact ⟨hw, y', hy', by rw [cellAt_writeCell_ne _ _ _ _ _ _ (Or.inr hyy)]; exact hcell⟩

theorem colValues_writeCell_ne (g : PuzzleGrid) (x y x' : Nat) (v : Int)
    (h : x' ≠ x) :
    colValues (writeCell g x y v) x' = colValues g x' := by
  ext w
  rw [mem_colValues, mem_colValues]
  constructor
  · rintro ⟨hw, y', hy', hcell⟩
    exact ⟨hw, y', hy', by rw [cellAt_writeCell_ne _ _ _ _ _ _ (Or.inl h)] at hcell; exact hcell⟩
  · rintro ⟨hw, y', hy', hcell⟩
    exact ⟨hw, y', hy', by rw [cellAt_writeCell_ne _ _ _ _ _ _ (Or.inl h)]; exact hcell⟩

theorem boxValues_writeCell_self (g : PuzzleGrid) (x y : Nat) (v : Int)
    (hWF : WF g) (hx : x < 9) (hy : y < 9) (hblank : g.cellAt x y = 0)
    (hv : v ≠ 0) :
    boxValues (writeCell g x y v) (x / 3) (y / 3) =
      insert v (boxValues g (x / 3) (y / 3)) := by
  ext w
  rw [mem_boxValues, Finset.mem_insert, mem_boxValues]
  constructor
  · rintro ⟨hw, dx, hdx, dy, hdy, hcell⟩
    by_cases hxy : 3 * (x / 3) + dx = x ∧ 3 * (y / 3) + dy = y
    · rw [hxy.1, hxy.2, cellAt_writeCell_self _ _ _ _ hWF hx hy] at hcell
      exact Or.inl hcell.symm
    · have hne : 3 * (x / 3) + dx ≠ x ∨ 3 * (y / 3) + dy ≠ y := by tauto
      rw [cellAt_writeCell_ne _ _ _ _ _ _ hne] at hcell
      exact Or.inr ⟨hw, dx, hdx, dy, hdy, hcell⟩
  · rintro (rfl | ⟨hw, dx, hdx, dy, hdy, hcell⟩)
    · refine ⟨hv, x % 3, by omega, y % 3, by omega, ?_⟩
      rw [show 3 * (x / 3) + x % 3 = x by omega, show 3 * (y / 3) + y % 3 = y by omega]
      exact cellAt_writeCell_self _ _ _ _ hWF hx hy
    · have hne : 3 * (x / 3) + dx ≠ x ∨ 3 * (y / 3) + dy ≠ y := by
        by_contra hcon
        push_neg at hcon
        rw [hcon.1, hcon.2, hblank] at hcell
        exact hw hcell.symm
      exact ⟨hw, dx, hdx, dy, hdy, by rw [cellAt_writeCell_ne _ _ _ _ _ _ hne]; exact hcell⟩

theorem boxValues_writeCell_ne (g : PuzzleGrid) (x y bx' bY' : Nat) (v : Int)
    (h : bx' ≠ x / 3 ∨ bY' ≠ y / 3) :
    boxValues (writeCell g x y v) bx' bY' = boxValues g bx' bY' := by
  ext w
  rw [mem_boxValues, mem_boxValues]
  have key : ∀ dx < 3, ∀ dy < 3,
      (3 * bx' + dx ≠ x ∨ 3 * bY' + dy ≠ y) := by
    intro dx hdx dy hdy
    rcases h with h | h
    · by_cases hc : 3 * bx' + dx = x
      · exact absurd (by omega : bx' = x / 3) h
      · exact Or.inl hc
    · by_cases hc : 3 * bY' + dy = y
      · exact absurd (by omega : bY' = y / 3) h
      · exact Or.inr hc
  constructor
  · rintro ⟨hw, dx, hdx, dy, hdy, hcell⟩
    exact ⟨hw, dx, hdx, dy, hdy, by
      rw [cellAt_writeCell_ne _ _ _ _ _ _ (key dx hdx dy hdy)] at hcell; exact hcell⟩
  · rintro ⟨hw, dx, hdx, dy, hdy, hcell⟩
    exact ⟨hw, dx, hdx, dy, hdy, by
      rw [cellAt_writeCell_ne _ _ _ _ _ _ (key dx hdx dy hdy)]; exact hcell⟩

theorem rowValues_eraseCell_self (g : PuzzleGrid) (x y : Nat)
    (hWF : WF g) (hx : x < 9) (hy : y < 9) (hpos : 0 < g.cellAt x y)
    (hrnd : RowsNoDup g) :
    rowValues (eraseCell g x y) y = (rowValues g y).erase (g.cellAt x y) := by
  ext w
  rw [mem_rowValues, Finset.mem_erase, mem_rowValues]
  constructor
  · rintro ⟨hw, x', hx', hcell⟩
    by_cases hxx : x' = x
    · subst hxx
      rw [cellAt_eraseCell_self _ _ _ hWF hx' hy] at hcell
      exact absurd hcell.symm hw
    · rw [cellAt_eraseCell_ne _ _ _ _ _ (Or.inl hxx)] at hcell
      refine ⟨?_, hw, x', hx', hcell⟩
      rintro rfl
      exact hrnd y hy x' hx' x hx hxx (hcell ▸ hw) (by rw [hcell])
  · rintro ⟨hne, hw, x', hx', hcell⟩
    have hxx : x' ≠ x := by
      rintro rfl
      exact hne (hcell ▸ rfl)
    exact ⟨hw, x', hx', by rw [cellAt_eraseCell_ne _ _ _ _ _ (Or.inl hxx)]; exact hcell⟩

theorem rowValues_eraseCell_ne (g : PuzzleGrid) (x y y' : Nat) (h : y' ≠ y) :
    rowValues (eraseCell g x y) y' = rowValues g y' := by
  ext w
  rw [mem_rowValues, mem_rowValues]
  constructor
  · rintro ⟨hw, x', hx', hcell⟩
    exact ⟨hw, x', hx', by rw [cellAt_eraseCell_ne _ _ _ _ _ (Or.inr h)] at hcell; exact hcell⟩
  · rintro ⟨hw, x', hx', hcell⟩
    exact ⟨hw, x', hx', by rw [cellAt_eraseCell_ne _ _ _ _ _ (Or.inr h)]; exact hcell⟩

theorem colValues_eraseCell_self (g : PuzzleGrid) (x y : Nat)
    (hWF : WF g) (hx : x < 9) (hy : y < 9) (hpos : 0 < g.cellAt x y)
    (hcnd : ColsNoDup g) :
    colValues (eraseCell g x y) x = (colValues g x).erase (g.cellAt x y) := by
  ext w
  rw [mem_colValues, Finset.mem_erase, mem_colValues]
  constructor
  · rintro ⟨hw, y', hy', hcell⟩
    by_cases hyy : y' = y
    · subst hyy
      rw [cellAt_eraseCell_self _ _ _ hWF hx hy'] at hcell
      exact absurd hcell.symm hw
    · rw [cellAt_eraseCell_ne _ _ _ _ _ (Or.inr hyy)] at hcell
      refine ⟨?_, hw, y', hy', hcell⟩
      rintro rfl
      exact hcnd x hx y' hy' y hy hyy (hcell ▸ hw) (by rw [hcell])
  · rintro ⟨hne, hw, y', hy', hcell⟩
    have hyy : y' ≠ y := by
      rintro rfl
      exact hne (hcell ▸ rfl)
    exact ⟨hw, y', hy', by rw [cellAt_eraseCell_ne _ _ _ _ _ (Or.inr hyy)]; exact hcell⟩

theorem colValues_eraseCell_ne (g : PuzzleGrid) (x y x' : Nat) (h : x' ≠ x) :
    colValues (eraseCell g x y) x' = colValues g x' := by
  ext w
  rw [mem_colValues, mem_colValues]
  constructor
  · rintro ⟨hw, y', hy', hcell⟩
    exact ⟨hw, y', hy', by rw [cellAt_eraseCell_ne _ _ _ _ _ (Or.inl h)] at hcell; exact hcell⟩
  · rintro ⟨hw, y', hy', hcell⟩
    exact ⟨hw, y', hy', by rw [cellAt_eraseCell_ne _ _ _ _ _ (Or.inl h)]; exact hcell⟩

theorem boxValues_eraseCell_self (g : PuzzleGrid) (x y : Nat)
    (hWF : WF g) (hx : x < 9) (hy : y < 9)
    (hbnd : BoxesNoDup g) :
    boxValues (eraseCell g x y) (x / 3) (y / 3) =
      (boxValues g (x / 3) (y / 3)).erase (g.cellAt x y) := by
  ext w
  rw [mem_boxValues, Finset.mem_erase, mem_boxValues]
  constructor
  · rintro ⟨hw, dx, hdx, dy, hdy, hcell⟩
    by_cases hxy : 3 * (x / 3) + dx = x ∧ 3 * (y / 3) + dy = y
    · rw [hxy.1, hxy.2, cellAt_eraseCell_self _ _ _ hWF hx hy] at hcell
      exact absurd hcell.symm hw
    · have hne : 3 * (x / 3) + dx ≠ x ∨ 3 * (y / 3) + dy ≠ y := by tauto
      rw [cellAt_eraseCell_ne _ _ _ _ _ hne] at hcell
      refine ⟨?_, hw, dx, hdx, dy, hdy, hcell⟩
      rintro rfl
      refine hbnd (3 * (x / 3) + dx) (by omega) (3 * (y / 3) + dy) (by omega)
        x hx y hy ?_ ?_ (hcell ▸ hw) (by rw [hcell])
      · simp only [boxCoordinates, BOX_SIZE, Prod.mk.injEq]
        exact ⟨by omega, by omega⟩
      · rcases hne with hne | hne <;> simp [hne]
  · rintro ⟨hne, hw, dx, hdx, dy, hdy, hcell⟩
    have hxy : 3 * (x / 3) + dx ≠ x ∨ 3 * (y / 3) + dy ≠ y := by
      by_contra hcon
      push_neg at hcon
      rw [hcon.1, hcon.2] at hcell
      exact hne (hcell ▸ rfl)
    exact ⟨hw, dx, hdx, dy, hdy, by rw [cellAt_eraseCell_ne _ _ _ _ _ hxy]; exact hcell⟩

theorem boxValues_eraseCell_ne (g : PuzzleGrid) (x y bx' bY' : Nat)
    (h : bx' ≠ x / 3 ∨ bY' ≠ y / 3) :
    boxValues (eraseCell g x y) bx' bY' = boxValues g bx' bY' := by
  ext w
  rw [mem_boxValues, mem_boxValues]
  have key : ∀ dx < 3, ∀ dy < 3, (3 * bx' + dx ≠ x ∨ 3 * bY' + dy ≠ y) := by
    intro dx hdx dy hdy
    rcases h with h | h
    · by_cases hc : 3 * bx' + dx = x
      · exact absurd (by omega : bx' = x / 3) h
      · exact Or.inl hc
    · by_cases hc : 3 * bY' + dy = y
      · exact absurd (by omega : bY' = y / 3) h
      · exact Or.inr hc
  constructor
  · rintro ⟨hw, dx, hdx, dy, hdy, hcell⟩
    exact ⟨hw, dx, hdx, dy, hdy, by
      rw [cellAt_eraseCell_ne _ _ _ _ _ (key dx hdx dy hdy)] at hcell; exact hcell⟩
  · rintro ⟨hw, dx, hdx, dy, hdy, hcell⟩
    exact ⟨hw, dx, hdx, dy, hdy, by
      rw [cellAt_eraseCell_ne _ _ _ _ _ (key dx hdx dy hdy)]; exact hcell⟩

/-- Writing a value that conflicts with no group keeps the grid valid. -/
theorem ValidGrid_writeCell (g : PuzzleGrid) (x y : Nat) (v : Int)
    (hV : ValidGrid g) (hWF : WF g) (hx : x < 9) (hy : y < 9)
    (hblank : g.cellAt x y = 0) (hv : v ≠ 0)
    (hrv : v ∉ rowValues g y) (hcv : v ∉ colValues g x)
    (hbv : v ∉ boxValues g (x / 3) (y / 3)) :
    ValidGrid (writeCell g x y v) := by
  obtain ⟨hr, hc, hb⟩ := hV
  have hcself := cellAt_writeCell_self g x y v hWF hx hy
  refine ⟨?_, ?_, ?_⟩
  · intro y' hy' x1 hx1 x2 hx2 hne h0
    by_cases e1 : x1 = x ∧ y' = y
    · obtain ⟨rfl, rfl⟩ := e1
      rw [hcself]
      rw [cellAt_writeCell_ne _ _ _ _ _ _ (Or.inl (fun hc2 => hne hc2.symm))]
      intro heq
      exact hrv (by rw [mem_rowValues]; exact ⟨hv, x2, hx2, heq.symm⟩)
    · have hne1 : x1 ≠ x ∨ y' ≠ y := by tauto
      rw [cellAt_writeCell_ne _ _ _ _ _ _ hne1] at h0 ⊢
      by_cases e2 : x2 = x ∧ y' = y
      · obtain ⟨rfl, rfl⟩ := e2
        rw [hcself]
        intro heq
        exact hrv (by rw [mem_rowValues]; exact ⟨heq ▸ h0, x1, hx1, heq⟩)
      · have hne2 : x2 ≠ x ∨ y' ≠ y := by tauto
        rw [cellAt_writeCell_ne _ _ _ _ _ _ hne2]
        exact hr y' hy' x1 hx1 x2 hx2 hne h0
  · intro x' hx' y1 hy1 y2 hy2 hne h0
    by_cases e1 : x' = x ∧ y1 = y
    · obtain ⟨rfl, rfl⟩ := e1
      rw [hcself]
      rw [cellAt_writeCell_ne _ _ _ _ _ _ (Or.inr (fun hc2 => hne hc2.symm))]
      intro heq
      exact hcv (by rw [mem_colValues]; exact ⟨hv, y2, hy2, heq.symm⟩)
    · have hne1 : x' ≠ x ∨ y1 ≠ y := by tauto
      rw [cellAt_writeCell_ne _ _ _ _ _ _ hne1] at h0 ⊢
      by_cases e2 : x' = x ∧ y2 = y
      · obtain ⟨rfl, rfl⟩ := e2
        rw [hcself]
        intro heq
        exact hcv (by rw [mem_colValues]; exact ⟨heq ▸ h0, y1, hy1, heq⟩)
      · have hne2 : x' ≠ x ∨ y2 ≠ y := by tauto
        rw [cellAt_writeCell_ne _ _ _ _ _ _ hne2]
        exact hc x' hx' y1 hy1 y2 hy2 hne h0
  · intro x1 hx1 y1 hy1 x2 hx2 y2 hy2 hbox hne h0
    have hbox' : x1 / 3 = x2 / 3 ∧ y1 / 3 = y2 / 3 := by
      simpa [boxCoordinates, BOX_SIZE, Prod.mk.injEq] using hbox
    by_cases e1 : x1 = x ∧ y1 = y
    · obtain ⟨rfl, rfl⟩ := e1
      rw [hcself]
      have hne2 : x2 ≠ x1 ∨ y2 ≠ y1 := by
        by_contra hcon
        push_neg at hcon
        exact hne (by rw [hcon.1, hcon.2])
      rw [cellAt_writeCell_ne _ _ _ _ _ _ hne2]
      intro heq
      apply hbv
      have hmem := cell_mem_boxValues g x2 y2 (heq ▸ hv)
      rw [← hbox'.1, ← hbox'.2] at hmem
      rw [heq]
      exact hmem
    · have hne1 : x1 ≠ x ∨ y1 ≠ y := by tauto
      rw [cellAt_writeCell_ne _ _ _ _ _ _ hne1] at h0 ⊢
      by_cases e2 : x2 = x ∧ y2 = y
      · obtain ⟨rfl, rfl⟩ := e2
        rw [hcself]
        intro heq
        apply hbv
        have := cell_mem_boxValues g x1 y1 h0
        rw [heq] at this
        rwa [hbox'.1, hbox'.2] at this
      · have hne2 : x2 ≠ x ∨ y2 ≠ y := by tauto
        rw [cellAt_writeCell_ne _ _ _ _ _ _ hne2]
        exact hb x1 hx1 y1 hy1 x2 hx2 y2 hy2 hbox hne h0

theorem ValuesOk_writeCell (g : PuzzleGrid) (x y : Nat) (v : Int)
    (hVal : ValuesOk g) (hWF : WF g) (hx : x < 9) (hy : y < 9)
    (hv0 : 0 ≤ v) (hv9 : v ≤ 9) : ValuesOk (writeCell g x y v) := by
  intro x' hx' y' hy'
  by_cases e : x' = x ∧ y' = y
  · obtain ⟨rfl, rfl⟩ := e
    rw [cellAt_writeCell_self _ _ _ _ hWF hx' hy']
    exact ⟨hv0, hv9⟩
  · rw [cellAt_writeCell_ne _ _ _ _ _ _ (by tauto)]
    exact hVal x' hx' y' hy'

theorem XInv_writeCell (g : PuzzleGrid) (x y : Nat) (v : Int)
    (hX : XInv g) (hx : x < 9) (hy : y < 9) (hblank : g.cellAt x y = 0)
    (hv1 : 0 < v) (hv9 : v ≤ 9)
    (hrv : v ∉ rowValues g y) (hcv : v ∉ colValues g x)
    (hbv : v ∉ boxValues g (x / 3) (y / 3)) :
    XInv (writeCell g x y v) := by
  obtain ⟨hWF, hVal, ⟨hexr, hexc, hexb⟩, hV⟩ := hX
  refine ⟨WF_writeCell _ _ _ _ hWF,
    ValuesOk_writeCell _ _ _ _ hVal hWF hx hy (by omega) hv9, ⟨?_, ?_, ?_⟩,
    ValidGrid_writeCell _ _ _ _ hV hWF hx hy hblank (by omega) hrv hcv hbv⟩
  · intro y' hy'
    by_cases hyy : y' = y
    · subst hyy
      rw [rowSetAt_writeCell_self _ _ _ _ hWF hy',
        rowValues_writeCell_self _ _ _ _ hWF hx hy' hblank (by omega),
        hexr y' hy']
    · rw [rowSetAt_writeCell_ne _ _ _ _ _ hyy,
        rowValues_writeCell_ne _ _ _ _ _ hyy, hexr y' hy']
  · intro x' hx'
    by_cases hxx : x' = x
    · subst hxx
      rw [colSetAt_writeCell_self _ _ _ _ hWF hx',
        colValues_writeCell_self _ _ _ _ hWF hx' hy hblank (by omega),
        hexc x' hx']
    · rw [colSetAt_writeCell_ne _ _ _ _ _ hxx,
        colValues_writeCell_ne _ _ _ _ _ hxx, hexc x' hx']
  · intro bx' hbx' bY' hbY'
    by_cases hbb : bx' = x / 3 ∧ bY' = y / 3
    · obtain ⟨rfl, rfl⟩ := hbb
      rw [boxSetAt_writeCell_self _ _ _ _ hWF hx hy,
        boxValues_writeCell_self _ _ _ _ hWF hx hy hblank (by omega),
        hexb _ hbx' _ hbY']
    · have hne : bx' ≠ x / 3 ∨ bY' ≠ y / 3 := by tauto
      rw [boxSetAt_writeCell_ne _ _ _ _ _ _ hne,
        boxValues_writeCell_ne _ _ _ _ _ _ hne, hexb _ hbx' _ hbY']

/-- Write preservation of the weak invariant, with the conditions the solver
actually checks (absence from the three index sets). -/
theorem Inv_writeCell (g : PuzzleGrid) (x y : Nat) (v : Int)
    (hI : Inv g) (hx : x < 9) (hy : y < 9) (hblank : g.cellAt x y = 0)
    (hv1 : 0 < v) (hv9 : v ≤ 9)
    (hb : v ∉ g.boxSetAt (x / 3) (y / 3)) (hr : v ∉ g.rowSetAt y)
    (hc : v ∉ g.colSetAt x) :
    Inv (writeCell g x y v) := by
  obtain ⟨hWF, hVal, hOv, hV⟩ := hI
  have hrv : v ∉ rowValues g y := by
    rw [mem_rowValues]
    rintro ⟨hv0, x', hx', hcell⟩
    exact hr (hcell ▸ (hOv x' hx' y hy (hcell ▸ hv0)).1)
  have hcv : v ∉ colValues g x := by
    rw [mem_colValues]
    rintro ⟨hv0, y', hy', hcell⟩
    exact hc (hcell ▸ (hOv x hx y' hy' (hcell ▸ hv0)).2.1)
  have hbv : v ∉ boxValues g (x / 3) (y / 3) := by
    rw [mem_boxValues]
    rintro ⟨hv0, dx, hdx, dy, hdy, hcell⟩
    have h1 : 3 * (x / 3) + dx < 9 := by omega
    have h2 : 3 * (y / 3) + dy < 9 := by omega
    have := (hOv _ h1 _ h2 (hcell ▸ hv0)).2.2
    rw [hcell, show (3 * (x / 3) + dx) / 3 = x / 3 by omega,
      show (3 * (y / 3) + dy) / 3 = y / 3 by omega] at this
    exact hb this
  refine ⟨WF_writeCell _ _ _ _ hWF,
    ValuesOk_writeCell _ _ _ _ hVal hWF hx hy (by omega) hv9, ?_,
    ValidGrid_writeCell _ _ _ _ hV hWF hx hy hblank (by omega) hrv hcv hbv⟩
  intro x' hx' y' hy' h0
  by_cases e : x' = x ∧ y' = y
  · obtain ⟨rfl, rfl⟩ := e
    rw [cellAt_writeCell_self _ _ _ _ hWF hx' hy']
    rw [rowSetAt_writeCell_self _ _ _ _ hWF hy',
      colSetAt_writeCell_self _ _ _ _ hWF hx',
      boxSetAt_writeCell_self _ _ _ _ hWF hx' hy']
    exact ⟨Finset.mem_insert_self _ _, Finset.mem_insert_self _ _,
      Finset.mem_insert_self _ _⟩
  · have hne : x' ≠ x ∨ y' ≠ y := by tauto
    rw [cellAt_writeCell_ne _ _ _ _ _ _ hne] at h0 ⊢
    obtain ⟨m1, m2, m3⟩ := hOv x' hx' y' hy' h0
    refine ⟨?_, ?_, ?_⟩
    · by_cases hyy : y' = y
      · subst hyy
        rw [rowSetAt_writeCell_self _ _ _ _ hWF hy']
        exact Finset.mem_insert_of_mem m1
      · rw [rowSetAt_writeCell_ne _ _ _ _ _ hyy]
        exact m1
    · by_cases hxx : x' = x
      · subst hxx
        rw [colSetAt_writeCell_self _ _ _ _ hWF hx']
        exact Finset.mem_insert_of_mem m2
      · rw [colSetAt_writeCell_ne _ _ _ _ _ hxx]
        exact m2
    · by_cases hbb : x' / 3 = x / 3 ∧ y' / 3 = y / 3
      · rw [hbb.1, hbb.2, boxSetAt_writeCell_self _ _ _ _ hWF hx hy]
        rw [← hbb.1, ← hbb.2]
        exact Finset.mem_insert_of_mem m3
      · have hneb : x' / 3 ≠ x / 3 ∨ y' / 3 ≠ y / 3 := by tauto
        rw [boxSetAt_writeCell_ne _ _ _ _ _ _ hneb]
        exact m3

/-- Clearing a cell keeps the grid valid. -/
theorem ValidGrid_eraseCell (g : PuzzleGrid) (x y : Nat) (hV : ValidGrid g)
    (hWF : WF g) (hx : x < 9) (hy : y < 9) :
    ValidGrid (eraseCell g x y) := by
  obtain ⟨hr, hc, hb⟩ := hV
  have hzero := cellAt_eraseCell_self g x y hWF hx hy
  have hread : ∀ x' y', (eraseCell g x y).cellAt x' y' ≠ 0 →
      (eraseCell g x y).cellAt x' y' = g.cellAt x' y' := by
    intro x' y' h0
    by_cases e : x' = x ∧ y' = y
    · obtain ⟨rfl, rfl⟩ := e
      exact absurd hzero h0
    · exact cellAt_eraseCell_ne _ _ _ _ _ (by tauto)
  refine ⟨?_, ?_, ?_⟩
  · intro y' hy' x1 hx1 x2 hx2 hne h0
    have h1 := hread _ _ h0
    by_cases h2z : (eraseCell g x y).cellAt x2 y' = 0
    · rw [h2z]
      exact h0
    · have h2 := hread _ _ h2z
      rw [h1, h2]
      exact hr y' hy' x1 hx1 x2 hx2 hne (h1 ▸ h0)
  · intro x' hx' y1 hy1 y2 hy2 hne h0
    have h1 := hread _ _ h0
    by_cases h2z : (eraseCell g x y).cellAt x' y2 = 0
    · rw [h2z]
      exact h0
    · have h2 := hread _ _ h2z
      rw [h1, h2]
      exact hc x' hx' y1 hy1 y2 hy2 hne (h1 ▸ h0)
  · intro x1 hx1 y1 hy1 x2 hx2 y2 hy2 hbox hne h0
    have h1 := hread _ _ h0
    by_cases h2z : (eraseCell g x y).cellAt x2 y2 = 0
    · rw [h2z]
      exact h0
    · have h2 := hread _ _ h2z
      rw [h1, h2]
      exact hb x1 hx1 y1 hy1 x2 hx2 y2 hy2 hbox hne (h1 ▸ h0)

theorem ValuesOk_eraseCell (g : PuzzleGrid) (x y : Nat)
    (hVal : ValuesOk g) (hWF : WF g) (hx : x < 9) (hy : y < 9) :
    ValuesOk (eraseCell g x y) := by
  intro x' hx' y' hy'
  by_cases e : x' = x ∧ y' = y
  · obtain ⟨rfl, rfl⟩ := e
    rw [cellAt_eraseCell_self _ _ _ hWF hx' hy']
    omega
  · rw [cellAt_eraseCell_ne _ _ _ _ _ (by tauto)]
    exact hVal x' hx' y' hy'

theorem XInv_eraseCell (g : PuzzleGrid) (x y : Nat)
    (hX : XInv g) (hx : x < 9) (hy : y < 9) (hpos : 0 < g.cellAt x y) :
    XInv (eraseCell g x y) := by
  obtain ⟨hWF, hVal, ⟨hexr, hexc, hexb⟩, hV⟩ := hX
  refine ⟨WF_eraseCell _ _ _ hWF, ValuesOk_eraseCell _ _ _ hVal hWF hx hy,
    ⟨?_, ?_, ?_⟩, ValidGrid_eraseCell _ _ _ hV hWF hx hy⟩
  · intro y' hy'
    by_cases hyy : y' = y
    · subst hyy
      rw [rowSetAt_eraseCell_self _ _ _ hWF hy',
        rowValues_eraseCell_self _ _ _ hWF hx hy' hpos hV.1, hexr y' hy']
    · rw [rowSetAt_eraseCell_ne _ _ _ _ hyy,
        rowValues_eraseCell_ne _ _ _ _ hyy, hexr y' hy']
  · intro x' hx'
    by_cases hxx : x' = x
    · subst hxx
      rw [colSetAt_eraseCell_self _ _ _ hWF hx',
        colValues_eraseCell_self _ _ _ hWF hx' hy hpos hV.2.1, hexc x' hx']
    · rw [colSetAt_eraseCell_ne _ _ _ _ hxx,
        colValues_eraseCell_ne _ _ _ _ hxx, hexc x' hx']
  · intro bx' hbx' bY' hbY'
    by_cases hbb : bx' = x / 3 ∧ bY' = y / 3
    · obtain ⟨rfl, rfl⟩ := hbb
      rw [boxSetAt_eraseCell_self _ _ _ hWF hx hy,
        boxValues_eraseCell_self _ _ _ hWF hx hy hV.2.2, hexb _ hbx' _ hbY']
    · have hne : bx' ≠ x / 3 ∨ bY' ≠ y / 3 := by tauto
      rw [boxSetAt_eraseCell_ne _ _ _ _ _ hne,
        boxValues_eraseCell_ne _ _ _ _ _ hne, hexb _ hbx' _ hbY']

theorem Inv_eraseCell (g : PuzzleGrid) (x y : Nat)
    (hI : Inv g) (hx : x < 9) (hy : y < 9) (hpos : 0 < g.cellAt x y) :
    Inv (eraseCell g x y) := by
  obtain ⟨hWF, hVal, hOv, hV⟩ := hI
  refine ⟨WF_eraseCell _ _ _ hWF, ValuesOk_eraseCell _ _ _ hVal hWF hx hy, ?_,
    ValidGrid_eraseCell _ _ _ hV hWF hx hy⟩
  intro x' hx' y' hy' h0
  by_cases e : x' = x ∧ y' = y
  · obtain ⟨rfl, rfl⟩ := e
    rw [cellAt_eraseCell_self _ _ _ hWF hx' hy'] at h0
    exact absurd rfl h0
  · have hne : x' ≠ x ∨ y' ≠ y := by tauto
    rw [cellAt_eraseCell_ne _ _ _ _ _ hne] at h0 ⊢
    obtain ⟨m1, m2, m3⟩ := hOv x' hx' y' hy' h0
    refine ⟨?_, ?_, ?_⟩
    · by_cases hyy : y' = y
      · subst hyy
        have hxx : x' ≠ x := by tauto
        rw [rowSetAt_eraseCell_self _ _ _ hWF hy']
        exact Finset.mem_erase.mpr ⟨hV.1 y' hy' x' hx' x hx hxx h0, m1⟩
      · rw [rowSetAt_eraseCell_ne _ _ _ _ hyy]
        exact m1
    · by_cases hxx : x' = x
      · subst hxx
        have hyy : y' ≠ y := by tauto
        rw [colSetAt_eraseCell_self _ _ _ hWF hx']
        exact Finset.mem_erase.mpr ⟨hV.2.1 x' hx' y' hy' y hy hyy h0, m2⟩
      · rw [colSetAt_eraseCell_ne _ _ _ _ hxx]
        exact m2
    · by_cases hbb : x' / 3 = x / 3 ∧ y' / 3 = y / 3
      · rw [hbb.1, hbb.2, boxSetAt_eraseCell_self _ _ _ hWF hx hy]
        refine Finset.mem_erase.mpr ⟨?_, by rw [← hbb.1, ← hbb.2]; exact m3⟩
        refine hV.2.2 x' hx' y' hy' x hx y hy ?_ (by simp [Prod.mk.injEq]; tauto) h0
        simp only [boxCoordinates, Prod.mk.injEq, BOX_SIZE]
        exact ⟨hbb.1, hbb.2⟩
      · have hneb : x' / 3 ≠ x / 3 ∨ y' / 3 ≠ y / 3 := by tauto
        rw [boxSetAt_eraseCell_ne _ _ _ _ _ hneb]
        exact m3

end PuzzleGrid

/-! ### Correctness of `copy` -/

namespace PuzzleGrid

theorem get_value_ok (g : PuzzleGrid) (x y : Nat) (hx : x < 9) (hy : y < 9) :
    get_value g x y = .ok (g.cellAt x y) := by
  simp only [get_value, NUM_COLUMNS, NUM_ROWS]
  rw [if_neg (by omega)]

theorem setCell_zero_eq (g : PuzzleGrid) (x y : Nat) (hWF : WF g)
    (hx : x < 9) (hy : y < 9) (hblank : g.cellAt x y = 0) :
    g.setCell x y 0 = g := by
  have := setCell_same_eq g x y hWF hx hy
  rwa [hblank] at this

theorem reset_eq_init (g : PuzzleGrid) : g.reset = init := rfl

theorem XInv_init : XInv init := by decide

/-- The region `row < y`, or `row = y` and `column < x`, has been copied
from `other`; everything else is still blank. -/
def CopiedUpTo (other g : PuzzleGrid) (y x : Nat) : Prop :=
  ∀ x' < 9, ∀ y' < 9,
    g.cellAt x' y' =
      if y' < y ∨ (y' = y ∧ x' < x) then other.cellAt x' y' else 0

theorem copy_inner (other : PuzzleGrid) (hVo : ValuesOk other)
    (hVGo : ValidGrid other) (y : Nat) (hy : y < 9) :
    ∀ n, n ≤ 9 → ∀ g0 : PuzzleGrid, XInv g0 → CopiedUpTo other g0 y 0 →
      ∃ g', (List.range n).foldl (copyCellStep other y) (.ok (), g0) = (.ok (), g') ∧
        XInv g' ∧ CopiedUpTo other g' y n := by
  intro n
  induction n with
  | zero =>
    intro _ g0 hX hC
    exact ⟨g0, rfl, hX, hC⟩
  | succ n ih =>
    intro hn g0 hX hC
    obtain ⟨gn, heq, hXn, hCn⟩ := ih (by omega) g0 hX hC
    rw [List.range_succ, List.foldl_append, heq]
    have hblank : gn.cellAt n y = 0 := by
      rw [hCn n (by omega) y hy, if_neg (by omega)]
    have hval := hVo n (by omega) y hy
    simp only [List.foldl_cons, List.foldl_nil, copyCellStep,
      get_value_ok other n y (by omega) hy]
    by_cases hz : other.cellAt n y = 0
    · rw [hz, set_value_ok_zero_blank gn n y (by omega) hy (by omega),
        setCell_zero_eq gn n y hXn.1 (by omega) hy hblank]
      refine ⟨gn, rfl, hXn, ?_⟩
      intro x' hx' y' hy'
      rw [hCn x' hx' y' hy']
      by_cases hcase : y' < y ∨ (y' = y ∧ x' < n)
      · rw [if_pos hcase, if_pos (by omega)]
      · rw [if_neg hcase]
        by_cases hcase2 : y' = y ∧ x' = n
        · rw [if_pos (by omega), hcase2.1, hcase2.2, hz]
        · rw [if_neg (by omega)]
    · have hvpos : 0 < other.cellAt n y := by omega
      have hrset : other.cellAt n y ∉ gn.rowSetAt y := by
        rw [hXn.2.2.1.1 y hy, mem_rowValues]
        rintro ⟨h0, x', hx', hcell⟩
        rw [hCn x' hx' y hy] at hcell
        by_cases hreg : y < y ∨ (y = y ∧ x' < n)
        · rw [if_pos hreg] at hcell
          exact hVGo.1 y hy x' hx' n (by omega) (by omega) (by omega) hcell
        · rw [if_neg hreg] at hcell
          exact hz hcell.symm
      have hcset : other.cellAt n y ∉ gn.colSetAt n := by
        rw [hXn.2.2.1.2.1 n (by omega), mem_colValues]
        rintro ⟨h0, y', hy', hcell⟩
        rw [hCn n (by omega) y' hy'] at hcell
        by_cases hreg : y' < y ∨ (y' = y ∧ n < n)
        · rw [if_pos hreg] at hcell
          exact hVGo.2.1 n (by omega) y' hy' y hy (by omega) (by omega) hcell
        · rw [if_neg hreg] at hcell
          exact hz hcell.symm
      have hbset : other.cellAt n y ∉ gn.boxSetAt (n / 3) (y / 3) := by
        rw [hXn.2.2.1.2.2 (n / 3) (by omega) (y / 3) (by omega), mem_boxValues]
        rintro ⟨h0, dx, hdx, dy, hdy, hcell⟩
        set a := 3 * (n / 3) + dx with ha
        set b := 3 * (y / 3) + dy with hb
        have ha9 : a < 9 := by omega
        have hb9 : b < 9 := by omega
        rw [hCn a ha9 b hb9] at hcell
        by_cases hreg : b < y ∨ (b = y ∧ a < n)
        · rw [if_pos hreg] at hcell
          refine hVGo.2.2 a ha9 b hb9 n (by omega) y hy ?_ ?_ (by omega) hcell
          · simp only [boxCoordinates, BOX_SIZE, Prod.mk.injEq]
            exact ⟨by omega, by omega⟩
          · rw [ne_eq, Prod.mk.injEq]
            omega
        · rw [if_neg hreg] at hcell
          have : a = n ∧ b = y := by omega
          exact absurd hcell.symm (by omega)
      rw [set_value_ok_pos gn n y _ (by omega) hy hvpos (by omega) hbset hrset hcset]
      refine ⟨writeCell gn n y (other.cellAt n y), rfl, ?_, ?_⟩
      · refine XInv_writeCell gn n y _ hXn (by omega) hy hblank hvpos (by omega) ?_ ?_ ?_
        · rwa [← hXn.2.2.1.1 y hy]
        · rwa [← hXn.2.2.1.2.1 n (by omega)]
        · rwa [← hXn.2.2.1.2.2 (n / 3) (by omega) (y / 3) (by omega)]
      · intro x' hx' y' hy'
        by_cases he : x' = n ∧ y' = y
        · obtain ⟨rfl, rfl⟩ := he
          rw [cellAt_writeCell_self _ _ _ _ hXn.1 hx' hy', if_pos (by omega)]
        · rw [cellAt_writeCell_ne _ _ _ _ _ _ (by tauto), hCn x' hx' y' hy']
          by_cases hcase : y' < y ∨ (y' = y ∧ x' < n)
          · rw [if_pos hcase, if_pos (by omega)]
          · rw [if_neg hcase, if_neg (by omega)]

theorem copy_outer (other : PuzzleGrid) (hVo : ValuesOk other)
    (hVGo : ValidGrid other) :
    ∀ m, m ≤ 9 → ∃ g', (List.range m).foldl (copyRowStep other)
        (.ok (), init) = (.ok (), g') ∧ XInv g' ∧ CopiedUpTo other g' m 0 := by
  intro m
  induction m with
  | zero =>
    intro _
    refine ⟨init, rfl, XInv_init, ?_⟩
    intro x' hx' y' hy'
    rw [if_neg (by omega)]
    revert x' y'
    decide
  | succ m ih =>
    intro hm
    obtain ⟨gm, heq, hXm, hCm⟩ := ih (by omega)
    rw [List.range_succ, List.foldl_append, heq]
    simp only [List.foldl_cons, List.foldl_nil, copyRowStep, NUM_COLUMNS]
    obtain ⟨g', heq', hX', hC'⟩ :=
      copy_inner other hVo hVGo m (by omega) 9 (by omega) gm hXm hCm
    rw [heq']
    refine ⟨g', rfl, hX', ?_⟩
    intro x' hx' y' hy'
    rw [hC' x' hx' y' hy']
    by_cases hcase : y' < m ∨ (y' = m ∧ x' < 9)
    · rw [if_pos hcase, if_pos (by omega)]
    · rw [if_neg hcase, if_neg (by omega)]

/-- `copy` from any grid whose cell matrix is valid succeeds and produces a
grid with the same cell contents satisfying the strong invariant. -/
theorem copy_spec (t other : PuzzleGrid) (hVo : ValuesOk other)
    (hVGo : ValidGrid other) :
    ∃ c, copy t other = (.ok (), c) ∧ XInv c ∧
      ∀ x < 9, ∀ y < 9, c.cellAt x y = other.cellAt x y := by
  obtain ⟨g', heq, hX', hC'⟩ := copy_outer other hVo hVGo 9 (by omega)
  refine ⟨g', ?_, hX', ?_⟩
  · unfold copy
    rw [reset_eq_init t]
    exact heq
  · intro x hx y hy
    rw [hC' x hx y hy, if_pos (by omega)]

theorem rowValues_congr (g₁ g₂ : PuzzleGrid)
    (h : ∀ x < 9, ∀ y < 9, g₁.cellAt x y = g₂.cellAt x y) (y : Nat) (hy : y < 9) :
    rowValues g₁ y = rowValues g₂ y := by
  ext w
  rw [mem_rowValues, mem_rowValues]
  constructor
  · rintro ⟨hw, x, hx, hc⟩
    exact ⟨hw, x, hx, by rw [← h x hx y hy]; exact hc⟩
  · rintro ⟨hw, x, hx, hc⟩
    exact ⟨hw, x, hx, by rw [h x hx y hy]; exact hc⟩

theorem colValues_congr (g₁ g₂ : PuzzleGrid)
    (h : ∀ x < 9, ∀ y < 9, g₁.cellAt x y = g₂.cellAt x y) (x : Nat) (hx : x < 9) :
    colValues g₁ x = colValues g₂ x := by
  ext w
  rw [mem_colValues, mem_colValues]
  constructor
  · rintro ⟨hw, y, hy, hc⟩
    exact ⟨hw, y, hy, by rw [← h x hx y hy]; exact hc⟩
  · rintro ⟨hw, y, hy, hc⟩
    exact ⟨hw, y, hy, by rw [h x hx y hy]; exact hc⟩

theorem boxValues_congr (g₁ g₂ : PuzzleGrid)
    (h : ∀ x < 9, ∀ y < 9, g₁.cellAt x y = g₂.cellAt x y) (bx bY : Nat)
    (hbx : bx < 3) (hbY : bY < 3) :
    boxValues g₁ bx bY = boxValues g₂ bx bY := by
  ext w
  rw [mem_boxValues, mem_boxValues]
  constructor
  · rintro ⟨hw, dx, hdx, dy, hdy, hc⟩
    exact ⟨hw, dx, hdx, dy, hdy, by
      rw [← h (3 * bx + dx) (by omega) (3 * bY + dy) (by omega)]; exact hc⟩
  · rintro ⟨hw, dx, hdx, dy, hdy, hc⟩
    exact ⟨hw, dx, hdx, dy, hdy, by
      rw [h (3 * bx + dx) (by omega) (3 * bY + dy) (by omega)]; exact hc⟩

/-- Two grids that satisfy the strong invariant and agree cell-wise are
equal (the index structures are determined by the cells). -/
theorem eq_of_XInv_of_cells (g₁ g₂ : PuzzleGrid) (h₁ : XInv g₁) (h₂ : XInv g₂)
    (h : ∀ x < 9, ∀ y < 9, g₁.cellAt x y = g₂.cellAt x y) : g₁ = g₂ := by
  apply grid_eq_of_reads g₁ g₂ h₁.1 h₂.1 h
  · intro y hy
    rw [h₁.2.2.1.1 y hy, h₂.2.2.1.1 y hy]
    exact rowValues_congr g₁ g₂ h y hy
  · intro x hx
    rw [h₁.2.2.1.2.1 x hx, h₂.2.2.1.2.1 x hx]
    exact colValues_congr g₁ g₂ h x hx
  · intro bx hbx bY hbY
    rw [h₁.2.2.1.2.2 bx hbx bY hbY, h₂.2.2.1.2.2 bx hbx bY hbY]
    exact boxValues_congr g₁ g₂ h bx bY hbx hbY

/-- Copying a grid that satisfies the strong invariant reproduces it
exactly. -/
theorem copy_eq_self (t other : PuzzleGrid) (hX : XInv other) :
    copy t other = (.ok (), other) := by
  obtain ⟨c, heq, hXc, hC⟩ := copy_spec t other hX.2.1 hX.2.2.2
  rw [heq, eq_of_XInv_of_cells c other hXc hX hC]

end PuzzleGrid

/-! ### Claim C6 -/

namespace PuzzleGrid

/-- The number of blank cells the box bookkeeping attributes to box
`(bx, bY)`: `BOX_SIZE * BOX_SIZE - len(box_definites)`. -/
def spacesInBox (s : SpaceState) (bx bY : Nat) : Int :=
  ((BOX_SIZE * BOX_SIZE : Nat) : Int) - (s.grid.boxSetAt bx bY).card

/-- The number of boxes whose blank count equals `avg`. -/
def boxesWithAvgCount (s : SpaceState) (avg : Nat) : Nat :=
  (boxCoordList.filter (fun p => spacesInBox s p.1 p.2 = (avg : Int))).length

theorem mem_boxCoordList (p : Nat × Nat) :
    p ∈ boxCoordList ↔ p.1 < 3 ∧ p.2 < 3 := by
  rcases p with ⟨bx, bY⟩
  simp only [boxCoordList, NUM_BOXES_X, NUM_BOXES_Y, NUM_ROWS, NUM_COLUMNS,
    BOX_SIZE, List.mem_flatMap, List.mem_map, List.mem_range, Prod.mk.injEq]
  constructor
  · rintro ⟨b, hb, a, ha, rfl, rfl⟩
    omega
  · rintro ⟨h1, h2⟩
    exact ⟨bY, by omega, bx, by omega, rfl, rfl⟩

theorem spacesInBox_def (s : SpaceState) (bx bY : Nat) :
    ((BOX_SIZE * BOX_SIZE : Nat) : Int) - ((s.grid.boxSetAt bx bY).card : Int) =
      spacesInBox s bx bY := rfl

theorem checkBoxesLoop_spec (s : SpaceState) (avg : Nat) :
    ∀ (l : List (Nat × Nat)) (count : Nat),
      checkBoxesLoop s avg l count = true ↔
        (∀ p ∈ l, s.min_spaces_per_box ≤ spacesInBox s p.1 p.2 ∧
            spacesInBox s p.1 p.2 ≤ s.max_spaces_per_box) ∧
          5 ≤ count + (l.filter (fun p => spacesInBox s p.1 p.2 = (avg : Int))).length
  | [], count => by
    simp [checkBoxesLoop]
  | (bx, bY) :: rest, count => by
    simp only [checkBoxesLoop, spacesInBox_def]
    by_cases hband : s.max_spaces_per_box < spacesInBox s bx bY ∨
        spacesInBox s bx bY < s.min_spaces_per_box
    · rw [if_pos (by exact hband)]
      constructor
      · intro hfalse
        exact absurd hfalse (by simp)
      · rintro ⟨hall, _⟩
        have h := hall (bx, bY) (List.mem_cons_self _ _)
        have h1 : s.min_spaces_per_box ≤ spacesInBox s bx bY := h.1
        have h2 : spacesInBox s bx bY ≤ s.max_spaces_per_box := h.2
        omega
    · rw [if_neg (by exact hband)]
      rw [checkBoxesLoop_spec s avg rest _]
      constructor
      · rintro ⟨hrest, hcount⟩
        refine ⟨?_, ?_⟩
        · intro p hp
          rcases List.mem_cons.mp hp with rfl | hp'
          · exact ⟨(by omega : s.min_spaces_per_box ≤ spacesInBox s bx bY),
              (by omega : spacesInBox s bx bY ≤ s.max_spaces_per_box)⟩
          · exact hrest p hp'
        · by_cases havg : spacesInBox s bx bY = (avg : Int)
          · rw [List.filter_cons_of_pos (by simpa using havg)]
            simp only [List.length_cons]
            rw [if_pos havg] at hcount
            omega
          · rw [List.filter_cons_of_neg (by simpa using havg)]
            rw [if_neg havg] at hcount
            omega
      · rintro ⟨hall, hcount⟩
        refine ⟨fun p hp => hall p (List.mem_cons_of_mem _ hp), ?_⟩
        by_cases havg : spacesInBox s bx bY = (avg : Int)
        · rw [List.filter_cons_of_pos (by simpa using havg)] at hcount
          simp only [List.length_cons] at hcount
          rw [if_pos havg]
          omega
        · rw [List.filter_cons_of_neg (by simpa using havg)] at hcount
          rw [if_neg havg]
          omega

theorem check_space_distribution_spec (s : SpaceState) :
    check_space_distribution s = true ↔
      (∀ bx < 3, ∀ bY < 3,
          s.min_spaces_per_box ≤ spacesInBox s bx bY ∧
            spacesInBox s bx bY ≤ s.max_spaces_per_box) ∧
        5 ≤ boxesWithAvgCount s
          (s.required_spaces / (NUM_BOXES_X * NUM_BOXES_Y)) := by
  unfold check_space_distribution boxesWithAvgCount
  rw [checkBoxesLoop_spec]
  constructor
  · rintro ⟨hall, hcount⟩
    refine ⟨fun bx hbx bY hbY => hall (bx, bY) ((mem_boxCoordList _).mpr ⟨hbx, hbY⟩), ?_⟩
    simpa [NUM_BOXES_X, NUM_BOXES_Y, NUM_ROWS, NUM_COLUMNS, BOX_SIZE] using hcount
  · rintro ⟨hall, hcount⟩
    refine ⟨fun p hp => hall p.1 ((mem_boxCoordList p).mp hp).1 p.2
      ((mem_boxCoordList p).mp hp).2, ?_⟩
    simpa [NUM_BOXES_X, NUM_BOXES_Y, NUM_ROWS, NUM_COLUMNS, BOX_SIZE] using hcount

end PuzzleGrid

/-- C6.  In the space-removal search, once `spaceCount` has reached
`requiredSpaces` the recursion is in its base case, and with the per-box
band `[avg − 1, avg + 1]` (as `add_spaces` sets it up, `avg =
requiredSpaces / 9` by integer division):
* the configuration is accepted iff every box's blank count lies within the
  band and at least 5 of the 9 boxes have exactly `avg` blanks — on
  acceptance the current grid is snapshotted into `grid_with_spaces` and
  the call returns `True`;
* a rejected configuration increments the failure counter, and exactly when
  the incremented counter reaches 500 (`MAX_FAILED_SPACE_CONFIGURATIONS`)
  the search aborts with the too-many-failed-configurations error,
  otherwise it returns `False`. -/
theorem claim_C6 (cb : PuzzleGrid → Bool) (s : SpaceState)
    (markers : List SpaceMarker) (index space_count : Nat)
    (hreq : s.required_spaces ≤ space_count)
    (hmin : s.min_spaces_per_box = ((s.required_spaces / 9 : Nat) : Int) - 1)
    (hmax : s.max_spaces_per_box = ((s.required_spaces / 9 : Nat) : Int) + 1) :
    (PuzzleGrid.check_space_distribution s = true ↔
      (∀ bx < 3, ∀ bY < 3,
        ((s.required_spaces / 9 : Nat) : Int) - 1 ≤ PuzzleGrid.spacesInBox s bx bY ∧
          PuzzleGrid.spacesInBox s bx bY ≤ ((s.required_spaces / 9 : Nat) : Int) + 1) ∧
        5 ≤ PuzzleGrid.boxesWithAvgCount s (s.required_spaces / 9)) ∧
    (PuzzleGrid.check_space_distribution s = false →
      PuzzleGrid.add_spaces_impl cb s markers index space_count =
        if MAX_FAILED_SPACE_CONFIGURATIONS ≤ s.space_failure_count + 1 then
          (.error (.tooManyFailedSpaceConfigurations (s.space_failure_count + 1)),
            { s with space_failure_count := s.space_failure_count + 1 })
        else
          (.ok false, { s with space_failure_count := s.space_failure_count + 1 })) ∧
    (PuzzleGrid.check_space_distribution s = true → PuzzleGrid.XInv s.grid →
      PuzzleGrid.add_spaces_impl cb s markers index space_count =
        (.ok true, { s with grid_with_spaces := some s.grid })) := by
  have havg : s.required_spaces / (NUM_BOXES_X * NUM_BOXES_Y) = s.required_spaces / 9 := by
    norm_num [NUM_BOXES_X, NUM_BOXES_Y, NUM_ROWS, NUM_COLUMNS, BOX_SIZE]
  refine ⟨?_, ?_, ?_⟩
  · rw [PuzzleGrid.check_space_distribution_spec, havg, hmin, hmax]
  · intro hfail
    rw [PuzzleGrid.add_spaces_impl]
    rw [dif_pos hreq, if_pos (by simp [hfail])]
  · intro hok hX
    rw [PuzzleGrid.add_spaces_impl]
    rw [dif_pos hreq, if_neg (by simp [hok]), PuzzleGrid.copy_eq_self _ _ hX]

/-- C6, witness: on the empty grid every box counts 9 blanks, so
with `requiredSpaces = 45` (band `[4, 6]`) the distribution check fails,
the failure counter is bumped from 0 to 1, and the base case returns
`False` without raising. -/
theorem claim_C6_witness :
    PuzzleGrid.add_spaces_impl (fun _ => true)
        { grid := PuzzleGrid.init, required_spaces := 45,
          min_spaces_per_box := 4, max_spaces_per_box := 6,
          space_failure_count := 0, grid_with_spaces := none }
        [] 0 45 =
      (.ok false,
        { grid := PuzzleGrid.init, required_spaces := 45,
          min_spaces_per_box := 4, max_spaces_per_box := 6,
          space_failure_count := 1, grid_with_spaces := none }) := by
  have h := claim_C6 (fun _ => true)
    { grid := PuzzleGrid.init, required_spaces := 45,
      min_spaces_per_box := 4, max_spaces_per_box := 6,
      space_failure_count := 0, grid_with_spaces := none }
    [] 0 45 (by decide) (by decide) (by decide)
  have hfail : PuzzleGrid.check_space_distribution
      { grid := PuzzleGrid.init, required_spaces := 45,
        min_spaces_per_box := 4, max_spaces_per_box := 6,
        space_failure_count := 0, grid_with_spaces := none } = false := by decide
  have := h.2.1 hfail
  rw [this]
  rfl

/-! ### Claim C9 -/

/-- What one try of `generate_puzzle` did: `populate_cells` raised;
`populate_cells` succeeded but `add_spaces` raised; or both calls returned
normally (whatever boolean `add_spaces` produced). -/
inductive TryOutcome where
  | popFailed
  | spacesRaised
  | success
  deriving DecidableEq

namespace PuzzleGrid

/-- The randomness position after a try's `populate_cells` call (each try
runs on a reset grid, so only the position threads through). -/
def nextPos (r : Nat → Nat) (pos : Nat) : Nat :=
  (populate_cells r init pos).2.2

/-- The randomness position at the start of try `t`. -/
def posAt (r : Nat → Nat) (pos : Nat) : Nat → Nat
  | 0 => pos
  | t + 1 => nextPos r (posAt r pos t)

/-- The outcome of the try with index `t` and randomness position `p`. -/
def outAt (r : Nat → Nat) (cb : PuzzleGrid → Bool)
    (perms : Nat → List SpaceMarker → List SpaceMarker) (req : Nat)
    (t p : Nat) : TryOutcome :=
  match populate_cells r init p with
  | (.error _, _, _) => .popFailed
  | (.ok _, g', _) =>
    match add_spaces g' cb (perms t) req with
    | (.error _, _) => .spacesRaised
    | (.ok _, _) => .success

/-- The outcome of try `t` of a `generate_puzzle` run started at
randomness position `pos`. -/
def tryOutcome (r : Nat → Nat) (cb : PuzzleGrid → Bool)
    (perms : Nat → List SpaceMarker → List SpaceMarker) (req : Nat)
    (pos t : Nat) : TryOutcome :=
  outAt r cb perms req t (posAt r pos t)

theorem posAt_shift (r : Nat → Nat) (pos : Nat) :
    ∀ u, posAt r (nextPos r pos) u = posAt r pos (u + 1)
  | 0 => rfl
  | u + 1 => by
    show nextPos r (posAt r (nextPos r pos) u) = nextPos r (posAt r pos (u + 1))
    rw [posAt_shift r pos u]

section

attribute [local irreducible] populate_cells add_spaces

theorem nextPos_eq (r : Nat → Nat) (pos : Nat) (res : Except GridError Unit)
    (g' : PuzzleGrid) (pos' : Nat)
    (hpop : populate_cells r init pos = (res, g', pos')) :
    nextPos r pos = pos' := by
  unfold nextPos
  rw [hpop]

theorem outAt_popFailed (r : Nat → Nat) (cb : PuzzleGrid → Bool)
    (perms : Nat → List SpaceMarker → List SpaceMarker) (req t p : Nat)
    (e : GridError) (g' : PuzzleGrid) (pos' : Nat)
    (hpop : populate_cells r init p = (.error e, g', pos')) :
    outAt r cb perms req t p = .popFailed := by
  unfold outAt
  rw [hpop]

theorem outAt_spacesRaised (r : Nat → Nat) (cb : PuzzleGrid → Bool)
    (perms : Nat → List SpaceMarker → List SpaceMarker) (req t p : Nat)
    (u : Unit) (g' : PuzzleGrid) (pos' : Nat) (e2 : GridError) (s' : SpaceState)
    (hpop : populate_cells r init p = (.ok u, g', pos'))
    (hadd : add_spaces g' cb (perms t) req = (.error e2, s')) :
    outAt r cb perms req t p = .spacesRaised := by
  unfold outAt
  rw [hpop]
  show (match add_spaces g' cb (perms t) req with
    | (Except.error _, _) => TryOutcome.spacesRaised
    | (Except.ok _, _) => TryOutcome.success) = TryOutcome.spacesRaised
  rw [hadd]

theorem outAt_success (r : Nat → Nat) (cb : PuzzleGrid → Bool)
    (perms : Nat → List SpaceMarker → List SpaceMarker) (req t p : Nat)
    (u : Unit) (g' : PuzzleGrid) (pos' : Nat) (b : Bool) (s' : SpaceState)
    (hpop : populate_cells r init p = (.ok u, g', pos'))
    (hadd : add_spaces g' cb (perms t) req = (.ok b, s')) :
    outAt r cb perms req t p = .success := by
  unfold outAt
  rw [hpop]
  show (match add_spaces g' cb (perms t) req with
    | (Except.error _, _) => TryOutcome.spacesRaised
    | (Except.ok _, _) => TryOutcome.success) = TryOutcome.success
  rw [hadd]

theorem generateLoop_succ_popFail (r : Nat → Nat) (cb : PuzzleGrid → Bool)
    (perms : Nat → List SpaceMarker → List SpaceMarker) (req fuel t0 : Nat)
    (g : PuzzleGrid) (pos : Nat) (e : GridError) (g' : PuzzleGrid) (pos' : Nat)
    (hpop : populate_cells r init pos = (.error e, g', pos')) :
    generateLoop r cb perms req (fuel + 1) t0 g pos = (false, g', pos') := by
  simp only [generateLoop]
  rw [reset_eq_init g, hpop]

theorem generateLoop_succ_spaces (r : Nat → Nat) (cb : PuzzleGrid → Bool)
    (perms : Nat → List SpaceMarker → List SpaceMarker) (req fuel t0 : Nat)
    (g : PuzzleGrid) (pos : Nat) (u : Unit) (g' : PuzzleGrid) (pos' : Nat)
    (e2 : GridError) (s' : SpaceState)
    (hpop : populate_cells r init pos = (.ok u, g', pos'))
    (hadd : add_spaces g' cb (perms t0) req = (.error e2, s')) :
    generateLoop r cb perms req (fuel + 1) t0 g pos =
      generateLoop r cb perms req fuel (t0 + 1) s'.grid pos' := by
  simp only [generateLoop]
  rw [reset_eq_init g, hpop]
  show (match add_spaces g' cb (perms t0) req with
    | (Except.error _e, s2) => generateLoop r cb perms req fuel (t0 + 1) s2.grid pos'
    | (Except.ok _b, s2) => (true, s2.grid, pos')) =
    generateLoop r cb perms req fuel (t0 + 1) s'.grid pos'
  rw [hadd]

theorem generateLoop_succ_ok (r : Nat → Nat) (cb : PuzzleGrid → Bool)
    (perms : Nat → List SpaceMarker → List SpaceMarker) (req fuel t0 : Nat)
    (g : PuzzleGrid) (pos : Nat) (u : Unit) (g' : PuzzleGrid) (pos' : Nat)
    (b : Bool) (s' : SpaceState)
    (hpop : populate_cells r init pos = (.ok u, g', pos'))
    (hadd : add_spaces g' cb (perms t0) req = (.ok b, s')) :
    generateLoop r cb perms req (fuel + 1) t0 g pos = (true, s'.grid, pos') := by
  simp only [generateLoop]
  rw [reset_eq_init g, hpop]
  show (match add_spaces g' cb (perms t0) req with
    | (Except.error _e, s2) => generateLoop r cb perms req fuel (t0 + 1) s2.grid pos'
    | (Except.ok _b, s2) => (true, s2.grid, pos')) = (true, s'.grid, pos')
  rw [hadd]

theorem generateLoop_spec (r : Nat → Nat) (cb : PuzzleGrid → Bool)
    (perms : Nat → List SpaceMarker → List SpaceMarker) (req : Nat) :
    ∀ (fuel t0 : Nat) (g : PuzzleGrid) (pos : Nat),
      ((generateLoop r cb perms req fuel t0 g pos).1 = true ↔
        ∃ k < fuel, (∀ u < k, outAt r cb perms req (t0 + u) (posAt r pos u) = .spacesRaised) ∧
          outAt r cb perms req (t0 + k) (posAt r pos k) = .success) ∧
      ((generateLoop r cb perms req fuel t0 g pos).1 = false ↔
        (∀ k < fuel, outAt r cb perms req (t0 + k) (posAt r pos k) = .spacesRaised) ∨
        ∃ k < fuel, (∀ u < k, outAt r cb perms req (t0 + u) (posAt r pos u) = .spacesRaised) ∧
          outAt r cb perms req (t0 + k) (posAt r pos k) = .popFailed) := by
  intro fuel
  induction fuel with
  | zero =>
    intro t0 g pos
    have h0 : generateLoop r cb perms req 0 t0 g pos = (false, g, pos) := rfl
    rw [h0]
    constructor
    · constructor
      · intro h
        exact Bool.noConfusion h
      · rintro ⟨k, hk, -, -⟩
        exact absurd hk (Nat.not_lt_zero k)
    · constructor
      · intro _
        exact Or.inl fun k hk => absurd hk (Nat.not_lt_zero k)
      · intro _
        rfl
  | succ fuel ih =>
    intro t0 g pos
    rcases hpop : populate_cells r init pos with ⟨res, g', pos'⟩
    rcases res with e | u
    · -- populate_cells raised: the loop breaks immediately with False
      have hstep := generateLoop_succ_popFail r cb perms req fuel t0 g pos e g' pos' hpop
      have hout : outAt r cb perms req t0 pos = .popFailed :=
        outAt_popFailed r cb perms req t0 pos e g' pos' hpop
      rw [hstep]
      constructor
      · constructor
        · intro h
          exact Bool.noConfusion h
        · rintro ⟨k, hk, hpre, hsucc⟩
          rcases Nat.eq_zero_or_pos k with rfl | hkpos
          · have hsucc' : outAt r cb perms req t0 pos = .success := hsucc
            rw [hout] at hsucc'
            exact TryOutcome.noConfusion hsucc'
          · have h2 : outAt r cb perms req t0 pos = .spacesRaised := hpre 0 hkpos
            rw [hout] at h2
            exact TryOutcome.noConfusion h2
      · constructor
        · intro _
          exact Or.inr ⟨0, Nat.succ_pos fuel,
            fun v hv => absurd hv (Nat.not_lt_zero v), hout⟩
        · intro _
          rfl
    · rcases hadd : add_spaces g' cb (perms t0) req with ⟨res2, s'⟩
      rcases res2 with e2 | b2
      · -- add_spaces raised: the loop moves on to the next try
        have hstep := generateLoop_succ_spaces r cb perms req fuel t0 g pos u g'
          pos' e2 s' hpop hadd
        have hout : outAt r cb perms req t0 pos = .spacesRaised :=
          outAt_spacesRaised r cb perms req t0 pos u g' pos' e2 s' hpop hadd
        have hshift : ∀ v, posAt r pos' v = posAt r pos (v + 1) := by
          intro v
          rw [← nextPos_eq r pos (.ok u) g' pos' hpop]
          exact posAt_shift r pos v
        obtain ⟨ih1, ih2⟩ := ih (t0 + 1) s'.grid pos'
        rw [hstep, ih1, ih2]
        constructor
        · constructor
          · rintro ⟨k, hk, hpre, hsucc⟩
            refine ⟨k + 1, by omega, ?_, ?_⟩
            · intro v hv
              rcases Nat.eq_zero_or_pos v with rfl | hvpos
              · exact hout
              · have h2 := hpre (v - 1) (by omega)
                rw [hshift] at h2
                rw [show v - 1 + 1 = v by omega] at h2
                rw [show t0 + 1 + (v - 1) = t0 + v by omega] at h2
                exact h2
            · rw [hshift] at hsucc
              rw [show t0 + 1 + k = t0 + (k + 1) by omega] at hsucc
              exact hsucc
          · rintro ⟨k, hk, hpre, hsucc⟩
            rcases Nat.eq_zero_or_pos k with rfl | hkpos
            · have hsucc' : outAt r cb perms req t0 pos = .success := hsucc
              rw [hout] at hsucc'
              exact TryOutcome.noConfusion hsucc'
            · refine ⟨k - 1, by omega, ?_, ?_⟩
              · intro v hv
                have h2 := hpre (v + 1) (by omega)
                rw [hshift v, show t0 + 1 + v = t0 + (v + 1) by omega]
                exact h2
              · rw [hshift (k - 1), show k - 1 + 1 = k by omega,
                  show t0 + 1 + (k - 1) = t0 + k by omega]
                exact hsucc
        · constructor
          · rintro (hall | ⟨k, hk, hpre, hfailk⟩)
            · left
              intro k hk
              rcases Nat.eq_zero_or_pos k with rfl | hkpos
              · exact hout
              · have h2 := hall (k - 1) (by omega)
                rw [hshift] at h2
                rw [show k - 1 + 1 = k by omega] at h2
                rw [show t0 + 1 + (k - 1) = t0 + k by omega] at h2
                exact h2
            · right
              refine ⟨k + 1, by omega, ?_, ?_⟩
              · intro v hv
                rcases Nat.eq_zero_or_pos v with rfl | hvpos
                · exact hout
                · have h2 := hpre (v - 1) (by omega)
                  rw [hshift] at h2
                  rw [show v - 1 + 1 = v by omega] at h2
                  rw [show t0 + 1 + (v - 1) = t0 + v by omega] at h2
                  exact h2
              · rw [hshift k] at hfailk
                rw [show t0 + 1 + k = t0 + (k + 1) by omega] at hfailk
                exact hfailk
          · rintro (hall | ⟨k, hk, hpre, hfailk⟩)
            · left
              intro k hk
              have h2 := hall (k + 1) (by omega)
              rw [hshift k, show t0 + 1 + k = t0 + (k + 1) by omega]
              exact h2
            · rcases Nat.eq_zero_or_pos k with rfl | hkpos
              · have h' : outAt r cb perms req t0 pos = .popFailed := hfailk
                rw [hout] at h'
                exact TryOutcome.noConfusion h'
              · right
                refine ⟨k - 1, by omega, ?_, ?_⟩
                · intro v hv
                  have h2 := hpre (v + 1) (by omega)
                  rw [hshift v, show t0 + 1 + v = t0 + (v + 1) by omega]
                  exact h2
                · rw [hshift (k - 1), show k - 1 + 1 = k by omega,
                    show t0 + 1 + (k - 1) = t0 + k by omega]
                  exact hfailk
      · -- both calls returned normally: success, whatever boolean came back
        have hstep := generateLoop_succ_ok r cb perms req fuel t0 g pos u g'
          pos' b2 s' hpop hadd
        have hout : outAt r cb perms req t0 pos = .success :=
          outAt_success r cb perms req t0 pos u g' pos' b2 s' hpop hadd
        rw [hstep]
        constructor
        · constructor
          · intro _
            exact ⟨0, Nat.succ_pos fuel,
              fun v hv => absurd hv (Nat.not_lt_zero v), hout⟩
          · intro _
            rfl
        · constructor
          · intro h
            exact Bool.noConfusion h
          · rintro (hall | ⟨k, hk, hpre, hfailk⟩)
            · have h2 : outAt r cb perms req t0 pos = .spacesRaised :=
                hall 0 (Nat.succ_pos fuel)
              rw [hout] at h2
              exact TryOutcome.noConfusion h2
            · rcases Nat.eq_zero_or_pos k with rfl | hkpos
              · have h' : outAt r cb perms req t0 pos = .popFailed := hfailk
                rw [hout] at h'
                exact TryOutcome.noConfusion h'
              · have h2 : outAt r cb perms req t0 pos = .spacesRaised :=
                  hpre 0 hkpos
                rw [hout] at h2
                exact TryOutcome.noConfusion h2

end

end PuzzleGrid

section

attribute [local irreducible] PuzzleGrid.populate_cells PuzzleGrid.add_spaces

/-- C9.  `generate_puzzle` returns `True` exactly when some try `t < 30`
has `populate_cells` succeed and `add_spaces` return normally, after earlier
tries that all had `populate_cells` succeed and `add_spaces` raise; the
boolean `add_spaces` returns is ignored, so a try counts as a success even
when `add_spaces` returns `False` (third conjunct).  It returns `False`
exactly when either all 30 tries end in an `add_spaces` raise, or some try's
`populate_cells` raises — after a possibly empty prefix of `add_spaces`-raise
tries — in which case the loop breaks immediately, consuming none of the
remaining tries. -/
theorem claim_C9 (g : PuzzleGrid) (r : Nat → Nat) (pos : Nat)
    (cb : PuzzleGrid → Bool)
    (perms : Nat → List SpaceMarker → List SpaceMarker) (req : Nat) :
    ((PuzzleGrid.generate_puzzle g r pos cb perms req).1 = true ↔
      ∃ t < 30, (∀ u < t, PuzzleGrid.tryOutcome r cb perms req pos u = .spacesRaised) ∧
        PuzzleGrid.tryOutcome r cb perms req pos t = .success) ∧
    ((PuzzleGrid.generate_puzzle g r pos cb perms req).1 = false ↔
      (∀ t < 30, PuzzleGrid.tryOutcome r cb perms req pos t = .spacesRaised) ∨
      ∃ t < 30, (∀ u < t, PuzzleGrid.tryOutcome r cb perms req pos u = .spacesRaised) ∧
        PuzzleGrid.tryOutcome r cb perms req pos t = .popFailed) ∧
    (∀ t, PuzzleGrid.tryOutcome r cb perms req pos t = .success ↔
      (PuzzleGrid.populate_cells r PuzzleGrid.init (PuzzleGrid.posAt r pos t)).1 = .ok () ∧
      ∃ b, (PuzzleGrid.add_spaces
          (PuzzleGrid.populate_cells r PuzzleGrid.init (PuzzleGrid.posAt r pos t)).2.1
          cb (perms t) req).1 = .ok b) := by
  obtain ⟨h1, h2⟩ :=
    PuzzleGrid.generateLoop_spec r cb perms req PuzzleGrid.num_tries 0 g pos
  refine ⟨?_, ?_, ?_⟩
  · rw [show PuzzleGrid.generate_puzzle g r pos cb perms req =
      PuzzleGrid.generateLoop r cb perms req PuzzleGrid.num_tries 0 g pos from rfl, h1]
    simp only [PuzzleGrid.num_tries, PuzzleGrid.tryOutcome, Nat.zero_add]
  · rw [show PuzzleGrid.generate_puzzle g r pos cb perms req =
      PuzzleGrid.generateLoop r cb perms req PuzzleGrid.num_tries 0 g pos from rfl, h2]
    simp only [PuzzleGrid.num_tries, PuzzleGrid.tryOutcome, Nat.zero_add]
  · intro t
    rcases hpop : PuzzleGrid.populate_cells r PuzzleGrid.init (PuzzleGrid.posAt r pos t)
      with ⟨res, g', pos'⟩
    unfold PuzzleGrid.tryOutcome
    rcases res with e | u
    · rw [PuzzleGrid.outAt_popFailed r cb perms req t (PuzzleGrid.posAt r pos t)
        e g' pos' hpop]
      constructor
      · intro h
        exact TryOutcome.noConfusion h
      · rintro ⟨hok, -⟩
        exact Except.noConfusion hok
    · rcases hadd : PuzzleGrid.add_spaces g' cb (perms t) req with ⟨res2, s'⟩
      rcases res2 with e2 | b2
      · rw [PuzzleGrid.outAt_spacesRaised r cb perms req t (PuzzleGrid.posAt r pos t)
          u g' pos' e2 s' hpop hadd]
        constructor
        · intro h
          exact TryOutcome.noConfusion h
        · rintro ⟨-, b, hb⟩
          exact Except.noConfusion hb
      · rw [PuzzleGrid.outAt_success r cb perms req t (PuzzleGrid.posAt r pos t)
          u g' pos' b2 s' hpop hadd]
        constructor
        · intro _
          exact ⟨rfl, b2, rfl⟩
        · intro _
          rfl

end

/-! ### Infrastructure for the solver claims -/

/-- The example solution after visiting a list of leaves in order, starting
from a previous value: each leaf overwrites the previous capture. -/
def lastSolution : List PuzzleGrid → Option PuzzleGrid → Option PuzzleGrid
  | [], prev => prev
  | g :: rest, _prev => lastSolution rest (some g)

theorem lastSolution_append (a b : List PuzzleGrid) (prev : Option PuzzleGrid) :
    lastSolution (a ++ b) prev = lastSolution b (lastSolution a prev) := by
  induction a generalizing prev with
  | nil => rfl
  | cons g rest ih =>
    simp only [List.cons_append, lastSolution]
    exact ih (some g)

theorem lastSolution_eq_getLast (l : List PuzzleGrid) (prev : Option PuzzleGrid)
    (h : l ≠ []) : lastSolution l prev = some (l.getLast h) := by
  induction l generalizing prev with
  | nil => exact absurd rfl h
  | cons g rest ih =>
    cases rest with
    | nil => simp [lastSolution]
    | cons g2 rest2 =>
      show lastSolution (g2 :: rest2) (some g) = some ((g :: g2 :: rest2).getLast h)
      rw [ih (some g) (List.cons_ne_nil _ _),
        List.getLast_cons (List.cons_ne_nil g2 rest2)]

theorem listOfSet_empty : listOfSet ∅ = [] := by decide

theorem listOfSet_toFinset (s : Finset Int)
    (hs : s ⊆ possible_values.toFinset) : (listOfSet s).toFinset = s := by
  ext v
  rw [List.mem_toFinset, mem_listOfSet]
  constructor
  · exact fun h => h.2
  · intro h
    refine ⟨?_, h⟩
    have hh := hs h
    rw [mem_possible_values_toFinset] at hh
    exact hh

section

attribute [local irreducible] PuzzleGrid.set_value PuzzleGrid.possibleAt
  PuzzleGrid.copy

namespace BruteForceSolver

theorem set_value_pos_spec (s : BruteForceSolver) (x y : Nat) (v : Int)
    (g' : PuzzleGrid)
    (hset : PuzzleGrid.set_value s.grid x y v = (.ok (), g')) (hv : ¬ v = 0) :
    set_value s x y v = (.ok (),
      { grid := g', options := setOptions s.options y x [],
        solved_puzzle := s.solved_puzzle }) := by
  simp only [set_value, hset]
  rw [if_neg hv]

theorem set_value_zero_spec (s : BruteForceSolver) (x y : Nat) (g' : PuzzleGrid)
    (hset : PuzzleGrid.set_value s.grid x y 0 = (.ok (), g')) :
    set_value s x y 0 = (.ok (),
      { grid := g',
        options := setOptions (setOptions s.options y x []) y x
          (listOfSet (g'.possibleAt x y).2),
        solved_puzzle := s.solved_puzzle }) := by
  simp only [set_value, hset]
  rw [if_pos trivial]

theorem solveTryVals_cons_okok
    (recur : BruteForceSolver → Except GridError Nat × BruteForceSolver)
    (x y : Nat) (s : BruteForceSolver) (v : Int) (more : List Int)
    (s1 s2 s3 s4 : BruteForceSolver) (c c2 : Nat) (u1 u3 : Unit)
    (hset : set_value s x y v = (.ok u1, s1))
    (hrec : recur s1 = (.ok c, s2))
    (hset0 : set_value s2 x y 0 = (.ok u3, s3))
    (hmore : solveTryVals recur x y s3 more = (.ok c2, s4)) :
    solveTryVals recur x y s (v :: more) = (.ok (c + c2), s4) := by
  simp only [solveTryVals, hset, hrec, hset0, hmore]

theorem solveImplList_nil (fuel : Nat) (s : BruteForceSolver) (c : PuzzleGrid)
    (hcopy : PuzzleGrid.copy PuzzleGrid.init s.grid = (.ok (), c)) :
    solveImplList (fuel + 1) s [] =
      (.ok 1, { s with solved_puzzle := some c }) := by
  simp only [solveImplList, hcopy]

theorem solveImplList_cons_skip (fuel : Nat) (s : BruteForceSolver)
    (p : Nat) (rest : List Nat) (x y : Nat)
    (hxy : index_to_coordinate p = (x, y)) (opts : Finset Int)
    (hposs : s.grid.possibleAt x y = (false, opts)) :
    solveImplList (fuel + 1) s (p :: rest) = solveImplList fuel s rest := by
  simp only [solveImplList, hxy, hposs]
  rw [if_neg (by simp), if_pos trivial]

theorem solveImplList_cons_stuck (fuel : Nat) (s : BruteForceSolver)
    (p : Nat) (rest : List Nat) (x y : Nat)
    (hxy : index_to_coordinate p = (x, y)) (opts : Finset Int)
    (hposs : s.grid.possibleAt x y = (true, opts)) (hcard : opts.card = 0) :
    solveImplList (fuel + 1) s (p :: rest) = (.ok 0, s) := by
  simp only [solveImplList, hxy, hposs, hcard]
  rw [if_pos ⟨trivial, trivial⟩]

theorem solveImplList_cons_branch (fuel : Nat) (s : BruteForceSolver)
    (p : Nat) (rest : List Nat) (x y : Nat)
    (hxy : index_to_coordinate p = (x, y)) (opts : Finset Int)
    (hposs : s.grid.possibleAt x y = (true, opts)) (hcard : opts.card ≠ 0) :
    solveImplList (fuel + 1) s (p :: rest) =
      solveTryVals (fun s' => solveImplList fuel s' rest) x y s
        (listOfSet opts) := by
  simp only [solveImplList, hxy, hposs, hcard]
  rw [if_neg (by simp), if_neg (by simp)]

end BruteForceSolver

theorem searchSolutions_cons_skip (g : PuzzleGrid) (p : Nat)
    (rest : List Nat) (x y : Nat)
    (hxy : BruteForceSolver.index_to_coordinate p = (x, y))
    (h : (g.possibleAt x y).1 = false) :
    searchSolutions g (p :: rest) = searchSolutions g rest := by
  simp only [searchSolutions, hxy, h]
  rw [if_pos trivial]

theorem searchSolutions_cons_blank (g : PuzzleGrid) (p : Nat)
    (rest : List Nat) (x y : Nat)
    (hxy : BruteForceSolver.index_to_coordinate p = (x, y))
    (h : (g.possibleAt x y).1 = true) :
    searchSolutions g (p :: rest) =
      (listOfSet (g.possibleAt x y).2).flatMap
        (fun v => searchSolutions (PuzzleGrid.set_value g x y v).2 rest) := by
  simp only [searchSolutions, hxy, h]
  rw [if_neg (by simp)]

end

namespace BruteForceSolver

theorem solveTryVals_spec
    (recur : BruteForceSolver → Except GridError Nat × BruteForceSolver)
    (x y : Nat) (rest : List Nat) (hx : x < 9) (hy : y < 9)
    (hrec : ∀ s1 : BruteForceSolver, PuzzleGrid.XInv s1.grid →
      ∃ o2, recur s1 = (.ok (searchSolutions s1.grid rest).length,
        { grid := s1.grid, options := o2,
          solved_puzzle := lastSolution (searchSolutions s1.grid rest)
            s1.solved_puzzle })) :
    ∀ (vals : List Int) (s : BruteForceSolver), PuzzleGrid.XInv s.grid →
      s.grid.cellAt x y = 0 →
      (∀ v ∈ vals, v ∈ (s.grid.possibleAt x y).2) →
      ∃ o', solveTryVals recur x y s vals =
        (.ok (vals.flatMap
            (fun w => searchSolutions (PuzzleGrid.set_value s.grid x y w).2
              rest)).length,
          { grid := s.grid, options := o',
            solved_puzzle := lastSolution
              (vals.flatMap
                (fun w => searchSolutions (PuzzleGrid.set_value s.grid x y w).2
                  rest))
              s.solved_puzzle }) := by
  intro vals
  induction vals with
  | nil =>
    intro s hX hblank hmem
    exact ⟨s.options, rfl⟩
  | cons v more ihv =>
    intro s hX hblank hmem
    have hb0 : ¬ 0 < s.grid.cellAt x y := by rw [hblank]; omega
    obtain ⟨⟨hv1, hv9⟩, hvb, hvr, hvc⟩ :=
      (PuzzleGrid.mem_possibleAt_blank s.grid x y v hb0).mp
        (hmem v (List.mem_cons_self v more))
    have hset : PuzzleGrid.set_value s.grid x y v =
        (.ok (), PuzzleGrid.writeCell s.grid x y v) :=
      PuzzleGrid.set_value_ok_pos s.grid x y v hx hy (by omega) hv9 hvb hvr hvc
    have hsv := set_value_pos_spec s x y v (PuzzleGrid.writeCell s.grid x y v)
      hset (by omega)
    have hX1 : PuzzleGrid.XInv (PuzzleGrid.writeCell s.grid x y v) :=
      PuzzleGrid.XInv_writeCell s.grid x y v hX hx hy hblank (by omega) hv9
        (by rw [← hX.2.2.1.1 y hy]; exact hvr)
        (by rw [← hX.2.2.1.2.1 x hx]; exact hvc)
        (by rw [← hX.2.2.1.2.2 (x / 3) (by omega) (y / 3) (by omega)]; exact hvb)
    obtain ⟨o2, hrec1⟩ := hrec
      { grid := PuzzleGrid.writeCell s.grid x y v,
        options := setOptions s.options y x [],
        solved_puzzle := s.solved_puzzle } hX1
    have hcell1 : (PuzzleGrid.writeCell s.grid x y v).cellAt x y = v :=
      PuzzleGrid.cellAt_writeCell_self s.grid x y v hX.1 hx hy
    have hrestore :
        PuzzleGrid.eraseCell (PuzzleGrid.writeCell s.grid x y v) x y = s.grid :=
      PuzzleGrid.eraseCell_writeCell s.grid x y v hX.1 hx hy hblank hvb hvr hvc
    have hset0 : PuzzleGrid.set_value (PuzzleGrid.writeCell s.grid x y v) x y 0 =
        (.ok (), s.grid) := by
      rw [PuzzleGrid.set_value_ok_zero_filled _ x y hx hy
        (by rw [hcell1]; omega), hrestore]
    have hsv0 := set_value_zero_spec
      { grid := PuzzleGrid.writeCell s.grid x y v,
        options := o2,
        solved_puzzle := lastSolution
          (searchSolutions (PuzzleGrid.writeCell s.grid x y v) rest)
          s.solved_puzzle }
      x y s.grid hset0
    obtain ⟨o4, hmore⟩ := ihv
      { grid := s.grid,
        options := setOptions (setOptions o2 y x []) y x
          (listOfSet (s.grid.possibleAt x y).2),
        solved_puzzle := lastSolution
          (searchSolutions (PuzzleGrid.writeCell s.grid x y v) rest)
          s.solved_puzzle }
      hX hblank (fun w hw => hmem w (List.mem_cons_of_mem v hw))
    refine ⟨o4, ?_⟩
    rw [solveTryVals_cons_okok recur x y s v more _ _ _ _ _ _ _ _
      hsv hrec1 hsv0 hmore]
    have hflat : (v :: more).flatMap
        (fun w => searchSolutions (PuzzleGrid.set_value s.grid x y w).2 rest) =
        searchSolutions (PuzzleGrid.writeCell s.grid x y v) rest ++
          more.flatMap
            (fun w => searchSolutions (PuzzleGrid.set_value s.grid x y w).2
              rest) := by
      have h1 : (v :: more).flatMap
          (fun w => searchSolutions (PuzzleGrid.set_value s.grid x y w).2 rest) =
          searchSolutions (PuzzleGrid.set_value s.grid x y v).2 rest ++
            more.flatMap
              (fun w => searchSolutions (PuzzleGrid.set_value s.grid x y w).2
                rest) := rfl
      rw [h1, hset]
    rw [hflat, List.length_append, lastSolution_append]

theorem solveImplList_spec :
    ∀ (fuel : Nat) (ps : List Nat) (s : BruteForceSolver),
      PuzzleGrid.XInv s.grid → (∀ p ∈ ps, p < 81) → ps.length < fuel →
      ∃ o', solveImplList fuel s ps =
        (.ok (searchSolutions s.grid ps).length,
          { grid := s.grid, options := o',
            solved_puzzle := lastSolution (searchSolutions s.grid ps)
              s.solved_puzzle }) := by
  intro fuel
  induction fuel with
  | zero =>
    intro ps s hX hps hlen
    exact absurd hlen (by omega)
  | succ fuel ih =>
    intro ps s hX hps hlen
    cases ps with
    | nil =>
      have hcopy := PuzzleGrid.copy_eq_self PuzzleGrid.init s.grid hX
      refine ⟨s.options, ?_⟩
      rw [solveImplList_nil fuel s s.grid hcopy]
      rfl
    | cons p rest =>
      have hx : p % 9 < 9 := Nat.mod_lt _ (by omega)
      have hy : p / 9 < 9 := by
        have := hps p (List.mem_cons_self p rest)
        omega
      have hxy : index_to_coordinate p = (p % 9, p / 9) := rfl
      have hps' : ∀ q ∈ rest, q < 81 :=
        fun q hq => hps q (List.mem_cons_of_mem p hq)
      have hlen' : rest.length < fuel := by
        simp only [List.length_cons] at hlen
        omega
      by_cases hfill : 0 < s.grid.cellAt (p % 9) (p / 9)
      · have hposs := PuzzleGrid.possibleAt_filled s.grid _ _ hfill
        obtain ⟨o', h'⟩ := ih rest s hX hps' hlen'
        refine ⟨o', ?_⟩
        rw [solveImplList_cons_skip fuel s p rest (p % 9) (p / 9) hxy ∅ hposs,
          searchSolutions_cons_skip s.grid p rest (p % 9) (p / 9) hxy
            (by rw [hposs])]
        exact h'
      · have hblank : s.grid.cellAt (p % 9) (p / 9) = 0 := by
          have := (hX.2.1 (p % 9) hx (p / 9) hy).1
          omega
        have hposs1 : (s.grid.possibleAt (p % 9) (p / 9)).1 = true :=
          PuzzleGrid.possibleAt_fst_blank s.grid _ _ hfill
        have hposs : s.grid.possibleAt (p % 9) (p / 9) =
            (true, (s.grid.possibleAt (p % 9) (p / 9)).2) := by
          rw [← hposs1]
        by_cases hcard : ((s.grid.possibleAt (p % 9) (p / 9)).2).card = 0
        · refine ⟨s.options, ?_⟩
          rw [solveImplList_cons_stuck fuel s p rest _ _ hxy _ hposs hcard,
            searchSolutions_cons_blank s.grid p rest _ _ hxy hposs1]
          rw [Finset.card_eq_zero.mp hcard, listOfSet_empty]
          rfl
        · have hrec : ∀ s1 : BruteForceSolver, PuzzleGrid.XInv s1.grid →
              ∃ o2, (fun s' => solveImplList fuel s' rest) s1 =
                (.ok (searchSolutions s1.grid rest).length,
                  { grid := s1.grid, options := o2,
                    solved_puzzle := lastSolution (searchSolutions s1.grid rest)
                      s1.solved_puzzle }) :=
            fun s1 hX1 => ih rest s1 hX1 hps' hlen'
          obtain ⟨o', h'⟩ := solveTryVals_spec
            (fun s' => solveImplList fuel s' rest) (p % 9) (p / 9) rest hx hy
            hrec (listOfSet (s.grid.possibleAt (p % 9) (p / 9)).2) s hX hblank
            (fun w hw => ((mem_listOfSet _ w).mp hw).2)
          refine ⟨o', ?_⟩
          rw [solveImplList_cons_branch fuel s p rest _ _ hxy _ hposs hcard,
            searchSolutions_cons_blank s.grid p rest _ _ hxy hposs1]
          exact h'

theorem solve_spec (s : BruteForceSolver) (hX : PuzzleGrid.XInv s.grid) :
    ∃ o', solve s =
      (.ok ((searchSolutions s.grid (List.range (NUM_ROWS * NUM_COLUMNS))).length,
        lastSolution (searchSolutions s.grid (List.range (NUM_ROWS * NUM_COLUMNS)))
          s.solved_puzzle),
        { grid := s.grid, options := o',
          solved_puzzle := lastSolution
            (searchSolutions s.grid (List.range (NUM_ROWS * NUM_COLUMNS)))
            s.solved_puzzle }) := by
  obtain ⟨o', h'⟩ := solveImplList_spec (NUM_ROWS * NUM_COLUMNS + 1)
    (List.range (NUM_ROWS * NUM_COLUMNS)) s hX
    (fun p hp => by
      have := List.mem_range.mp hp
      simp only [NUM_ROWS, NUM_COLUMNS] at this
      omega)
    (by simp [NUM_ROWS, NUM_COLUMNS])
  refine ⟨o', ?_⟩
  unfold solve
  rw [h']

end BruteForceSolver

/-- C3.  Under the data-model invariant, `solve` completes (returns `ok`)
and leaves the shared grid exactly as it was: the whole `PuzzleGrid` is
unchanged — in particular the cell matrix and the three definite-value
index structures. -/
theorem claim_C3 (s : BruteForceSolver) (hX : PuzzleGrid.XInv s.grid) :
    ∃ res s', BruteForceSolver.solve s = (.ok res, s') ∧
      s'.grid = s.grid ∧
      s'.grid.cells = s.grid.cells ∧
      s'.grid.definite_values_per_row = s.grid.definite_values_per_row ∧
      s'.grid.definite_values_per_column = s.grid.definite_values_per_column ∧
      s'.grid.definite_values_per_box = s.grid.definite_values_per_box := by
  obtain ⟨o', h'⟩ := BruteForceSolver.solve_spec s hX
  exact ⟨_, _, h', rfl, rfl, rfl, rfl, rfl⟩

theorem claim_C3_witness :
    ∃ res s', BruteForceSolver.solve (BruteForceSolver.mkSolver PuzzleGrid.init) =
        (.ok res, s') ∧
      s'.grid = (BruteForceSolver.mkSolver PuzzleGrid.init).grid ∧
      s'.grid.cells = (BruteForceSolver.mkSolver PuzzleGrid.init).grid.cells ∧
      s'.grid.definite_values_per_row =
        (BruteForceSolver.mkSolver PuzzleGrid.init).grid.definite_values_per_row ∧
      s'.grid.definite_values_per_column =
        (BruteForceSolver.mkSolver PuzzleGrid.init).grid.definite_values_per_column ∧
      s'.grid.definite_values_per_box =
        (BruteForceSolver.mkSolver PuzzleGrid.init).grid.definite_values_per_box :=
  claim_C3 (BruteForceSolver.mkSolver PuzzleGrid.init) (by decide)

/-- C8.  The example solution `solve` returns is the **last** solution the
search reaches, in search order: every leaf overwrites the previously
captured example (`lastSolution` threads `some leaf` over the leaf list), so
whenever more than one solution is reached the final example is the last
one found, not necessarily the first. -/
theorem claim_C8 (s : BruteForceSolver) (hX : PuzzleGrid.XInv s.grid)
    (hne : searchSolutions s.grid (List.range (NUM_ROWS * NUM_COLUMNS)) ≠ []) :
    ∃ s', BruteForceSolver.solve s =
      (.ok ((searchSolutions s.grid (List.range (NUM_ROWS * NUM_COLUMNS))).length,
        some ((searchSolutions s.grid
          (List.range (NUM_ROWS * NUM_COLUMNS))).getLast hne)), s') ∧
      s'.solved_puzzle = some ((searchSolutions s.grid
        (List.range (NUM_ROWS * NUM_COLUMNS))).getLast hne) := by
  obtain ⟨o', h'⟩ := BruteForceSolver.solve_spec s hX
  rw [lastSolution_eq_getLast _ _ hne] at h'
  exact ⟨_, h', rfl⟩

def fullRows : List (List Int) :=
  (List.range 9).map (fun y => (List.range 9).map
    (fun x => (((x + 3 * (y % 3) + y / 3) % 9 : Nat) : Int) + 1))

def allDigits : Finset Int := possible_values.toFinset

def fullGridL : PuzzleGrid :=
  ⟨fullRows, List.replicate 9 allDigits, List.replicate 9 allDigits,
    List.replicate 3 (List.replicate 3 allDigits)⟩

theorem claim_C8_witness :
    ∃ s', BruteForceSolver.solve (BruteForceSolver.mkSolver fullGridL) =
      (.ok ((searchSolutions (BruteForceSolver.mkSolver fullGridL).grid
          (List.range (NUM_ROWS * NUM_COLUMNS))).length,
        some ((searchSolutions (BruteForceSolver.mkSolver fullGridL).grid
          (List.range (NUM_ROWS * NUM_COLUMNS))).getLast (by decide))), s') ∧
      s'.solved_puzzle = some ((searchSolutions
        (BruteForceSolver.mkSolver fullGridL).grid
        (List.range (NUM_ROWS * NUM_COLUMNS))).getLast (by decide)) :=
  claim_C8 (BruteForceSolver.mkSolver fullGridL) (by decide) (by decide)

/-! ### Counting the solutions: completions reached by the search -/

/-- The completion read off a (complete) grid. -/
def gridCompletion (g : PuzzleGrid) : Completion :=
  fun y x => ⟨((g.cellAt x y).toNat - 1) % 9, Nat.mod_lt _ (by omega)⟩

theorem completionCell_gridCompletion (g : PuzzleGrid) (x y : Fin 9)
    (h1 : 1 ≤ g.cellAt x y) (h9 : g.cellAt x y ≤ 9) :
    completionCell (gridCompletion g) x y = g.cellAt x y := by
  simp only [completionCell, gridCompletion]
  have h1' : 1 ≤ (g.cellAt x y).toNat := by omega
  have h9' : (g.cellAt x y).toNat ≤ 9 := by omega
  rw [Nat.mod_eq_of_lt (by omega), Nat.cast_sub h1',
    Int.toNat_of_nonneg (by omega : (0:Int) ≤ g.cellAt x y)]
  omega

theorem validCompletion_of_grid (g : PuzzleGrid) (hX : PuzzleGrid.XInv g)
    (hC : PuzzleGrid.CompleteGrid g) : ValidCompletion (gridCompletion g) := by
  have hVal := hX.2.1
  have hRows := hX.2.2.2.1
  have hCols := hX.2.2.2.2.1
  have hBoxes := hX.2.2.2.2.2
  have hcell : ∀ x1 y1 x2 y2 : Fin 9,
      gridCompletion g y1 x1 = gridCompletion g y2 x2 →
      g.cellAt x1 y1 = g.cellAt x2 y2 := by
    intro x1 y1 x2 y2 h
    have hv1 := hVal x1 x1.isLt y1 y1.isLt
    have hv2 := hVal x2 x2.isLt y2 y2.isLt
    have hz1 := hC x1 x1.isLt y1 y1.isLt
    have hz2 := hC x2 x2.isLt y2 y2.isLt
    have hval := congrArg Fin.val h
    simp only [gridCompletion] at hval
    omega
  refine ⟨?_, ?_, ?_⟩
  · intro y x1 x2 h
    by_contra hne
    exact hRows y y.isLt x1 x1.isLt x2 x2.isLt
      (fun hh => hne (Fin.ext hh)) (hC x1 x1.isLt y y.isLt)
      (hcell x1 y x2 y h)
  · intro x y1 y2 h
    by_contra hne
    exact hCols x x.isLt y1 y1.isLt y2 y2.isLt
      (fun hh => hne (Fin.ext hh)) (hC x x.isLt y1 y1.isLt)
      (hcell x y1 x y2 h)
  · intro y1 x1 y2 x2 hdx hdy h
    by_contra hne
    rw [not_and_or] at hne
    have hpair : ((x1 : Nat), (y1 : Nat)) ≠ ((x2 : Nat), (y2 : Nat)) := by
      intro hp
      rw [Prod.mk.injEq] at hp
      rcases hne with hne | hne
      · exact hne (Fin.ext hp.1)
      · exact hne (Fin.ext hp.2)
    refine hBoxes x1 x1.isLt y1 y1.isLt x2 x2.isLt y2 y2.isLt ?_ hpair
      (hC x1 x1.isLt y1 y1.isLt) (hcell x1 y1 x2 y2 h)
    simp only [PuzzleGrid.boxCoordinates, BOX_SIZE, Prod.mk.injEq]
    exact ⟨hdx, hdy⟩

theorem extendsGrid_gridCompletion (g h : PuzzleGrid)
    (hVal : PuzzleGrid.ValuesOk h) (hC : PuzzleGrid.CompleteGrid h)
    (hagree : ∀ x < 9, ∀ y < 9, g.cellAt x y ≠ 0 → h.cellAt x y = g.cellAt x y) :
    ExtendsGrid g (gridCompletion h) := by
  intro x y hne
  have hv := hVal x x.isLt y y.isLt
  have hz := hC x x.isLt y y.isLt
  rw [completionCell_gridCompletion h x y (by omega) (by omega)]
  exact hagree x x.isLt y y.isLt hne

theorem completionsOf_complete (g : PuzzleGrid) (hX : PuzzleGrid.XInv g)
    (hC : PuzzleGrid.CompleteGrid g) :
    completionsOf g = {gridCompletion g} := by
  ext c
  simp only [completionsOf, Finset.mem_filter, Finset.mem_univ, true_and,
    Finset.mem_singleton]
  constructor
  · rintro ⟨hvc, hext⟩
    funext y x
    apply Fin.ext
    have hv := hX.2.1 x x.isLt y y.isLt
    have hz := hC x x.isLt y y.isLt
    have h1 := hext x y hz
    have h2 := completionCell_gridCompletion g x y (by omega) (by omega)
    simp only [completionCell] at h1 h2
    omega
  · rintro rfl
    refine ⟨validCompletion_of_grid g hX hC, ?_⟩
    intro x y hne
    have hv := hX.2.1 x x.isLt y y.isLt
    exact completionCell_gridCompletion g x y (by omega) (by omega)

theorem numCompletions_of_complete (g : PuzzleGrid) (hX : PuzzleGrid.XInv g)
    (hC : PuzzleGrid.CompleteGrid g) : numCompletions g = 1 := by
  unfold numCompletions
  rw [completionsOf_complete g hX hC]
  exact Finset.card_singleton _

set_option linter.constructorNameAsVariable false in
theorem completion_value_mem_possibleAt (g : PuzzleGrid)
    (hX : PuzzleGrid.XInv g) (x y : Fin 9) (hblank : g.cellAt x y = 0)
    (c : Completion) (hc : c ∈ completionsOf g) :
    completionCell c x y ∈ (g.possibleAt (x : Nat) (y : Nat)).2 := by
  simp only [completionsOf, Finset.mem_filter, Finset.mem_univ, true_and] at hc
  obtain ⟨hvc, hext⟩ := hc
  have hb0 : ¬ 0 < g.cellAt x y := by rw [hblank]; omega
  rw [PuzzleGrid.mem_possibleAt_blank g x y _ hb0]
  have hfin : ∀ x' y' : Nat, ∀ hx9 : x' < 9, ∀ hy9 : y' < 9,
      g.cellAt x' y' = completionCell c x y → g.cellAt x' y' ≠ 0 →
      (x' / 3 = (x : Nat) / 3 → y' / 3 = (y : Nat) / 3 → False) ∧
      (y' = (y : Nat) → False) ∧ (x' = (x : Nat) → False) := by
    intro x' y' hx9 hy9 hcell hne0
    have hext' := hext ⟨x', hx9⟩ ⟨y', hy9⟩ hne0
    have hcv : c ⟨y', hy9⟩ ⟨x', hx9⟩ = c y x := by
      apply Fin.ext
      have heq : completionCell c ⟨x', hx9⟩ ⟨y', hy9⟩ = completionCell c x y := by
        rw [hext']
        exact hcell
      simp only [completionCell] at heq
      omega
    refine ⟨?_, ?_, ?_⟩
    · intro hdx hdy
      obtain ⟨hxx, hyy⟩ := hvc.2.2 ⟨y', hy9⟩ ⟨x', hx9⟩ y x hdx hdy hcv
      have hxx' : x' = (x : Nat) := congrArg Fin.val hxx
      have hyy' : y' = (y : Nat) := congrArg Fin.val hyy
      rw [hxx', hyy'] at hne0
      exact hne0 hblank
    · intro hyy
      have hyf : (⟨y', hy9⟩ : Fin 9) = y := Fin.ext hyy
      rw [hyf] at hcv
      have hxx := hvc.1 y ⟨x', hx9⟩ x hcv
      have hxx' : x' = (x : Nat) := congrArg Fin.val hxx
      rw [hxx', hyy] at hne0
      exact hne0 hblank
    · intro hxx
      have hxf : (⟨x', hx9⟩ : Fin 9) = x := Fin.ext hxx
      rw [hxf] at hcv
      have hyy := hvc.2.1 x ⟨y', hy9⟩ y hcv
      have hyy' : y' = (y : Nat) := congrArg Fin.val hyy
      rw [hxx, hyy'] at hne0
      exact hne0 hblank
  refine ⟨⟨?_, ?_⟩, ?_, ?_, ?_⟩
  · simp only [completionCell]
    omega
  · simp only [completionCell]
    have := (c y x).isLt
    omega
  · rw [hX.2.2.1.2.2 ((x : Nat) / 3) (by omega) ((y : Nat) / 3) (by omega)]
    intro hmem
    rw [PuzzleGrid.mem_boxValues] at hmem
    obtain ⟨hne0, dx, hdx, dy, hdy, hcell⟩ := hmem
    exact (hfin (3 * ((x : Nat) / 3) + dx) (3 * ((y : Nat) / 3) + dy)
      (by omega) (by omega) hcell (by rw [hcell]; exact hne0)).1
      (by omega) (by omega)
  · rw [hX.2.2.1.1 (y : Nat) (by omega)]
    intro hmem
    rw [PuzzleGrid.mem_rowValues] at hmem
    obtain ⟨hne0, x', hx', hcell⟩ := hmem
    exact (hfin x' (y : Nat) hx' (by omega) hcell
      (by rw [hcell]; exact hne0)).2.1 rfl
  · rw [hX.2.2.1.2.1 (x : Nat) (by omega)]
    intro hmem
    rw [PuzzleGrid.mem_colValues] at hmem
    obtain ⟨hne0, y', hy', hcell⟩ := hmem
    exact (hfin (x : Nat) y' (by omega) hy' hcell
      (by rw [hcell]; exact hne0)).2.2 rfl

theorem completionsOf_writeCell (g : PuzzleGrid) (hX : PuzzleGrid.XInv g)
    (x y : Fin 9) (hblank : g.cellAt x y = 0) (v : Int) (hv1 : 0 < v) :
    completionsOf (PuzzleGrid.writeCell g (x : Nat) (y : Nat) v) =
      (completionsOf g).filter (fun c => completionCell c x y = v) := by
  ext c
  simp only [completionsOf, Finset.mem_filter, Finset.mem_univ, true_and]
  constructor
  · rintro ⟨hvc, hext⟩
    have hself := hext x y (by
      rw [PuzzleGrid.cellAt_writeCell_self _ _ _ _ hX.1 x.isLt y.isLt]
      omega)
    rw [PuzzleGrid.cellAt_writeCell_self _ _ _ _ hX.1 x.isLt y.isLt] at hself
    refine ⟨⟨hvc, ?_⟩, hself⟩
    intro x' y' hne'
    have hnexy : (x' : Nat) ≠ (x : Nat) ∨ (y' : Nat) ≠ (y : Nat) := by
      by_contra hcon
      push_neg at hcon
      have hxx : x' = x := Fin.ext hcon.1
      have hyy : y' = y := Fin.ext hcon.2
      subst hxx
      subst hyy
      exact hne' hblank
    have := hext x' y' (by
      rw [PuzzleGrid.cellAt_writeCell_ne _ _ _ _ _ _ hnexy]
      exact hne')
    rw [PuzzleGrid.cellAt_writeCell_ne _ _ _ _ _ _ hnexy] at this
    exact this
  · rintro ⟨⟨hvc, hext⟩, hval⟩
    refine ⟨hvc, ?_⟩
    intro x' y' hne'
    by_cases hxy : (x' : Nat) = (x : Nat) ∧ (y' : Nat) = (y : Nat)
    · have hxx : x' = x := Fin.ext hxy.1
      have hyy : y' = y := Fin.ext hxy.2
      subst hxx
      subst hyy
      rw [PuzzleGrid.cellAt_writeCell_self _ _ _ _ hX.1 x'.isLt y'.isLt]
      exact hval
    · have hne2 : (x' : Nat) ≠ (x : Nat) ∨ (y' : Nat) ≠ (y : Nat) := by tauto
      rw [PuzzleGrid.cellAt_writeCell_ne _ _ _ _ _ _ hne2] at hne' ⊢
      exact hext x' y' hne'

section

attribute [local irreducible] completionsOf

theorem completionsOf_blank_biUnion (g : PuzzleGrid) (hX : PuzzleGrid.XInv g)
    (x y : Fin 9) (hblank : g.cellAt x y = 0) :
    completionsOf g = ((g.possibleAt (x : Nat) (y : Nat)).2).biUnion
      (fun v => completionsOf (PuzzleGrid.writeCell g (x : Nat) (y : Nat) v)) := by
  have hb0 : ¬ 0 < g.cellAt x y := by rw [hblank]; omega
  ext c
  rw [Finset.mem_biUnion]
  constructor
  · intro hc
    refine ⟨completionCell c x y,
      completion_value_mem_possibleAt g hX x y hblank c hc, ?_⟩
    have hv1 : (0 : Int) < completionCell c x y := by
      simp only [completionCell]
      omega
    rw [completionsOf_writeCell g hX x y hblank _ hv1, Finset.mem_filter]
    exact ⟨hc, rfl⟩
  · rintro ⟨v, hv, hc⟩
    have hv1 : (0 : Int) < v := by
      have := (PuzzleGrid.mem_possibleAt_blank g x y v hb0).mp hv
      omega
    rw [completionsOf_writeCell g hX x y hblank v hv1, Finset.mem_filter] at hc
    exact hc.1

theorem numCompletions_blank_split (g : PuzzleGrid) (hX : PuzzleGrid.XInv g)
    (x y : Fin 9) (hblank : g.cellAt x y = 0) :
    numCompletions g = ((g.possibleAt (x : Nat) (y : Nat)).2).sum
      (fun v => numCompletions (PuzzleGrid.writeCell g (x : Nat) (y : Nat) v)) := by
  have hb0 : ¬ 0 < g.cellAt x y := by rw [hblank]; omega
  unfold numCompletions
  rw [completionsOf_blank_biUnion g hX x y hblank]
  apply Finset.card_biUnion
  intro v1 h1 v2 h2 hne
  have hv1 : (0 : Int) < v1 := by
    have := (PuzzleGrid.mem_possibleAt_blank g x y v1 hb0).mp h1
    omega
  have hv2 : (0 : Int) < v2 := by
    have := (PuzzleGrid.mem_possibleAt_blank g x y v2 hb0).mp h2
    omega
  rw [completionsOf_writeCell g hX x y hblank v1 hv1,
    completionsOf_writeCell g hX x y hblank v2 hv2]
  rw [Finset.disjoint_left]
  intro c hc1 hc2
  rw [Finset.mem_filter] at hc1 hc2
  exact hne (hc1.2 ▸ hc2.2)

end

theorem length_flatMap_eq_sum {α : Type _} (l : List Int) (f : Int → List α) :
    (l.flatMap f).length = (l.map (fun v => (f v).length)).sum := by
  induction l with
  | nil => rfl
  | cons a t ih =>
    simp only [List.flatMap_cons, List.map_cons, List.sum_cons,
      List.length_append, ih]

theorem sum_map_eq_sum_toFinset (l : List Int) (h : l.Nodup) (f : Int → Nat) :
    (l.map f).sum = l.toFinset.sum f := by
  induction l with
  | nil => simp
  | cons a t ih =>
    rw [List.map_cons, List.sum_cons, List.toFinset_cons,
      Finset.sum_insert (by
        rw [List.mem_toFinset]
        exact (List.nodup_cons.mp h).1),
      ih (List.nodup_cons.mp h).2]

theorem possibleAt_snd_subset (g : PuzzleGrid) (x y : Nat) :
    (g.possibleAt x y).2 ⊆ possible_values.toFinset := by
  intro v hv
  by_cases h : 0 < g.cellAt x y
  · rw [PuzzleGrid.possibleAt_filled g x y h] at hv
    exact absurd hv (Finset.not_mem_empty v)
  · rw [PuzzleGrid.mem_possibleAt_blank g x y v h] at hv
    rw [mem_possible_values_toFinset]
    exact hv.1

theorem completeGrid_of_filled (g : PuzzleGrid)
    (hfill : ∀ q < 81, g.cellAt (q % 9) (q / 9) ≠ 0) :
    PuzzleGrid.CompleteGrid g := by
  intro x hx y hy
  have := hfill (y * 9 + x) (by omega)
  rw [show (y * 9 + x) % 9 = x by omega,
    show (y * 9 + x) / 9 = y by omega] at this
  exact this

section

attribute [local irreducible] completionsOf

theorem searchSolutions_count (n : Nat) :
    ∀ p : Nat, p + n = 81 → ∀ g : PuzzleGrid, PuzzleGrid.XInv g →
      (∀ q < p, g.cellAt (q % 9) (q / 9) ≠ 0) →
      (searchSolutions g (List.range' p n)).length = numCompletions g := by
  induction n with
  | zero =>
    intro p hp g hX hfill
    have hC : PuzzleGrid.CompleteGrid g :=
      completeGrid_of_filled g (fun q hq => hfill q (by omega))
    rw [show List.range' p 0 = [] from rfl,
      show searchSolutions g [] = [g] from rfl,
      numCompletions_of_complete g hX hC]
    rfl
  | succ n ih =>
    intro p hp g hX hfill
    have hx : p % 9 < 9 := by omega
    have hy : p / 9 < 9 := by omega
    have hxy : BruteForceSolver.index_to_coordinate p = (p % 9, p / 9) := rfl
    rw [show List.range' p (n + 1) = p :: List.range' (p + 1) n from rfl]
    by_cases hfillp : 0 < g.cellAt (p % 9) (p / 9)
    · rw [searchSolutions_cons_skip g p _ _ _ hxy
        (by rw [PuzzleGrid.possibleAt_filled g _ _ hfillp])]
      refine ih (p + 1) (by omega) g hX ?_
      intro q hq
      rcases Nat.lt_or_ge q p with h | h
      · exact hfill q h
      · have hqp : q = p := by omega
        subst hqp
        intro h0
        rw [h0] at hfillp
        exact absurd hfillp (by omega)
    · have hblank : g.cellAt (p % 9) (p / 9) = 0 := by
        have := (hX.2.1 (p % 9) hx (p / 9) hy).1
        omega
      have hposs1 : (g.possibleAt (p % 9) (p / 9)).1 = true :=
        PuzzleGrid.possibleAt_fst_blank g _ _ hfillp
      rw [searchSolutions_cons_blank g p _ _ _ hxy hposs1,
        length_flatMap_eq_sum]
      have hmap : (listOfSet (g.possibleAt (p % 9) (p / 9)).2).map
          (fun v => (searchSolutions (PuzzleGrid.set_value g (p % 9) (p / 9) v).2
            (List.range' (p + 1) n)).length) =
          (listOfSet (g.possibleAt (p % 9) (p / 9)).2).map
          (fun v => numCompletions
            (PuzzleGrid.writeCell g (p % 9) (p / 9) v)) := by
        apply List.map_congr_left
        intro v hv
        rw [mem_listOfSet] at hv
        obtain ⟨⟨hv1, hv9⟩, hvmem⟩ := hv
        obtain ⟨-, hvb, hvr, hvc⟩ :=
          (PuzzleGrid.mem_possibleAt_blank g _ _ v (by rw [hblank]; omega)).mp
            hvmem
        have hset : PuzzleGrid.set_value g (p % 9) (p / 9) v =
            (.ok (), PuzzleGrid.writeCell g (p % 9) (p / 9) v) :=
          PuzzleGrid.set_value_ok_pos g _ _ v hx hy (by omega) hv9 hvb hvr hvc
        rw [hset]
        have hbx : (p % 9) / 3 < 3 := by omega
        have hby : (p / 9) / 3 < 3 := by omega
        have hXw : PuzzleGrid.XInv (PuzzleGrid.writeCell g (p % 9) (p / 9) v) :=
          PuzzleGrid.XInv_writeCell g _ _ v hX hx hy hblank (by omega) hv9
            (by rw [← hX.2.2.1.1 (p / 9) hy]; exact hvr)
            (by rw [← hX.2.2.1.2.1 (p % 9) hx]; exact hvc)
            (by rw [← hX.2.2.1.2.2 ((p % 9) / 3) hbx ((p / 9) / 3) hby]; exact hvb)
        refine ih (p + 1) (by omega) (PuzzleGrid.writeCell g _ _ v) hXw ?_
        intro q hq
        rcases Nat.lt_or_ge q p with h | h
        · rw [PuzzleGrid.cellAt_writeCell_ne g _ _ _ _ v (by omega)]
          exact hfill q h
        · have hqp : q = p := by omega
          subst hqp
          rw [PuzzleGrid.cellAt_writeCell_self g _ _ v hX.1 hx hy]
          intro h0
          rw [h0] at hv1
          exact absurd hv1 (by omega)
      rw [hmap, sum_map_eq_sum_toFinset _ (nodup_listOfSet _) _,
        listOfSet_toFinset _ (possibleAt_snd_subset g _ _)]
      exact (numCompletions_blank_split g hX ⟨p % 9, hx⟩ ⟨p / 9, hy⟩ hblank).symm

theorem searchSolutions_mem (n : Nat) :
    ∀ p : Nat, p + n = 81 → ∀ g : PuzzleGrid, PuzzleGrid.XInv g →
      (∀ q < p, g.cellAt (q % 9) (q / 9) ≠ 0) →
      ∀ h ∈ searchSolutions g (List.range' p n),
        PuzzleGrid.XInv h ∧ PuzzleGrid.CompleteGrid h ∧
          ∀ x < 9, ∀ y < 9, g.cellAt x y ≠ 0 → h.cellAt x y = g.cellAt x y := by
  induction n with
  | zero =>
    intro p hp g hX hfill h hmem
    rw [show List.range' p 0 = [] from rfl,
      show searchSolutions g [] = [g] from rfl] at hmem
    have hg : h = g := List.mem_singleton.mp hmem
    subst hg
    exact ⟨hX, completeGrid_of_filled h (fun q hq => hfill q (by omega)),
      fun x hx y hy _ => rfl⟩
  | succ n ih =>
    intro p hp g hX hfill h hmem
    have hx : p % 9 < 9 := by omega
    have hy : p / 9 < 9 := by omega
    have hxy : BruteForceSolver.index_to_coordinate p = (p % 9, p / 9) := rfl
    rw [show List.range' p (n + 1) = p :: List.range' (p + 1) n from rfl] at hmem
    by_cases hfillp : 0 < g.cellAt (p % 9) (p / 9)
    · rw [searchSolutions_cons_skip g p _ _ _ hxy
        (by rw [PuzzleGrid.possibleAt_filled g _ _ hfillp])] at hmem
      refine ih (p + 1) (by omega) g hX ?_ h hmem
      intro q hq
      rcases Nat.lt_or_ge q p with hlt | hge
      · exact hfill q hlt
      · have hqp : q = p := by omega
        subst hqp
        intro h0
        rw [h0] at hfillp
        exact absurd hfillp (by omega)
    · have hblank : g.cellAt (p % 9) (p / 9) = 0 := by
        have := (hX.2.1 (p % 9) hx (p / 9) hy).1
        omega
      have hposs1 : (g.possibleAt (p % 9) (p / 9)).1 = true :=
        PuzzleGrid.possibleAt_fst_blank g _ _ hfillp
      rw [searchSolutions_cons_blank g p _ _ _ hxy hposs1] at hmem
      rw [List.mem_flatMap] at hmem
      obtain ⟨v, hv, hmem'⟩ := hmem
      rw [mem_listOfSet] at hv
      obtain ⟨⟨hv1, hv9⟩, hvmem⟩ := hv
      obtain ⟨-, hvb, hvr, hvc⟩ :=
        (PuzzleGrid.mem_possibleAt_blank g _ _ v (by rw [hblank]; omega)).mp
          hvmem
      have hset : PuzzleGrid.set_value g (p % 9) (p / 9) v =
          (.ok (), PuzzleGrid.writeCell g (p % 9) (p / 9) v) :=
        PuzzleGrid.set_value_ok_pos g _ _ v hx hy (by omega) hv9 hvb hvr hvc
      rw [hset] at hmem'
      have hbx : (p % 9) / 3 < 3 := by omega
      have hby : (p / 9) / 3 < 3 := by omega
      have hXw : PuzzleGrid.XInv (PuzzleGrid.writeCell g (p % 9) (p / 9) v) :=
        PuzzleGrid.XInv_writeCell g _ _ v hX hx hy hblank (by omega) hv9
          (by rw [← hX.2.2.1.1 (p / 9) hy]; exact hvr)
          (by rw [← hX.2.2.1.2.1 (p % 9) hx]; exact hvc)
          (by rw [← hX.2.2.1.2.2 ((p % 9) / 3) hbx ((p / 9) / 3) hby]; exact hvb)
      obtain ⟨hXh, hCh, hagree⟩ := ih (p + 1) (by omega)
        (PuzzleGrid.writeCell g _ _ v) hXw (by
          intro q hq
          rcases Nat.lt_or_ge q p with hlt | hge
          · rw [PuzzleGrid.cellAt_writeCell_ne g _ _ _ _ v (by omega)]
            exact hfill q hlt
          · have hqp : q = p := by omega
            subst hqp
            rw [PuzzleGrid.cellAt_writeCell_self g _ _ v hX.1 hx hy]
            intro h0
            rw [h0] at hv1
            exact absurd hv1 (by omega))
        h hmem'
      refine ⟨hXh, hCh, ?_⟩
      intro x' hx' y' hy' hne
      have hnexy : x' ≠ p % 9 ∨ y' ≠ p / 9 := by
        by_contra hcon
        push_neg at hcon
        rw [hcon.1, hcon.2] at hne
        exact hne hblank
      rw [← PuzzleGrid.cellAt_writeCell_ne g (p % 9) (p / 9) x' y' v hnexy]
      exact hagree x' hx' y' hy' (by
        rw [PuzzleGrid.cellAt_writeCell_ne g (p % 9) (p / 9) x' y' v hnexy]
        exact hne)

end

section

attribute [local irreducible] completionsOf

/-- C2.  `solve` reports exactly the number of distinct complete
rule-conforming assignments extending the grid's current contents
(`numCompletions`), for every grid satisfying the data-model invariant.
In particular (second conjunct): on a grid with exactly one blank cell whose
candidate set is the single missing digit `d`, it reports count 1 and the
example solution holds `d` in the blank cell and the original values
everywhere else; and (third conjunct) on a grid with a blank cell whose
candidate set is empty the reported count is 0. -/
theorem claim_C2 (s : BruteForceSolver) (hX : PuzzleGrid.XInv s.grid) :
    (∃ s' sp, BruteForceSolver.solve s =
      (.ok (numCompletions s.grid, sp), s')) ∧
    (∀ x0 y0 : Fin 9, s.grid.cellAt x0 y0 = 0 →
      (∀ x < 9, ∀ y < 9, (x, y) ≠ ((x0 : Nat), (y0 : Nat)) →
        s.grid.cellAt x y ≠ 0) →
      ∀ d : Int, (s.grid.possibleAt (x0 : Nat) (y0 : Nat)).2 = {d} →
      ∃ s' sol, BruteForceSolver.solve s = (.ok (1, some sol), s') ∧
        sol.cellAt x0 y0 = d ∧
        ∀ x < 9, ∀ y < 9, (x, y) ≠ ((x0 : Nat), (y0 : Nat)) →
          sol.cellAt x y = s.grid.cellAt x y) ∧
    ((∃ x0 y0 : Fin 9, s.grid.cellAt x0 y0 = 0 ∧
        (s.grid.possibleAt (x0 : Nat) (y0 : Nat)).2 = ∅) →
      ∃ s' sp, BruteForceSolver.solve s = (.ok (0, sp), s')) := by
  obtain ⟨o', hsolve⟩ := BruteForceSolver.solve_spec s hX
  have hcount : (searchSolutions s.grid
      (List.range (NUM_ROWS * NUM_COLUMNS))).length = numCompletions s.grid := by
    rw [show NUM_ROWS * NUM_COLUMNS = 81 from rfl, List.range_eq_range']
    exact searchSolutions_count 81 0 rfl s.grid hX
      (fun q hq => absurd hq (by omega))
  refine ⟨?_, ?_, ?_⟩
  · exact ⟨_, _, by rw [hsolve, hcount]⟩
  · intro x0 y0 hblank hothers d hcands
    have hb0 : ¬ 0 < s.grid.cellAt x0 y0 := by rw [hblank]; omega
    have hd := (PuzzleGrid.mem_possibleAt_blank s.grid x0 y0 d hb0).mp
      (by rw [hcands]; exact Finset.mem_singleton_self d)
    obtain ⟨⟨hd1, hd9⟩, hdb, hdr, hdc⟩ := hd
    have hbx : ((x0 : Nat)) / 3 < 3 := by omega
    have hby : ((y0 : Nat)) / 3 < 3 := by omega
    have hXw : PuzzleGrid.XInv
        (PuzzleGrid.writeCell s.grid (x0 : Nat) (y0 : Nat) d) :=
      PuzzleGrid.XInv_writeCell s.grid _ _ d hX x0.isLt y0.isLt hblank
        (by omega) hd9
        (by rw [← hX.2.2.1.1 (y0 : Nat) y0.isLt]; exact hdr)
        (by rw [← hX.2.2.1.2.1 (x0 : Nat) x0.isLt]; exact hdc)
        (by rw [← hX.2.2.1.2.2 ((x0 : Nat) / 3) hbx ((y0 : Nat) / 3) hby]; exact hdb)
    have hCw : PuzzleGrid.CompleteGrid
        (PuzzleGrid.writeCell s.grid (x0 : Nat) (y0 : Nat) d) := by
      intro x hx y hy
      by_cases hxy : (x, y) = ((x0 : Nat), (y0 : Nat))
      · rw [Prod.mk.injEq] at hxy
        rw [hxy.1, hxy.2,
          PuzzleGrid.cellAt_writeCell_self _ _ _ _ hX.1 x0.isLt y0.isLt]
        omega
      · have hne2 : x ≠ (x0 : Nat) ∨ y ≠ (y0 : Nat) := by
          by_contra hcon
          push_neg at hcon
          exact hxy (by rw [hcon.1, hcon.2])
        rw [PuzzleGrid.cellAt_writeCell_ne _ _ _ _ _ _ hne2]
        exact hothers x hx y hy hxy
    have hone : numCompletions s.grid = 1 := by
      rw [numCompletions_blank_split s.grid hX x0 y0 hblank, hcands,
        Finset.sum_singleton, numCompletions_of_complete _ hXw hCw]
    have hlen : (searchSolutions s.grid
        (List.range (NUM_ROWS * NUM_COLUMNS))).length = 1 := by
      rw [hcount, hone]
    have hne : searchSolutions s.grid (List.range (NUM_ROWS * NUM_COLUMNS)) ≠
        [] := by
      intro h0
      rw [h0] at hlen
      exact absurd hlen (by simp)
    rw [lastSolution_eq_getLast _ _ hne] at hsolve
    have hmem : (searchSolutions s.grid
        (List.range (NUM_ROWS * NUM_COLUMNS))).getLast hne ∈
        searchSolutions s.grid (List.range' 0 81) := by
      rw [show List.range' 0 81 = List.range (NUM_ROWS * NUM_COLUMNS) by
        rw [show NUM_ROWS * NUM_COLUMNS = 81 from rfl, List.range_eq_range']]
      exact List.getLast_mem hne
    obtain ⟨hXsol, hCsol, hagree⟩ := searchSolutions_mem 81 0 rfl s.grid hX
      (fun q hq => absurd hq (by omega)) _ hmem
    have hcomp : gridCompletion ((searchSolutions s.grid
        (List.range (NUM_ROWS * NUM_COLUMNS))).getLast hne) ∈
        completionsOf s.grid := by
      simp only [completionsOf, Finset.mem_filter, Finset.mem_univ, true_and]
      exact ⟨validCompletion_of_grid _ hXsol hCsol,
        extendsGrid_gridCompletion s.grid _ hXsol.2.1 hCsol hagree⟩
    have hvmem := completion_value_mem_possibleAt s.grid hX x0 y0 hblank _
      hcomp
    rw [hcands, Finset.mem_singleton] at hvmem
    have hsolval : ((searchSolutions s.grid
        (List.range (NUM_ROWS * NUM_COLUMNS))).getLast hne).cellAt x0 y0 =
        d := by
      have hv := hXsol.2.1 (x0 : Nat) x0.isLt (y0 : Nat) y0.isLt
      have hz := hCsol (x0 : Nat) x0.isLt (y0 : Nat) y0.isLt
      rw [← completionCell_gridCompletion _ x0 y0 (by omega) (by omega)]
      exact hvmem
    exact ⟨_, _, by rw [hsolve, hlen], hsolval,
      fun x hx y hy hne' => hagree x hx y hy (hothers x hx y hy hne')⟩
  · rintro ⟨x0, y0, hblank, hempty⟩
    have hzero : numCompletions s.grid = 0 := by
      unfold numCompletions
      rw [Finset.card_eq_zero, Finset.eq_empty_iff_forall_not_mem]
      intro c hc
      have := completion_value_mem_possibleAt s.grid hX x0 y0 hblank c hc
      rw [hempty] at this
      exact absurd this (Finset.not_mem_empty _)
    exact ⟨_, _, by rw [hsolve, hcount, hzero]⟩

end

def oneBlankRows : List (List Int) :=
  fullRows.set 0 [1, 2, 3, 4, 0, 6, 7, 8, 9]

def oneBlankGridL : PuzzleGrid :=
  ⟨oneBlankRows,
    (List.replicate 9 allDigits).set 0 (allDigits.erase 5),
    (List.replicate 9 allDigits).set 4 (allDigits.erase 5),
    (List.replicate 3 (List.replicate 3 allDigits)).set 0
      ((List.replicate 3 allDigits).set 1 (allDigits.erase 5))⟩

theorem claim_C2_witness :
    (∃ s' sp, BruteForceSolver.solve (BruteForceSolver.mkSolver oneBlankGridL) =
      (.ok (numCompletions
        (BruteForceSolver.mkSolver oneBlankGridL).grid, sp), s')) ∧
    (∀ x0 y0 : Fin 9,
      (BruteForceSolver.mkSolver oneBlankGridL).grid.cellAt x0 y0 = 0 →
      (∀ x < 9, ∀ y < 9, (x, y) ≠ ((x0 : Nat), (y0 : Nat)) →
        (BruteForceSolver.mkSolver oneBlankGridL).grid.cellAt x y ≠ 0) →
      ∀ d : Int, ((BruteForceSolver.mkSolver
          oneBlankGridL).grid.possibleAt (x0 : Nat) (y0 : Nat)).2 = {d} →
      ∃ s' sol, BruteForceSolver.solve (BruteForceSolver.mkSolver oneBlankGridL) =
          (.ok (1, some sol), s') ∧
        sol.cellAt x0 y0 = d ∧
        ∀ x < 9, ∀ y < 9, (x, y) ≠ ((x0 : Nat), (y0 : Nat)) →
          sol.cellAt x y =
            (BruteForceSolver.mkSolver oneBlankGridL).grid.cellAt x y) ∧
    ((∃ x0 y0 : Fin 9,
        (BruteForceSolver.mkSolver oneBlankGridL).grid.cellAt x0 y0 = 0 ∧
        ((BruteForceSolver.mkSolver
          oneBlankGridL).grid.possibleAt (x0 : Nat) (y0 : Nat)).2 = ∅) →
      ∃ s' sp, BruteForceSolver.solve (BruteForceSolver.mkSolver oneBlankGridL) =
        (.ok (0, sp), s')) :=
  claim_C2 (BruteForceSolver.mkSolver oneBlankGridL) (by decide)

/-! ### The weak invariant is preserved by every completing operation -/

namespace PuzzleGrid

/-- Validity is preserved by a `writeCell` whose value passed the three
set-membership checks, even when it overwrites a non-zero cell: under
`OverIdx` the sets over-approximate the group values, so the new value
differs from every other non-zero value in its row, column and box. -/
theorem ValidGrid_writeCell_over (g : PuzzleGrid) (x y : Nat) (v : Int)
    (hV : ValidGrid g) (hWF : WF g) (hx : x < 9) (hy : y < 9) (hv : v ≠ 0)
    (hrv : v ∉ rowValues g y) (hcv : v ∉ colValues g x)
    (hbv : v ∉ boxValues g (x / 3) (y / 3)) :
    ValidGrid (writeCell g x y v) := by
  obtain ⟨hr, hc, hb⟩ := hV
  have hcself := cellAt_writeCell_self g x y v hWF hx hy
  refine ⟨?_, ?_, ?_⟩
  · intro y' hy' x1 hx1 x2 hx2 hne h0
    by_cases e1 : x1 = x ∧ y' = y
    · obtain ⟨rfl, rfl⟩ := e1
      rw [hcself]
      rw [cellAt_writeCell_ne _ _ _ _ _ _ (Or.inl (fun hc2 => hne hc2.symm))]
      intro heq
      exact hrv (by rw [mem_rowValues]; exact ⟨hv, x2, hx2, heq.symm⟩)
    · have hne1 : x1 ≠ x ∨ y' ≠ y := by tauto
      rw [cellAt_writeCell_ne _ _ _ _ _ _ hne1] at h0 ⊢
      by_cases e2 : x2 = x ∧ y' = y
      · obtain ⟨rfl, rfl⟩ := e2
        rw [hcself]
        intro heq
        exact hrv (by rw [mem_rowValues]; exact ⟨heq ▸ h0, x1, hx1, heq⟩)
      · have hne2 : x2 ≠ x ∨ y' ≠ y := by tauto
        rw [cellAt_writeCell_ne _ _ _ _ _ _ hne2]
        exact hr y' hy' x1 hx1 x2 hx2 hne h0
  · intro x' hx' y1 hy1 y2 hy2 hne h0
    by_cases e1 : x' = x ∧ y1 = y
    · obtain ⟨rfl, rfl⟩ := e1
      rw [hcself]
      rw [cellAt_writeCell_ne _ _ _ _ _ _ (Or.inr (fun hc2 => hne hc2.symm))]
      intro heq
      exact hcv (by rw [mem_colValues]; exact ⟨hv, y2, hy2, heq.symm⟩)
    · have hne1 : x' ≠ x ∨ y1 ≠ y := by tauto
      rw [cellAt_writeCell_ne _ _ _ _ _ _ hne1] at h0 ⊢
      by_cases e2 : x' = x ∧ y2 = y
      · obtain ⟨rfl, rfl⟩ := e2
        rw [hcself]
        intro heq
        exact hcv (by rw [mem_colValues]; exact ⟨heq ▸ h0, y1, hy1, heq⟩)
      · have hne2 : x' ≠ x ∨ y2 ≠ y := by tauto
        rw [cellAt_writeCell_ne _ _ _ _ _ _ hne2]
        exact hc x' hx' y1 hy1 y2 hy2 hne h0
  · intro x1 hx1 y1 hy1 x2 hx2 y2 hy2 hbox hne h0
    have hbox' : x1 / 3 = x2 / 3 ∧ y1 / 3 = y2 / 3 := by
      simpa [boxCoordinates, BOX_SIZE, Prod.mk.injEq] using hbox
    by_cases e1 : x1 = x ∧ y1 = y
    · obtain ⟨rfl, rfl⟩ := e1
      rw [hcself]
      have hne2 : x2 ≠ x1 ∨ y2 ≠ y1 := by
        by_contra hcon
        push_neg at hcon
        exact hne (by rw [hcon.1, hcon.2])
      rw [cellAt_writeCell_ne _ _ _ _ _ _ hne2]
      intro heq
      apply hbv
      have hmem := cell_mem_boxValues g x2 y2 (heq ▸ hv)
      rw [← hbox'.1, ← hbox'.2] at hmem
      rw [heq]
      exact hmem
    · have hne1 : x1 ≠ x ∨ y1 ≠ y := by tauto
      rw [cellAt_writeCell_ne _ _ _ _ _ _ hne1] at h0 ⊢
      by_cases e2 : x2 = x ∧ y2 = y
      · obtain ⟨rfl, rfl⟩ := e2
        rw [hcself]
        intro heq
        apply hbv
        have := cell_mem_boxValues g x1 y1 h0
        rw [heq] at this
        rwa [hbox'.1, hbox'.2] at this
      · have hne2 : x2 ≠ x ∨ y2 ≠ y := by tauto
        rw [cellAt_writeCell_ne _ _ _ _ _ _ hne2]
        exact hb x1 hx1 y1 hy1 x2 hx2 y2 hy2 hbox hne h0

/-- `Inv` is preserved by a checked write, overwriting allowed. -/
theorem Inv_writeCell_over (g : PuzzleGrid) (x y : Nat) (v : Int)
    (hI : Inv g) (hx : x < 9) (hy : y < 9) (hv1 : 0 < v) (hv9 : v ≤ 9)
    (hb : v ∉ g.boxSetAt (x / 3) (y / 3)) (hr : v ∉ g.rowSetAt y)
    (hc : v ∉ g.colSetAt x) :
    Inv (writeCell g x y v) := by
  obtain ⟨hWF, hVal, hOv, hV⟩ := hI
  have hrv : v ∉ rowValues g y := by
    rw [mem_rowValues]
    rintro ⟨hv0, x', hx', hcell⟩
    exact hr (hcell ▸ (hOv x' hx' y hy (hcell ▸ hv0)).1)
  have hcv : v ∉ colValues g x := by
    rw [mem_colValues]
    rintro ⟨hv0, y', hy', hcell⟩
    exact hc (hcell ▸ (hOv x hx y' hy' (hcell ▸ hv0)).2.1)
  have hbv : v ∉ boxValues g (x / 3) (y / 3) := by
    rw [mem_boxValues]
    rintro ⟨hv0, dx, hdx, dy, hdy, hcell⟩
    have hm := (hOv (3 * (x / 3) + dx) (by omega) (3 * (y / 3) + dy) (by omega)
      (hcell ▸ hv0)).2.2
    rw [hcell, show (3 * (x / 3) + dx) / 3 = x / 3 by omega,
      show (3 * (y / 3) + dy) / 3 = y / 3 by omega] at hm
    exact hb hm
  refine ⟨WF_writeCell _ _ _ _ hWF,
    ValuesOk_writeCell _ _ _ _ hVal hWF hx hy (by omega) hv9, ?_,
    ValidGrid_writeCell_over _ _ _ _ hV hWF hx hy (by omega) hrv hcv hbv⟩
  intro x' hx' y' hy' h0
  by_cases e : x' = x ∧ y' = y
  · obtain ⟨rfl, rfl⟩ := e
    rw [cellAt_writeCell_self _ _ _ _ hWF hx' hy']
    refine ⟨?_, ?_, ?_⟩
    · rw [rowSetAt_writeCell_self _ _ _ _ hWF hy']
      exact Finset.mem_insert_self v _
    · rw [colSetAt_writeCell_self _ _ _ _ hWF hx']
      exact Finset.mem_insert_self v _
    · rw [boxSetAt_writeCell_self _ _ _ _ hWF hx' hy']
      exact Finset.mem_insert_self v _
  · have hne : x' ≠ x ∨ y' ≠ y := by tauto
    rw [cellAt_writeCell_ne _ _ _ _ _ _ hne] at h0 ⊢
    obtain ⟨m1, m2, m3⟩ := hOv x' hx' y' hy' h0
    refine ⟨?_, ?_, ?_⟩
    · by_cases hyy : y' = y
      · subst hyy
        rw [rowSetAt_writeCell_self _ _ _ _ hWF hy']
        exact Finset.mem_insert_of_mem m1
      · rw [rowSetAt_writeCell_ne _ _ _ _ _ hyy]
        exact m1
    · by_cases hxx : x' = x
      · subst hxx
        rw [colSetAt_writeCell_self _ _ _ _ hWF hx']
        exact Finset.mem_insert_of_mem m2
      · rw [colSetAt_writeCell_ne _ _ _ _ _ hxx]
        exact m2
    · by_cases hbb : x' / 3 = x / 3 ∧ y' / 3 = y / 3
      · rw [hbb.1, hbb.2, boxSetAt_writeCell_self _ _ _ _ hWF hx hy]
        refine Finset.mem_insert_of_mem ?_
        rw [← hbb.1, ← hbb.2]
        exact m3
      · have hneb : x' / 3 ≠ x / 3 ∨ y' / 3 ≠ y / 3 := by tauto
        rw [boxSetAt_writeCell_ne _ _ _ _ _ _ hneb]
        exact m3

/-- The master preservation lemma: a `set_value` call that completes
without raising preserves the weak invariant, whatever the arguments. -/
theorem Inv_set_value (g : PuzzleGrid) (x y : Nat) (v : Int) (w : Unit)
    (g' : PuzzleGrid) (hI : Inv g) (h : set_value g x y v = (.ok w, g')) :
    Inv g' := by
  by_cases hxy : x < 9 ∧ y < 9
  · obtain ⟨hx, hy⟩ := hxy
    by_cases hv : v < 0 ∨ 9 < v
    · rw [set_value_err_val g x y v hx hy hv] at h
      simp at h
    · push_neg at hv
      by_cases hv0 : v = 0
      · subst hv0
        by_cases hfill : 0 < g.cellAt x y
        · rw [set_value_ok_zero_filled g x y hx hy hfill] at h
          rw [Prod.mk.injEq] at h
          rw [← h.2]
          exact Inv_eraseCell g x y hI hx hy hfill
        · rw [set_value_ok_zero_blank g x y hx hy hfill] at h
          rw [Prod.mk.injEq] at h
          rw [← h.2, setCell_zero_eq g x y hI.1 hx hy (by
            have := (hI.2.1 x hx y hy).1
            omega)]
          exact hI
      · have hv1 : 0 < v := by omega
        by_cases hbm : v ∈ g.boxSetAt (x / 3) (y / 3)
        · rw [set_value_err_box g x y v hx hy hv1 hv.2 hbm] at h
          simp at h
        · by_cases hrm : v ∈ g.rowSetAt y
          · rw [set_value_err_row g x y v hx hy hv1 hv.2 hbm hrm] at h
            simp at h
          · by_cases hcm : v ∈ g.colSetAt x
            · rw [set_value_err_col g x y v hx hy hv1 hv.2 hbm hrm hcm] at h
              simp at h
            · rw [set_value_ok_pos g x y v hx hy hv1 hv.2 hbm hrm hcm] at h
              rw [Prod.mk.injEq] at h
              rw [← h.2]
              exact Inv_writeCell_over g x y v hI hx hy hv1 hv.2 hbm hrm hcm
  · rw [set_value_err_coords g x y v (by omega)] at h
    simp at h

/-- `Inv` holds for the blank grid. -/
theorem Inv_init : Inv init := by decide

end PuzzleGrid

/-! ### Claim C4 -/

/-- C4, counterexample.  Starting from an empty grid, after
`set_value(0,0,5)` succeeds, `set_value(1,0,5)` does fail with a
duplicate-in-group error (the box conflict, since `(0,0)` and `(1,0)` share
the top-left box), but cell `(1,0)` does **not** remain unset: the source
writes `self.cells[y][x] = val` before the duplicate checks, so the failed
call leaves `5` in the cell matrix at `(1,0)`. -/
theorem claim_C4_counterexample :
    (PuzzleGrid.set_value (PuzzleGrid.set_value PuzzleGrid.init 0 0 5).2 1 0 5).1 =
        .error (.valueInBoxTwice 5) ∧
      (PuzzleGrid.set_value PuzzleGrid.init 0 0 5).1 = .ok () ∧
      (PuzzleGrid.set_value (PuzzleGrid.set_value PuzzleGrid.init 0 0 5).2 1 0 5).2.cellAt 1 0 = 5 := by
  refine ⟨?_, ?_, ?_⟩ <;> rfl

/-- C4, amended.  A `set_value` call that fails a duplicate check reports
the first conflicting group (box, then row, then column) and leaves the
grid mutated: the cell matrix already holds the new value, and the index
sets of the groups checked before the conflicting one already contain it.
Only the structures touched before the raise are updated — box conflict:
cell written, no set updated; row conflict: cell written, box set updated;
column conflict: cell written, box and row sets updated. -/
theorem claim_C4 (g : PuzzleGrid) (x y : Nat) (v : Int)
    (hx : x < 9) (hy : y < 9) (hv1 : 0 < v) (hv9 : v ≤ 9) :
    (v ∈ g.boxSetAt (x / 3) (y / 3) →
      PuzzleGrid.set_value g x y v =
        (.error (.valueInBoxTwice v), g.setCell x y v)) ∧
    (v ∉ g.boxSetAt (x / 3) (y / 3) → v ∈ g.rowSetAt y →
      PuzzleGrid.set_value g x y v =
        (.error (.valueInRowTwice v),
          (g.setCell x y v).updateBoxSet (x / 3) (y / 3)
            (insert v (g.boxSetAt (x / 3) (y / 3))))) ∧
    (v ∉ g.boxSetAt (x / 3) (y / 3) → v ∉ g.rowSetAt y → v ∈ g.colSetAt x →
      PuzzleGrid.set_value g x y v =
        (.error (.valueInColumnTwice v),
          ((g.setCell x y v).updateBoxSet (x / 3) (y / 3)
              (insert v (g.boxSetAt (x / 3) (y / 3)))).updateRowSet y
            (insert v (g.rowSetAt y)))) :=
  ⟨fun hb => PuzzleGrid.set_value_err_box g x y v hx hy hv1 hv9 hb,
    fun hb hr => PuzzleGrid.set_value_err_row g x y v hx hy hv1 hv9 hb hr,
    fun hb hr hc => PuzzleGrid.set_value_err_col g x y v hx hy hv1 hv9 hb hr hc⟩

/-- C4, witness: the amended theorem applied to the concrete duplicate of
the scenario. -/
theorem claim_C4_witness :
    PuzzleGrid.set_value (PuzzleGrid.set_value PuzzleGrid.init 0 0 5).2 1 0 5 =
      (.error (.valueInBoxTwice 5),
        (PuzzleGrid.set_value PuzzleGrid.init 0 0 5).2.setCell 1 0 5) :=
  (claim_C4 (PuzzleGrid.set_value PuzzleGrid.init 0 0 5).2 1 0 5
      (by decide) (by decide) (by decide) (by decide)).1 (by decide)

/-! ### Claim C5 -/

/-- C5, counterexample.  The two formulations of `get_possible_values` in
the claim are not equivalent on every reachable state: overwriting a
non-zero cell with a different non-zero value (`set_value(0,0,5)` then
`set_value(0,0,7)`, both succeeding) leaves the stale digit 5 in the index
sets with no backing cell, after which the candidate set of the blank cell
`(1,0)` excludes 5 even though 5 appears nowhere in its row, column, or
box. -/
theorem claim_C5_counterexample :
    ((PuzzleGrid.set_value (PuzzleGrid.set_value PuzzleGrid.init 0 0 5).2 0 0 7).1 = .ok () ∧
      ((PuzzleGrid.set_value (PuzzleGrid.set_value PuzzleGrid.init 0 0 5).2 0 0 7).2.possibleAt 1 0).1 = true) ∧
    (5 : Int) ∉ ((PuzzleGrid.set_value (PuzzleGrid.set_value PuzzleGrid.init 0 0 5).2 0 0 7).2.possibleAt 1 0).2 ∧
    (5 : Int) ∉ PuzzleGrid.rowValues (PuzzleGrid.set_value (PuzzleGrid.set_value PuzzleGrid.init 0 0 5).2 0 0 7).2 0 ∧
    (5 : Int) ∉ PuzzleGrid.colValues (PuzzleGrid.set_value (PuzzleGrid.set_value PuzzleGrid.init 0 0 5).2 0 0 7).2 1 ∧
    (5 : Int) ∉ PuzzleGrid.boxValues (PuzzleGrid.set_value (PuzzleGrid.set_value PuzzleGrid.init 0 0 5).2 0 0 7).2 0 0 := by
  refine ⟨⟨by rfl, by rfl⟩, by decide, by decide, by decide, by decide⟩

/-- C5, amended.  For every in-bounds coordinate, `get_possible_values`
returns `(False, ∅)` for a filled cell and
`(True, {1..9} − boxSet − rowSet − colSet)` for a blank cell; and in every
state whose index sets exactly record the digits present in each row,
column, and box (`ExactIdx`, which holds for every state the program itself
builds but can be broken by overwriting a non-zero cell through the public
`set_value`), the returned set contains a digit exactly when that digit is
one of 1–9 and does not appear in the cell's row, column, or box. -/
theorem claim_C5 (g : PuzzleGrid) (x y : Nat) (hx : x < 9) (hy : y < 9) :
    PuzzleGrid.get_possible_values g x y = .ok (g.possibleAt x y) ∧
    (0 < g.cellAt x y → g.possibleAt x y = (false, ∅)) ∧
    (g.cellAt x y = 0 →
      g.possibleAt x y =
        (true, (((possible_values.toFinset \ g.boxSetAt (x / 3) (y / 3)) \
          g.rowSetAt y) \ g.colSetAt x))) ∧
    (PuzzleGrid.ExactIdx g → g.cellAt x y = 0 → ∀ v : Int,
      (v ∈ (g.possibleAt x y).2 ↔
        (1 ≤ v ∧ v ≤ 9) ∧ v ∉ PuzzleGrid.rowValues g y ∧
          v ∉ PuzzleGrid.colValues g x ∧
          v ∉ PuzzleGrid.boxValues g (x / 3) (y / 3))) := by
  refine ⟨?_, ?_, ?_, ?_⟩
  · simp [PuzzleGrid.get_possible_values, NUM_COLUMNS, NUM_ROWS]
    omega
  · exact fun h => PuzzleGrid.possibleAt_filled g x y h
  · intro h
    simp [PuzzleGrid.possibleAt, PuzzleGrid.boxCoordinates, BOX_SIZE, h]
  · intro hEx hblank v
    rw [PuzzleGrid.mem_possibleAt_blank g x y v (by omega),
      hEx.1 y hy, hEx.2.1 x hx, hEx.2.2 (x / 3) (by omega) (y / 3) (by omega)]
    tauto

/-- C5, witness: the amended theorem applied to the state after a single
`set_value(0,0,5)` on the empty grid, at the blank cell `(1,0)`. -/
theorem claim_C5_witness :
    PuzzleGrid.ExactIdx (PuzzleGrid.set_value PuzzleGrid.init 0 0 5).2 ∧
      ((5 : Int) ∈ ((PuzzleGrid.set_value PuzzleGrid.init 0 0 5).2.possibleAt 1 0).2 ↔
        ((1 ≤ (5 : Int) ∧ (5 : Int) ≤ 9) ∧
          (5 : Int) ∉ PuzzleGrid.rowValues (PuzzleGrid.set_value PuzzleGrid.init 0 0 5).2 0 ∧
          (5 : Int) ∉ PuzzleGrid.colValues (PuzzleGrid.set_value PuzzleGrid.init 0 0 5).2 1 ∧
          (5 : Int) ∉ PuzzleGrid.boxValues (PuzzleGrid.set_value PuzzleGrid.init 0 0 5).2 0 0)) :=
  ⟨by decide,
    (claim_C5 (PuzzleGrid.set_value PuzzleGrid.init 0 0 5).2 1 0
        (by decide) (by decide)).2.2.2 (by decide) (by decide) 5⟩

/-! ### Claim C10 -/

theorem foldl_inv {α β : Type _} (f : β → α → β) (P : β → Prop) :
    ∀ (l : List α) (acc : β), P acc →
      (∀ b a, a ∈ l → P b → P (f b a)) → P (l.foldl f acc)
  | [], _, hacc, _ => hacc
  | a :: l, acc, hacc, hstep =>
    foldl_inv f P l (f acc a) (hstep acc a (List.mem_cons_self a l) hacc)
      (fun b a' ha' hb => hstep b a' (List.mem_cons_of_mem a ha') hb)

namespace PuzzleGrid

/-- In the in-bounds, in-range, non-zero case, whatever branch `set_value`
takes, its cell matrix is the one with the value written. -/
theorem set_value_cells_pos (g : PuzzleGrid) (x y : Nat) (v : Int)
    (hx : x < 9) (hy : y < 9) (hv1 : 0 < v) (hv9 : v ≤ 9) :
    ((set_value g x y v).2).cells = (g.setCell x y v).cells := by
  by_cases hb : v ∈ g.boxSetAt (x / 3) (y / 3)
  · rw [set_value_err_box g x y v hx hy hv1 hv9 hb]
  · by_cases hr : v ∈ g.rowSetAt y
    · rw [set_value_err_row g x y v hx hy hv1 hv9 hb hr]
      rfl
    · by_cases hc : v ∈ g.colSetAt x
      · rw [set_value_err_col g x y v hx hy hv1 hv9 hb hr hc]
        rfl
      · rw [set_value_ok_pos g x y v hx hy hv1 hv9 hb hr hc]
        rfl

theorem setCell_same_cells (g : PuzzleGrid) (x y : Nat)
    (hylen : y < g.cells.length) (hxlen : x < (g.cells.getD y []).length) :
    (g.setCell x y (g.cellAt x y)).cells = g.cells := by
  simp only [setCell, cellAt]
  rw [set_getD_self _ _ _ hxlen, set_getD_self _ _ _ hylen]

end PuzzleGrid

/-- C10.  For every input matrix with exactly 9 rows, `populate_from_list`
leaves the grid's cell matrix equal to the input matrix — also (and in
particular) when it raises part-way: there is no rollback.  Together with
the concrete instance `claim_C10_witness` (values applied before the
failing cell stay committed in the index sets), this is the claim. -/
theorem claim_C10 (g : PuzzleGrid) (m : List (List Int))
    (hm : m.length = 9) :
    (PuzzleGrid.populate_from_list g m).2.cells = m := by
  unfold PuzzleGrid.populate_from_list
  rw [if_neg (by simp [NUM_ROWS, hm])]
  apply foldl_inv _ (fun b : Except GridError Unit × PuzzleGrid => b.2.cells = m)
  · rfl
  · intro b y hyl hb
    rcases b with ⟨res, g'⟩
    rcases res with e | u
    · exact hb
    · simp only at hb ⊢
      have hy9 : y < 9 := by
        simp only [NUM_ROWS, List.mem_range] at hyl
        omega
      by_cases hrl : (m.getD y []).length ≠ NUM_COLUMNS
      · rw [if_pos hrl]
        exact hb
      · rw [if_neg hrl]
        simp only [NUM_COLUMNS] at hrl
        unfold PuzzleGrid.populateRowFromList
        apply foldl_inv _ (fun b : Except GridError Unit × PuzzleGrid => b.2.cells = m)
        · exact hb
        · intro b2 x hxl hb2
          rcases b2 with ⟨res2, g2⟩
          rcases res2 with e2 | u2
          · exact hb2
          · simp only at hb2 ⊢
            have hx9 : x < 9 := by
              simp only [NUM_COLUMNS, List.mem_range] at hxl
              omega
            by_cases hbad : g2.cellAt x y < 0 ∨ 9 < g2.cellAt x y
            · rw [if_pos hbad]
              exact hb2
            · rw [if_neg hbad]
              by_cases hz : 0 < g2.cellAt x y
              · rw [if_pos hz]
                rw [PuzzleGrid.set_value_cells_pos g2 x y _ hx9 hy9 hz (by omega),
                  PuzzleGrid.setCell_same_cells g2 x y (by rw [hb2, hm]; omega)
                    (by rw [hb2]; omega)]
                exact hb2
              · rw [if_neg hz]
                exact hb2

/-- C10, witness and concrete commitment: applying the theorem to a
matrix whose row 0 starts `[5, 5, ...]`, the call raises the box-duplicate
error at cell `(1,0)`, the cell matrix equals the input afterwards, and
the value applied at `(0,0)` before the failure stays committed in the
row-0, column-0 and top-left-box index sets (the grid is not restored). -/
theorem claim_C10_witness :
    (PuzzleGrid.populate_from_list PuzzleGrid.init
        [[5, 5, 0, 0, 0, 0, 0, 0, 0], [0, 0, 0, 0, 0, 0, 0, 0, 0],
          [0, 0, 0, 0, 0, 0, 0, 0, 0], [0, 0, 0, 0, 0, 0, 0, 0, 0],
          [0, 0, 0, 0, 0, 0, 0, 0, 0], [0, 0, 0, 0, 0, 0, 0, 0, 0],
          [0, 0, 0, 0, 0, 0, 0, 0, 0], [0, 0, 0, 0, 0, 0, 0, 0, 0],
          [0, 0, 0, 0, 0, 0, 0, 0, 0]]).2.cells =
      [[5, 5, 0, 0, 0, 0, 0, 0, 0], [0, 0, 0, 0, 0, 0, 0, 0, 0],
        [0, 0, 0, 0, 0, 0, 0, 0, 0], [0, 0, 0, 0, 0, 0, 0, 0, 0],
        [0, 0, 0, 0, 0, 0, 0, 0, 0], [0, 0, 0, 0, 0, 0, 0, 0, 0],
        [0, 0, 0, 0, 0, 0, 0, 0, 0], [0, 0, 0, 0, 0, 0, 0, 0, 0],
        [0, 0, 0, 0, 0, 0, 0, 0, 0]] ∧
    (PuzzleGrid.populate_from_list PuzzleGrid.init
        [[5, 5, 0, 0, 0, 0, 0, 0, 0], [0, 0, 0, 0, 0, 0, 0, 0, 0],
          [0, 0, 0, 0, 0, 0, 0, 0, 0], [0, 0, 0, 0, 0, 0, 0, 0, 0],
          [0, 0, 0, 0, 0, 0, 0, 0, 0], [0, 0, 0, 0, 0, 0, 0, 0, 0],
          [0, 0, 0, 0, 0, 0, 0, 0, 0], [0, 0, 0, 0, 0, 0, 0, 0, 0],
          [0, 0, 0, 0, 0, 0, 0, 0, 0]]).1 = .error (.valueInBoxTwice 5) ∧
    (5 : Int) ∈ (PuzzleGrid.populate_from_list PuzzleGrid.init
        [[5, 5, 0, 0, 0, 0, 0, 0, 0], [0, 0, 0, 0, 0, 0, 0, 0, 0],
          [0, 0, 0, 0, 0, 0, 0, 0, 0], [0, 0, 0, 0, 0, 0, 0, 0, 0],
          [0, 0, 0, 0, 0, 0, 0, 0, 0], [0, 0, 0, 0, 0, 0, 0, 0, 0],
          [0, 0, 0, 0, 0, 0, 0, 0, 0], [0, 0, 0, 0, 0, 0, 0, 0, 0],
          [0, 0, 0, 0, 0, 0, 0, 0, 0]]).2.rowSetAt 0 ∧
    (5 : Int) ∈ (PuzzleGrid.populate_from_list PuzzleGrid.init
        [[5, 5, 0, 0, 0, 0, 0, 0, 0], [0, 0, 0, 0, 0, 0, 0, 0, 0],
          [0, 0, 0, 0, 0, 0, 0, 0, 0], [0, 0, 0, 0, 0, 0, 0, 0, 0],
          [0, 0, 0, 0, 0, 0, 0, 0, 0], [0, 0, 0, 0, 0, 0, 0, 0, 0],
          [0, 0, 0, 0, 0, 0, 0, 0, 0], [0, 0, 0, 0, 0, 0, 0, 0, 0],
          [0, 0, 0, 0, 0, 0, 0, 0, 0]]).2.colSetAt 0 ∧
    (5 : Int) ∈ (PuzzleGrid.populate_from_list PuzzleGrid.init
        [[5, 5, 0, 0, 0, 0, 0, 0, 0], [0, 0, 0, 0, 0, 0, 0, 0, 0],
          [0, 0, 0, 0, 0, 0, 0, 0, 0], [0, 0, 0, 0, 0, 0, 0, 0, 0],
          [0, 0, 0, 0, 0, 0, 0, 0, 0], [0, 0, 0, 0, 0, 0, 0, 0, 0],
          [0, 0, 0, 0, 0, 0, 0, 0, 0], [0, 0, 0, 0, 0, 0, 0, 0, 0],
          [0, 0, 0, 0, 0, 0, 0, 0, 0]]).2.boxSetAt 0 0 :=
  ⟨claim_C10 PuzzleGrid.init _ (by decide), by rfl, by decide, by decide, by decide⟩

/-! ### Invariant preservation: `clear_row`, `clear_all_rows`, `copy` -/

namespace PuzzleGrid

theorem clearRowStep_eq_eraseCell (y : Nat) (g : PuzzleGrid) (x : Nat) :
    clearRowStep y g x = eraseCell g x y := rfl

/-- Erasing a blank cell only removes `0` from the three sets, which keeps
the weak invariant. -/
theorem Inv_eraseCell_zero (g : PuzzleGrid) (x y : Nat)
    (hI : Inv g) (hx : x < 9) (hy : y < 9) (hz : g.cellAt x y = 0) :
    Inv (eraseCell g x y) := by
  obtain ⟨hWF, hVal, hOv, hV⟩ := hI
  have hcells : ∀ x' < 9, ∀ y' < 9,
      (eraseCell g x y).cellAt x' y' = g.cellAt x' y' := by
    intro x' hx' y' hy'
    by_cases e : x' = x ∧ y' = y
    · obtain ⟨rfl, rfl⟩ := e
      rw [cellAt_eraseCell_self _ _ _ hWF hx' hy', hz]
    · exact cellAt_eraseCell_ne _ _ _ _ _ (by tauto)
  refine ⟨WF_eraseCell _ _ _ hWF, ?_, ?_, ?_⟩
  · intro x' hx' y' hy'
    rw [hcells x' hx' y' hy']
    exact hVal x' hx' y' hy'
  · intro x' hx' y' hy' h0
    rw [hcells x' hx' y' hy'] at h0 ⊢
    obtain ⟨m1, m2, m3⟩ := hOv x' hx' y' hy' h0
    refine ⟨?_, ?_, ?_⟩
    · by_cases hyy : y' = y
      · subst hyy
        rw [rowSetAt_eraseCell_self _ _ _ hWF hy', hz]
        exact Finset.mem_erase.mpr ⟨h0, m1⟩
      · rw [rowSetAt_eraseCell_ne _ _ _ _ hyy]
        exact m1
    · by_cases hxx : x' = x
      · subst hxx
        rw [colSetAt_eraseCell_self _ _ _ hWF hx', hz]
        exact Finset.mem_erase.mpr ⟨h0, m2⟩
      · rw [colSetAt_eraseCell_ne _ _ _ _ hxx]
        exact m2
    · by_cases hbb : x' / 3 = x / 3 ∧ y' / 3 = y / 3
      · rw [hbb.1, hbb.2, boxSetAt_eraseCell_self _ _ _ hWF hx hy, hz]
        refine Finset.mem_erase.mpr ⟨h0, ?_⟩
        rw [← hbb.1, ← hbb.2]
        exact m3
      · have hneb : x' / 3 ≠ x / 3 ∨ y' / 3 ≠ y / 3 := by tauto
        rw [boxSetAt_eraseCell_ne _ _ _ _ _ hneb]
        exact m3
  · refine ⟨?_, ?_, ?_⟩
    · intro y' hy' x1 hx1 x2 hx2 hne h0
      rw [hcells x1 hx1 y' hy'] at h0 ⊢
      rw [hcells x2 hx2 y' hy']
      exact hV.1 y' hy' x1 hx1 x2 hx2 hne h0
    · intro x' hx' y1 hy1 y2 hy2 hne h0
      rw [hcells x' hx' y1 hy1] at h0 ⊢
      rw [hcells x' hx' y2 hy2]
      exact hV.2.1 x' hx' y1 hy1 y2 hy2 hne h0
    · intro x1 hx1 y1 hy1 x2 hx2 y2 hy2 hbox hne h0
      rw [hcells x1 hx1 y1 hy1] at h0 ⊢
      rw [hcells x2 hx2 y2 hy2]
      exact hV.2.2 x1 hx1 y1 hy1 x2 hx2 y2 hy2 hbox hne h0

theorem Inv_clearRowStep (y : Nat) (g : PuzzleGrid) (x : Nat)
    (hI : Inv g) (hx : x < 9) (hy : y < 9) : Inv (clearRowStep y g x) := by
  rw [clearRowStep_eq_eraseCell]
  by_cases hfill : 0 < g.cellAt x y
  · exact Inv_eraseCell g x y hI hx hy hfill
  · exact Inv_eraseCell_zero g x y hI hx hy (by
      have := (hI.2.1 x hx y hy).1
      omega)

theorem Inv_clearRowCore (g : PuzzleGrid) (y : Nat) (hI : Inv g)
    (hy : y < 9) : Inv (clearRowCore g y) := by
  refine foldl_inv (clearRowStep y) Inv (List.range NUM_COLUMNS) g hI ?_
  intro b a ha hb
  rw [List.mem_range] at ha
  exact Inv_clearRowStep y b a hb (by
    simp only [NUM_COLUMNS] at ha
    omega) hy

theorem Inv_clear_row (g : PuzzleGrid) (y : Nat) (u : Unit) (g' : PuzzleGrid)
    (hI : Inv g) (h : clear_row g y = (.ok u, g')) : Inv g' := by
  unfold clear_row at h
  by_cases hy : NUM_ROWS ≤ y
  · rw [if_pos hy] at h
    simp at h
  · rw [if_neg hy] at h
    rw [Prod.mk.injEq] at h
    rw [← h.2]
    exact Inv_clearRowCore g y hI (by simp only [NUM_ROWS] at hy; omega)

/-- `Inv` survives the threaded replay folds, vacuously on an error. -/
theorem Inv_copyCellStep (other : PuzzleGrid) (y : Nat)
    (acc : Except GridError Unit × PuzzleGrid) (x : Nat)
    (hacc : ∀ u, acc.1 = .ok u → Inv acc.2) :
    ∀ u, (copyCellStep other y acc x).1 = .ok u → Inv (copyCellStep other y acc x).2 := by
  intro u hu
  rcases acc with ⟨res, g''⟩
  rcases res with e | u0
  · exact hacc u hu
  · simp only [copyCellStep] at hu ⊢
    rcases hv : get_value other x y with e | val
    · rw [hv] at hu
      exact absurd hu (by simp)
    · rw [hv] at hu
      have hu' : (set_value g'' x y val).1 = .ok u := hu
      show Inv (set_value g'' x y val).2
      rcases hs : set_value g'' x y val with ⟨res2, g3⟩
      rcases res2 with e2 | u2
      · rw [hs] at hu'
        exact absurd hu' (by simp)
      · exact Inv_set_value g'' x y val u2 g3 (hacc u0 rfl) hs

theorem Inv_copyRowStep (other : PuzzleGrid)
    (acc : Except GridError Unit × PuzzleGrid) (y : Nat)
    (hacc : ∀ u, acc.1 = .ok u → Inv acc.2) :
    ∀ u, (copyRowStep other acc y).1 = .ok u → Inv (copyRowStep other acc y).2 := by
  rcases acc with ⟨res, g'⟩
  rcases res with e | u0
  · exact hacc
  · simp only [copyRowStep]
    have := foldl_inv (copyCellStep other y)
      (fun acc2 => ∀ u, acc2.1 = .ok u → Inv acc2.2)
      (List.range NUM_COLUMNS) (.ok u0, g') hacc
      (fun b a _ hb => Inv_copyCellStep other y b a hb)
    exact this

theorem Inv_copy (t other : PuzzleGrid) (u : Unit) (c : PuzzleGrid)
    (h : copy t other = (.ok u, c)) : Inv c := by
  have := foldl_inv (copyRowStep other)
    (fun acc2 => ∀ u, acc2.1 = .ok u → Inv acc2.2)
    (List.range NUM_ROWS) (.ok (), reset t)
    (fun _ _ => by rw [reset_eq_init]; exact Inv_init)
    (fun b a _ hb => Inv_copyRowStep other b a hb)
  unfold copy at h
  rw [h] at this
  exact this u rfl

end PuzzleGrid

/-! ### Invariant preservation: `populate_from_list` -/

namespace PuzzleGrid

/-- Well-formedness of the three index structures alone (during
`populate_from_list` the cell matrix is the raw input, whose later rows may
not have been length-checked yet). -/
def SWF (g : PuzzleGrid) : Prop :=
  g.definite_values_per_row.length = 9 ∧
    g.definite_values_per_column.length = 9 ∧
    g.definite_values_per_box.length = 3 ∧
    ∀ br ∈ g.definite_values_per_box, br.length = 3

theorem SWF_writeCell (g : PuzzleGrid) (x y : Nat) (v : Int) (h : SWF g) :
    SWF (writeCell g x y v) := by
  obtain ⟨h1, h2, h3, h4⟩ := h
  refine ⟨by simp [writeCell, updateColSet, updateRowSet, updateBoxSet, setCell, h1],
    by simp [writeCell, updateColSet, updateRowSet, updateBoxSet, setCell, h2],
    by simp [writeCell, updateColSet, updateRowSet, updateBoxSet, setCell, h3], ?_⟩
  intro br hbr
  simp only [writeCell, updateColSet, updateRowSet, updateBoxSet, setCell] at hbr
  by_cases hbY : y / BOX_SIZE < g.definite_values_per_box.length
  · rcases List.mem_or_eq_of_mem_set hbr with hbr' | rfl
    · exact h4 br hbr'
    · rw [List.length_set]
      exact h4 _ (getD_mem _ _ _ hbY)
  · rw [List.set_eq_of_length_le (by omega)] at hbr
    exact h4 br hbr
theorem rowSetAt_writeCell_self2 (g : PuzzleGrid) (x y : Nat) (v : Int)
    (hlen : y < g.definite_values_per_row.length) :
    (writeCell g x y v).rowSetAt y = insert v (g.rowSetAt y) := by
  have hlen2 : y < ((g.setCell x y v).updateBoxSet (x / BOX_SIZE) (y / BOX_SIZE)
      (insert v ((g.setCell x y v).boxSetAt (x / BOX_SIZE)
        (y / BOX_SIZE)))).definite_values_per_row.length := hlen
  simp only [writeCell]
  rw [rowSetAt_updateColSet, rowSetAt_updateRowSet_self _ _ _ hlen2,
    rowSetAt_updateBoxSet, rowSetAt_setCell]

theorem colSetAt_writeCell_self2 (g : PuzzleGrid) (x y : Nat) (v : Int)
    (hlen : x < g.definite_values_per_column.length) :
    (writeCell g x y v).colSetAt x = insert v (g.colSetAt x) := by
  have hlen2 : x < (((g.setCell x y v).updateBoxSet (x / BOX_SIZE) (y / BOX_SIZE)
      (insert v ((g.setCell x y v).boxSetAt (x / BOX_SIZE)
        (y / BOX_SIZE)))).updateRowSet y
      (insert v (((g.setCell x y v).updateBoxSet (x / BOX_SIZE) (y / BOX_SIZE)
        (insert v ((g.setCell x y v).boxSetAt (x / BOX_SIZE)
          (y / BOX_SIZE)))).rowSetAt y))).definite_values_per_column.length := hlen
  simp only [writeCell]
  rw [colSetAt_updateColSet_self _ _ _ hlen2,
    colSetAt_updateRowSet, colSetAt_updateBoxSet, colSetAt_setCell]

theorem boxSetAt_writeCell_self2 (g : PuzzleGrid) (x y : Nat) (v : Int)
    (hbY : y / 3 < g.definite_values_per_box.length)
    (hbx : x / 3 < (g.definite_values_per_box.getD (y / 3) []).length) :
    (writeCell g x y v).boxSetAt (x / 3) (y / 3) =
      insert v (g.boxSetAt (x / 3) (y / 3)) := by
  have hbY2 : y / 3 < (g.setCell x y v).definite_values_per_box.length := hbY
  have hbx2 : x / 3 <
      ((g.setCell x y v).definite_values_per_box.getD (y / 3) []).length := hbx
  simp only [writeCell, BOX_SIZE]
  rw [boxSetAt_updateColSet, boxSetAt_updateRowSet,
    boxSetAt_updateBoxSet_self _ _ _ _ hbx2 hbY2, boxSetAt_setCell]

theorem writeCell_cells (g : PuzzleGrid) (x y : Nat) (v : Int) :
    (writeCell g x y v).cells = (g.setCell x y v).cells := rfl

theorem cellAt_congr (g1 g2 : PuzzleGrid) (h : g1.cells = g2.cells)
    (x y : Nat) : g1.cellAt x y = g2.cellAt x y := by
  unfold cellAt
  rw [h]

/-- Processed positions after reaching column `xc` of row `yc` in the
row-major replay. -/
def Proc (yc xc x' y' : Nat) : Prop := y' < yc ∨ (y' = yc ∧ x' < xc)

/-- The invariant threaded through the `populate_from_list` replay: the
cells are the raw input, the index structures are well-formed, every
already-length-checked row has 9 entries, and the processed prefix is
in-range, recorded in the index sets, and duplicate-free. -/
def PartInv (m : List (List Int)) (yc xc : Nat) (g : PuzzleGrid) : Prop :=
  g.cells = m ∧ SWF g ∧
  (∀ y' < yc, (m.getD y' []).length = 9) ∧
  (∀ x' < 9, ∀ y' < 9, Proc yc xc x' y' →
    (0 ≤ g.cellAt x' y' ∧ g.cellAt x' y' ≤ 9) ∧
    (g.cellAt x' y' ≠ 0 →
      g.cellAt x' y' ∈ g.rowSetAt y' ∧ g.cellAt x' y' ∈ g.colSetAt x' ∧
        g.cellAt x' y' ∈ g.boxSetAt (x' / 3) (y' / 3))) ∧
  (∀ y' < 9, ∀ x1 < 9, ∀ x2 < 9, Proc yc xc x1 y' → Proc yc xc x2 y' →
    x1 ≠ x2 → g.cellAt x1 y' ≠ 0 → g.cellAt x1 y' ≠ g.cellAt x2 y') ∧
  (∀ x' < 9, ∀ y1 < 9, ∀ y2 < 9, Proc yc xc x' y1 → Proc yc xc x' y2 →
    y1 ≠ y2 → g.cellAt x' y1 ≠ 0 → g.cellAt x' y1 ≠ g.cellAt x' y2) ∧
  (∀ x1 < 9, ∀ y1 < 9, ∀ x2 < 9, ∀ y2 < 9, Proc yc xc x1 y1 →
    Proc yc xc x2 y2 → x1 / 3 = x2 / 3 → y1 / 3 = y2 / 3 →
    (x1, y1) ≠ (x2, y2) → g.cellAt x1 y1 ≠ 0 →
    g.cellAt x1 y1 ≠ g.cellAt x2 y2)

/-- Extending the processed prefix over a blank input cell. -/
theorem PartInv_zero_extend (m : List (List Int)) (yc xc : Nat)
    (g : PuzzleGrid) (hyc : yc < 9) (hxc : xc < 9)
    (hPI : PartInv m yc xc g) (hz : g.cellAt xc yc = 0) :
    PartInv m yc (xc + 1) g := by
  obtain ⟨hc, hswf, hrows, hcell, hrow, hcol, hbox⟩ := hPI
  have hproc : ∀ x' y', x' < 9 → y' < 9 → Proc yc (xc + 1) x' y' →
      Proc yc xc x' y' ∨ (x' = xc ∧ y' = yc) := by
    intro x' y' _ _ hp
    unfold Proc at hp ⊢
    omega
  refine ⟨hc, hswf, hrows, ?_, ?_, ?_, ?_⟩
  · intro x' hx' y' hy' hp
    rcases hproc x' y' hx' hy' hp with hp' | ⟨rfl, rfl⟩
    · exact hcell x' hx' y' hy' hp'
    · rw [hz]
      exact ⟨⟨le_refl 0, by omega⟩, fun h0 => absurd rfl h0⟩
  · intro y' hy' x1 hx1 x2 hx2 hp1 hp2 hne h0
    rcases hproc x1 y' hx1 hy' hp1 with hp1' | ⟨rfl, rfl⟩
    · rcases hproc x2 y' hx2 hy' hp2 with hp2' | ⟨rfl, rfl⟩
      · exact hrow y' hy' x1 hx1 x2 hx2 hp1' hp2' hne h0
      · rw [hz]
        exact h0
    · rw [hz] at h0
      exact absurd rfl h0
  · intro x' hx' y1 hy1 y2 hy2 hp1 hp2 hne h0
    rcases hproc x' y1 hx' hy1 hp1 with hp1' | ⟨rfl, rfl⟩
    · rcases hproc x' y2 hx' hy2 hp2 with hp2' | ⟨rfl, rfl⟩
      · exact hcol x' hx' y1 hy1 y2 hy2 hp1' hp2' hne h0
      · rw [hz]
        exact h0
    · rw [hz] at h0
      exact absurd rfl h0
  · intro x1 hx1 y1 hy1 x2 hx2 y2 hy2 hp1 hp2 hdx hdy hne h0
    rcases hproc x1 y1 hx1 hy1 hp1 with hp1' | ⟨rfl, rfl⟩
    · rcases hproc x2 y2 hx2 hy2 hp2 with hp2' | ⟨rfl, rfl⟩
      · exact hbox x1 hx1 y1 hy1 x2 hx2 y2 hy2 hp1' hp2' hdx hdy hne h0
      · rw [hz]
        exact h0
    · rw [hz] at h0
      exact absurd rfl h0

end PuzzleGrid
namespace PuzzleGrid

/-- Extending the processed prefix over a non-zero input cell whose
`set_value` replay completed. -/
theorem PartInv_write_extend (m : List (List Int)) (yc xc : Nat)
    (g g2 : PuzzleGrid) (u : Unit) (hyc : yc < 9) (hxc : xc < 9)
    (hm : m.length = 9) (hrowlen : (m.getD yc []).length = 9)
    (hPI : PartInv m yc xc g) (hv1 : 0 < g.cellAt xc yc)
    (hv9 : g.cellAt xc yc ≤ 9)
    (hsv : set_value g xc yc (g.cellAt xc yc) = (.ok u, g2)) :
    PartInv m yc (xc + 1) g2 := by
  obtain ⟨hc, hswf, hrows, hcell, hrow, hcol, hbox⟩ := hPI
  by_cases hbm : g.cellAt xc yc ∈ g.boxSetAt (xc / 3) (yc / 3)
  · rw [set_value_err_box g xc yc _ hxc hyc hv1 hv9 hbm] at hsv
    simp at hsv
  by_cases hrm : g.cellAt xc yc ∈ g.rowSetAt yc
  · rw [set_value_err_row g xc yc _ hxc hyc hv1 hv9 hbm hrm] at hsv
    simp at hsv
  by_cases hcm : g.cellAt xc yc ∈ g.colSetAt xc
  · rw [set_value_err_col g xc yc _ hxc hyc hv1 hv9 hbm hrm hcm] at hsv
    simp at hsv
  rw [set_value_ok_pos g xc yc _ hxc hyc hv1 hv9 hbm hrm hcm,
    Prod.mk.injEq] at hsv
  obtain ⟨-, hg2⟩ := hsv
  subst hg2
  have hcells2 : (writeCell g xc yc (g.cellAt xc yc)).cells = g.cells := by
    rw [writeCell_cells, setCell_same_cells g xc yc (by rw [hc, hm]; omega)
      (by rw [hc, hrowlen]; omega)]
  have hce : ∀ x' y',
      (writeCell g xc yc (g.cellAt xc yc)).cellAt x' y' = g.cellAt x' y' :=
    cellAt_congr _ _ hcells2
  have hproc : ∀ x' y', x' < 9 → y' < 9 → Proc yc (xc + 1) x' y' →
      Proc yc xc x' y' ∨ (x' = xc ∧ y' = yc) := by
    intro x' y' _ _ hp
    unfold Proc at hp ⊢
    omega
  have hrs : (writeCell g xc yc (g.cellAt xc yc)).rowSetAt yc =
      insert (g.cellAt xc yc) (g.rowSetAt yc) :=
    rowSetAt_writeCell_self2 g xc yc _ (by rw [hswf.1]; omega)
  have hcs : (writeCell g xc yc (g.cellAt xc yc)).colSetAt xc =
      insert (g.cellAt xc yc) (g.colSetAt xc) :=
    colSetAt_writeCell_self2 g xc yc _ (by rw [hswf.2.1]; omega)
  have hbs : (writeCell g xc yc (g.cellAt xc yc)).boxSetAt (xc / 3) (yc / 3) =
      insert (g.cellAt xc yc) (g.boxSetAt (xc / 3) (yc / 3)) :=
    boxSetAt_writeCell_self2 g xc yc _ (by rw [hswf.2.2.1]; omega)
      (by rw [hswf.2.2.2 _ (getD_mem _ _ _ (by rw [hswf.2.2.1]; omega))]; omega)
  refine ⟨by rw [hcells2, hc], SWF_writeCell g xc yc _ hswf, hrows, ?_, ?_, ?_, ?_⟩
  · intro x' hx' y' hy' hp
    rw [hce x' y']
    rcases hproc x' y' hx' hy' hp with hp' | ⟨rfl, rfl⟩
    · obtain ⟨hb, hmem⟩ := hcell x' hx' y' hy' hp'
      refine ⟨hb, fun h0 => ?_⟩
      obtain ⟨m1, m2, m3⟩ := hmem h0
      refine ⟨?_, ?_, ?_⟩
      · by_cases hyy : y' = yc
        · subst hyy
          rw [hrs]
          exact Finset.mem_insert_of_mem m1
        · rw [rowSetAt_writeCell_ne _ _ _ _ _ hyy]
          exact m1
      · by_cases hxx : x' = xc
        · subst hxx
          rw [hcs]
          exact Finset.mem_insert_of_mem m2
        · rw [colSetAt_writeCell_ne _ _ _ _ _ hxx]
          exact m2
      · by_cases hbb : x' / 3 = xc / 3 ∧ y' / 3 = yc / 3
        · rw [hbb.1, hbb.2, hbs]
          refine Finset.mem_insert_of_mem ?_
          rw [← hbb.1, ← hbb.2]
          exact m3
        · rw [boxSetAt_writeCell_ne _ _ _ _ _ _ (by tauto)]
          exact m3
    · exact ⟨⟨by omega, hv9⟩, fun _ => ⟨by rw [hrs]; exact Finset.mem_insert_self _ _,
        by rw [hcs]; exact Finset.mem_insert_self _ _,
        by rw [hbs]; exact Finset.mem_insert_self _ _⟩⟩
  · intro y' hy' x1 hx1 x2 hx2 hp1 hp2 hne h0
    rw [hce x1 y'] at h0 ⊢
    rw [hce x2 y']
    rcases hproc x1 y' hx1 hy' hp1 with hp1' | ⟨rfl, rfl⟩
    · rcases hproc x2 y' hx2 hy' hp2 with hp2' | ⟨rfl, rfl⟩
      · exact hrow y' hy' x1 hx1 x2 hx2 hp1' hp2' hne h0
      · intro heq
        exact hrm (heq ▸ (hcell x1 hx1 y' hy' hp1').2 h0).1
    · intro heq
      rcases hproc x2 y' hx2 hy' hp2 with hp2' | ⟨heq2, -⟩
      · exact hrm (heq ▸ (hcell x2 hx2 y' hy' hp2').2 (heq ▸ h0)).1
      · exact absurd heq2.symm hne
  · intro x' hx' y1 hy1 y2 hy2 hp1 hp2 hne h0
    rw [hce x' y1] at h0 ⊢
    rw [hce x' y2]
    rcases hproc x' y1 hx' hy1 hp1 with hp1' | ⟨rfl, rfl⟩
    · rcases hproc x' y2 hx' hy2 hp2 with hp2' | ⟨rfl, rfl⟩
      · exact hcol x' hx' y1 hy1 y2 hy2 hp1' hp2' hne h0
      · intro heq
        exact hcm (heq ▸ (hcell x' hx' y1 hy1 hp1').2 h0).2.1
    · intro heq
      rcases hproc x' y2 hx' hy2 hp2 with hp2' | ⟨-, heq2⟩
      · exact hcm (heq ▸ (hcell x' hx' y2 hy2 hp2').2 (heq ▸ h0)).2.1
      · exact absurd heq2.symm hne
  · intro x1 hx1 y1 hy1 x2 hx2 y2 hy2 hp1 hp2 hdx hdy hne h0
    rw [hce x1 y1] at h0 ⊢
    rw [hce x2 y2]
    rcases hproc x1 y1 hx1 hy1 hp1 with hp1' | ⟨rfl, rfl⟩
    · rcases hproc x2 y2 hx2 hy2 hp2 with hp2' | ⟨rfl, rfl⟩
      · exact hbox x1 hx1 y1 hy1 x2 hx2 y2 hy2 hp1' hp2' hdx hdy hne h0
      · intro heq
        apply hbm
        rw [← hdx, ← hdy]
        exact heq ▸ ((hcell x1 hx1 y1 hy1 hp1').2 h0).2.2
    · intro heq
      rcases hproc x2 y2 hx2 hy2 hp2 with hp2' | ⟨heq2x, heq2y⟩
      · apply hbm
        rw [hdx, hdy]
        exact heq ▸ ((hcell x2 hx2 y2 hy2 hp2').2 (heq ▸ h0)).2.2
      · exact absurd (by rw [heq2x, heq2y]) hne

end PuzzleGrid

end Sudoku